import Mathlib

/-!
# Silergy SYV682x USB-C power path controller driver (driver/ppc/syv682x.c)

A shallow embedding of the driver: the chip behind the I2C bus is a register
file per port, the driver state is the `flags[]` array, and everything the
driver does to the outside (bus transfers, sleeps, console output, charger
notifications) is appended to a log.  The behaviour of the bus and of the
chip's BUSY bit is read from a script, one entry per bus transfer.

Ports are array indices below `CONFIG_USB_PD_PORT_MAX_COUNT`; they are modelled
as natural numbers.  Register values read by the driver are C `int`s holding a
byte, so they are natural numbers below 256 and the only place where the width
of `int` matters is the complement `~mask`.
-/

namespace Syv682x

/-! ## Constants -/

/-- Modelled from the spec: `driver/ppc/syv682x.h`, `common.h` and the board
configuration are not among the sources, so the register addresses, the bit
masks, the field encodings, the timeout status and the `CONFIG_` switches used
by the driver are parameters. `por` is the power-on value of each register. -/
structure Cfg where
  SYV682X_STATUS_REG : Nat
  SYV682X_CONTROL_1_REG : Nat
  SYV682X_CONTROL_2_REG : Nat
  SYV682X_CONTROL_3_REG : Nat
  SYV682X_CONTROL_4_REG : Nat
  SYV682X_STATUS_VSAFE_5V : Nat
  SYV682X_STATUS_VSAFE_0V : Nat
  SYV682X_CONTROL_1_CH_SEL : Nat
  SYV682X_CONTROL_1_HV_DR : Nat
  SYV682X_CONTROL_1_PWR_ENB : Nat
  SYV682X_ILIM_MASK : Nat
  SYV682X_ILIM_BIT_SHIFT : Nat
  SYV682X_ILIM_1_25 : Nat
  SYV682X_ILIM_1_75 : Nat
  SYV682X_ILIM_3_30 : Nat
  SYV682X_CONTROL_2_SDSG : Nat
  SYV682X_BUSY : Nat
  SYV682X_RST_REG : Nat
  SYV682X_OVP_MASK : Nat
  SYV682X_OVP_BIT_SHIFT : Nat
  SYV682X_OVP_23_7 : Nat
  SYV682X_CONTROL_4_CC1_BPS : Nat
  SYV682X_CONTROL_4_CC2_BPS : Nat
  SYV682X_CONTROL_4_VCONN1 : Nat
  SYV682X_CONTROL_4_VCONN2 : Nat
  SYV682X_CONTROL_4_CC_FRS : Nat
  EC_ERROR_TIMEOUT : Nat
  CONFIG_USB_CHARGER : Bool
  CONFIG_USB_PD_VBUS_DETECT_PPC : Bool
  por : Nat → Fin 256

/-- Modelled from the spec: `common.h` is not among the sources; the driver
tests every status with `if (rv)`, so success is the zero status. -/
def EC_SUCCESS : Nat := 0

/-- Modelled from the spec: `timer.h` is not among the sources; the clock counts
microseconds and the spec gives the bound in milliseconds. -/
def MSEC : Nat := 1000

/-- `#define SYV682X_FLAGS_SOURCE_ENABLED BIT(0)` -/
def SYV682X_FLAGS_SOURCE_ENABLED : Nat := 1

/-- `#define SYV682X_FLAGS_CC_POLARITY BIT(1)` -/
def SYV682X_FLAGS_CC_POLARITY : Nat := 2

/-- `#define SYV682X_FLAGS_VBUS_PRESENT BIT(2)` -/
def SYV682X_FLAGS_VBUS_PRESENT : Nat := 4

/-- `#define SYV682X_MAX_VBUS_DISCHARGE_TIME_MS 400` -/
def SYV682X_MAX_VBUS_DISCHARGE_TIME_MS : Nat := 400

/-- The C complement `~m` of a non-negative 32-bit `int`, as a bit pattern. -/
def cnot (m : Nat) : Nat := 2 ^ 32 - 1 - m

/-- Truncation to a byte (`uint8_t` store, 8-bit bus transfer). -/
def toByte (x : Nat) : Fin 256 := ⟨x % 256, Nat.mod_lt x (by decide)⟩

/-! ## The world outside the driver -/

/-- One bus transfer as the environment answers it: the status of the transfer,
the level of the chip's BUSY bit at that moment and the time the transfer (and
any oversleeping before it) takes, in microseconds. -/
structure Access where
  rv : Nat
  busy : Bool
  dt : Nat
deriving DecidableEq

/-- What the driver does to the outside. -/
inductive Event where
  | i2c_read (port reg : Nat)
  | i2c_write (port reg val : Nat)
  | msleep (ms : Nat)
  | cprints_busy_timeout (port : Nat)
  | usb_charger_vbus_change (port : Nat) (vbus : Int)
deriving DecidableEq

/-- The state: chip registers per port, the driver's `flags[]`, the clock
(`get_time().val`), the script of upcoming bus transfers and the log. -/
structure World where
  regs : Nat → Nat → Fin 256
  flags : Nat → Fin 256
  now : Nat
  bus : Nat → Access
  log : List Event

/-- Modelled from the spec: `i2c_read8` is not among the sources. The transfer
takes the next script entry; when it succeeds it returns the register byte,
with the BUSY bit of `CONTROL_3` as the chip drives it at that moment. -/
def i2c_read8 (c : Cfg) (port reg : Nat) (w : World) : Nat × Nat × World :=
  let a := w.bus 0
  let w1 : World :=
    { w with now := w.now + a.dt, bus := fun i => w.bus (i + 1),
             log := w.log ++ [Event.i2c_read port reg] }
  if a.rv ≠ 0 then (a.rv, 0, w1)
  else if reg = c.SYV682X_CONTROL_3_REG then
    (0, (if a.busy then (w.regs port reg).val ||| c.SYV682X_BUSY
         else (w.regs port reg).val &&& cnot c.SYV682X_BUSY), w1)
  else (0, (w.regs port reg).val, w1)

/-- Modelled from the spec: `i2c_write8` is not among the sources. The transfer
takes the next script entry; when it succeeds the chip stores the byte, except
that a write of the self-clearing reset bit to `CONTROL_3` puts every register
of that chip back to its power-on value. -/
def i2c_write8 (c : Cfg) (port reg val : Nat) (w : World) : Nat × World :=
  let a := w.bus 0
  let w1 : World :=
    { w with now := w.now + a.dt, bus := fun i => w.bus (i + 1),
             log := w.log ++ [Event.i2c_write port reg val] }
  if a.rv ≠ 0 then (a.rv, w1)
  else if reg = c.SYV682X_CONTROL_3_REG ∧ val &&& c.SYV682X_RST_REG ≠ 0 then
    (0, { w1 with regs := fun p r => if p = port then c.por r else w1.regs p r })
  else
    (0, { w1 with regs := fun p r =>
            if p = port ∧ r = reg then toByte val else w1.regs p r })

/-- Modelled from the spec: `timestamp_expired` is not among the sources; the
bounded wait has expired once the clock has reached the deadline. -/
def timestamp_expired (deadline : Nat) (w : World) : Bool := decide (deadline ≤ w.now)

/-- Modelled from the spec: `msleep` is not among the sources; the clock
advances by the requested time. -/
def msleep (ms : Nat) (w : World) : World :=
  { w with now := w.now + ms * MSEC, log := w.log ++ [Event.msleep ms] }

/-- `CPRINTS("syv682x p%d: busy timeout", port)` -/
def cprints_busy_timeout (port : Nat) (w : World) : World :=
  { w with log := w.log ++ [Event.cprints_busy_timeout port] }

/-- Modelled from the spec: `usb_charger_vbus_change` is not among the sources;
the call is recorded as a notification of the charging subsystem. -/
def usb_charger_vbus_change (port : Nat) (vbus : Int) (w : World) : World :=
  { w with log := w.log ++ [Event.usb_charger_vbus_change port vbus] }

/-! ## The driver -/

/-- `read_reg` (syv682x.c:29) -/
def read_reg (c : Cfg) (port reg : Nat) (w : World) : Nat × Nat × World :=
  i2c_read8 c port reg w

/-- The `do { ... } while (1)` loop of `syv682x_wait_for_ready` (syv682x.c:50),
with a bound on the number of polls; `none` when the bound runs out. -/
def wait_loop (c : Cfg) (port deadline : Nat) : Nat → World → Option (Nat × World)
  | 0, _ => none
  | fuel + 1, w =>
    let r := read_reg c port c.SYV682X_CONTROL_3_REG w
    if r.1 ≠ 0 then some (r.1, r.2.2)
    else if r.2.1 &&& c.SYV682X_BUSY = 0 then some (EC_SUCCESS, r.2.2)
    else if timestamp_expired deadline r.2.2 then
      some (c.EC_ERROR_TIMEOUT, cprints_busy_timeout port r.2.2)
    else wait_loop c port deadline fuel (msleep 1 r.2.2)

/-- `syv682x_wait_for_ready` (syv682x.c:41). Every pass through the loop that
does not return sleeps 1 ms, so `SYV682X_MAX_VBUS_DISCHARGE_TIME_MS + 1` polls
always suffice (`wait_loop_enough_fuel` below). -/
def syv682x_wait_for_ready (c : Cfg) (port : Nat) (w : World) : Option (Nat × World) :=
  wait_loop c port (w.now + SYV682X_MAX_VBUS_DISCHARGE_TIME_MS * MSEC)
    (SYV682X_MAX_VBUS_DISCHARGE_TIME_MS + 1) w

/-- `write_reg` (syv682x.c:69) -/
def write_reg (c : Cfg) (port reg regval : Nat) (w : World) : Option (Nat × World) :=
  match syv682x_wait_for_ready c port w with
  | none => none
  | some (rv, w1) =>
    if rv ≠ 0 then some (rv, w1)
    else some (i2c_write8 c port reg regval w1)

/-- `syv682x_is_sourcing_vbus` (syv682x.c:83) -/
def syv682x_is_sourcing_vbus (port : Nat) (w : World) : Nat :=
  (w.flags port).val &&& SYV682X_FLAGS_SOURCE_ENABLED

/-- `syv682x_vbus_sink_enable` (syv682x.c:96) -/
def syv682x_vbus_sink_enable (c : Cfg) (port : Nat) (enable : Int) (w : World) :
    Option (Nat × World) :=
  if enable = 0 ∧ syv682x_is_sourcing_vbus port w ≠ 0 then some (EC_SUCCESS, w)
  else
    let r := read_reg c port c.SYV682X_CONTROL_1_REG w
    if r.1 ≠ 0 then some (r.1, r.2.2)
    else
      let regval :=
        if enable ≠ 0 then
          (r.2.1 ||| c.SYV682X_CONTROL_1_CH_SEL)
            &&& cnot (c.SYV682X_CONTROL_1_HV_DR ||| c.SYV682X_CONTROL_1_PWR_ENB)
        else r.2.1 ||| c.SYV682X_CONTROL_1_PWR_ENB
      write_reg c port c.SYV682X_CONTROL_1_REG regval r.2.2

/-- `syv682x_is_vbus_present` (syv682x.c:134), compiled when
`CONFIG_USB_PD_VBUS_DETECT_PPC` is defined. -/
def syv682x_is_vbus_present (c : Cfg) (port : Nat) (w : World) : Nat × World :=
  let r := read_reg c port c.SYV682X_STATUS_REG w
  if r.1 ≠ 0 then (0, r.2.2)
  else
    let val := r.2.1
    let vbus : Nat :=
      if val &&& c.SYV682X_STATUS_VSAFE_5V ≠ 0 ∨
         val &&& (c.SYV682X_STATUS_VSAFE_5V ||| c.SYV682X_STATUS_VSAFE_0V) = 0
      then 1 else 0
    let w1 := r.2.2
    if c.CONFIG_USB_CHARGER then
      let latched : Nat :=
        if (w1.flags port).val &&& SYV682X_FLAGS_VBUS_PRESENT ≠ 0 then 1 else 0
      let w2 := if latched ≠ vbus then usb_charger_vbus_change port vbus w1 else w1
      let f :=
        if vbus ≠ 0 then toByte ((w2.flags port).val ||| SYV682X_FLAGS_VBUS_PRESENT)
        else toByte ((w2.flags port).val &&& cnot SYV682X_FLAGS_VBUS_PRESENT)
      (vbus, { w2 with flags := fun p => if p = port then f else w2.flags p })
    else (vbus, w1)

/-- `syv682x_vbus_source_enable` (syv682x.c:163) -/
def syv682x_vbus_source_enable (c : Cfg) (port : Nat) (enable : Int) (w : World) :
    Option (Nat × World) :=
  let r := read_reg c port c.SYV682X_CONTROL_1_REG w
  if r.1 ≠ 0 then some (r.1, r.2.2)
  else
    let regval :=
      if enable ≠ 0 then
        (r.2.1 &&& cnot (c.SYV682X_CONTROL_1_CH_SEL ||| c.SYV682X_CONTROL_1_PWR_ENB))
          ||| c.SYV682X_CONTROL_1_HV_DR
      else if (r.2.2.flags port).val &&& SYV682X_FLAGS_SOURCE_ENABLED ≠ 0 then
        r.2.1 ||| c.SYV682X_CONTROL_1_PWR_ENB
      else r.2.1
    match write_reg c port c.SYV682X_CONTROL_1_REG regval r.2.2 with
    | none => none
    | some (rv, w1) =>
      if rv ≠ 0 then some (rv, w1)
      else
        let f :=
          if enable ≠ 0 then toByte ((w1.flags port).val ||| SYV682X_FLAGS_SOURCE_ENABLED)
          else toByte ((w1.flags port).val &&& cnot SYV682X_FLAGS_SOURCE_ENABLED)
        let w2 : World := { w1 with flags := fun p => if p = port then f else w1.flags p }
        let w3 :=
          if c.CONFIG_USB_CHARGER ∧ c.CONFIG_USB_PD_VBUS_DETECT_PPC then
            usb_charger_vbus_change port enable w2
          else w2
        some (EC_SUCCESS, w3)

/-- Lines 374-385 of `syv682x_init`: route the CC lines to the TCPC and disable
fast role swap. -/
def init_cc_routing (c : Cfg) (port : Nat) (w : World) : Option (Nat × World) :=
  let r := read_reg c port c.SYV682X_CONTROL_4_REG w
  if r.1 ≠ 0 then some (r.1, r.2.2)
  else
    let regval := (r.2.1 ||| (c.SYV682X_CONTROL_4_CC1_BPS ||| c.SYV682X_CONTROL_4_CC2_BPS))
      ||| c.SYV682X_CONTROL_4_CC_FRS
    match write_reg c port c.SYV682X_CONTROL_4_REG regval r.2.2 with
    | none => none
    | some (rv, w1) => if rv ≠ 0 then some (rv, w1) else some (EC_SUCCESS, w1)

/-- Lines 357-372 of `syv682x_init`: the dead battery check and the power path
step, followed by the rest of the function. -/
def init_power_path (c : Cfg) (port : Nat) (w : World) : Option (Nat × World) :=
  let r := read_reg c port c.SYV682X_STATUS_REG w
  if r.1 ≠ 0 then some (r.1, r.2.2)
  else if r.2.1 &&& c.SYV682X_STATUS_VSAFE_0V ≠ 0 then
    let r1 := read_reg c port c.SYV682X_CONTROL_1_REG r.2.2
    if r1.1 ≠ 0 then some (r1.1, r1.2.2)
    else
      match write_reg c port c.SYV682X_CONTROL_1_REG
          (r1.2.1 ||| c.SYV682X_CONTROL_1_PWR_ENB) r1.2.2 with
      | none => none
      | some (rv, w1) => if rv ≠ 0 then some (rv, w1) else init_cc_routing c port w1
  else
    match syv682x_vbus_sink_enable c port 1 r.2.2 with
    | none => none
    | some (_, w1) => init_cc_routing c port w1

/-- Lines 334-355 of `syv682x_init`: smart discharge and the OVP threshold,
followed by the rest of the function. -/
def init_discharge_ovp (c : Cfg) (port : Nat) (w : World) : Option (Nat × World) :=
  let r := read_reg c port c.SYV682X_CONTROL_2_REG w
  if r.1 ≠ 0 then some (r.1, r.2.2)
  else
    match write_reg c port c.SYV682X_CONTROL_2_REG
        (r.2.1 ||| c.SYV682X_CONTROL_2_SDSG) r.2.2 with
    | none => none
    | some (rv, w1) =>
      if rv ≠ 0 then some (rv, w1)
      else
        let r1 := read_reg c port c.SYV682X_CONTROL_3_REG w1
        if r1.1 ≠ 0 then some (r1.1, r1.2.2)
        else
          match write_reg c port c.SYV682X_CONTROL_3_REG
              ((r1.2.1 &&& cnot c.SYV682X_OVP_MASK)
                ||| (c.SYV682X_OVP_23_7 <<< c.SYV682X_OVP_BIT_SHIFT)) r1.2.2 with
          | none => none
          | some (rv1, w2) =>
            if rv1 ≠ 0 then some (rv1, w2) else init_power_path c port w2

/-- `syv682x_init` (syv682x.c:316) -/
def syv682x_init (c : Cfg) (port : Nat) (w : World) : Option (Nat × World) :=
  match write_reg c port c.SYV682X_CONTROL_3_REG c.SYV682X_RST_REG w with
  | none => none
  | some (rv, w1) =>
    if rv ≠ 0 then some (rv, w1)
    else
      match syv682x_wait_for_ready c port w1 with
      | none => none
      | some (rv1, w2) =>
        if rv1 ≠ 0 then some (rv1, w2) else init_discharge_ovp c port w2

/-! ## Vocabulary of the properties -/

/-- The sink path of a port is active: `CONTROL_1` has CH_SEL set and HV_DR and
PWR_ENB clear. -/
def sink_active (c : Cfg) (port : Nat) (w : World) : Prop :=
  (w.regs port c.SYV682X_CONTROL_1_REG).val &&& c.SYV682X_CONTROL_1_CH_SEL ≠ 0 ∧
  (w.regs port c.SYV682X_CONTROL_1_REG).val &&& c.SYV682X_CONTROL_1_HV_DR = 0 ∧
  (w.regs port c.SYV682X_CONTROL_1_REG).val &&& c.SYV682X_CONTROL_1_PWR_ENB = 0

instance (c : Cfg) (port : Nat) (w : World) : Decidable (sink_active c port w) := by
  unfold sink_active; infer_instance

/-- The events a call has appended to the log. -/
def new_events (w w1 : World) : List Event := w1.log.drop w.log.length

/-- Register writes put on the bus. -/
def Event.isWrite : Event → Bool
  | Event.i2c_write _ _ _ => true
  | _ => false

/-- Notifications of the charging subsystem. -/
def Event.isNotify : Event → Bool
  | Event.usb_charger_vbus_change _ _ => true
  | _ => false

/-- The clock right after the poll number `i` (counted from 0) of a busy wait
that starts in `w`, when every earlier poll was followed by the 1 ms sleep. -/
def poll_time (w : World) : Nat → Nat
  | 0 => w.now + (w.bus 0).dt
  | i + 1 => poll_time w i + 1 * MSEC + (w.bus (i + 1)).dt

/-- The log of `k` busy polls, each followed by the 1 ms sleep. -/
def poll_log (c : Cfg) (port : Nat) : Nat → List Event
  | 0 => []
  | k + 1 => Event.i2c_read port c.SYV682X_CONTROL_3_REG :: Event.msleep 1 :: poll_log c port k

/-- The constants of `CONTROL_1` are three different bits of a byte: non-zero
masks below 256 that do not overlap; `CONTROL_1` is not the register that holds
the reset bit. -/
def Cfg.control1_ok (c : Cfg) : Prop :=
  c.SYV682X_CONTROL_1_CH_SEL ≠ 0 ∧ c.SYV682X_CONTROL_1_HV_DR ≠ 0 ∧
  c.SYV682X_CONTROL_1_PWR_ENB ≠ 0 ∧
  c.SYV682X_CONTROL_1_CH_SEL < 256 ∧ c.SYV682X_CONTROL_1_HV_DR < 256 ∧
  c.SYV682X_CONTROL_1_PWR_ENB < 256 ∧
  c.SYV682X_CONTROL_1_CH_SEL &&& c.SYV682X_CONTROL_1_HV_DR = 0 ∧
  c.SYV682X_CONTROL_1_CH_SEL &&& c.SYV682X_CONTROL_1_PWR_ENB = 0 ∧
  c.SYV682X_CONTROL_1_HV_DR &&& c.SYV682X_CONTROL_1_PWR_ENB = 0 ∧
  c.SYV682X_CONTROL_1_REG ≠ c.SYV682X_CONTROL_3_REG

instance (c : Cfg) : Decidable c.control1_ok := by
  unfold Cfg.control1_ok; infer_instance

/-- BUSY is a non-zero mask of a byte. -/
def Cfg.busy_ok (c : Cfg) : Prop := c.SYV682X_BUSY ≠ 0 ∧ c.SYV682X_BUSY < 256

instance (c : Cfg) : Decidable c.busy_ok := by
  unfold Cfg.busy_ok; infer_instance

/-- A call of one of the two VBUS path functions. -/
inductive Call where
  | sink (port : Nat) (enable : Int)
  | source (port : Nat) (enable : Int)
deriving DecidableEq

/-- Run one call. -/
def Call.exec (c : Cfg) : Call → World → Option (Nat × World)
  | Call.sink port enable, w => syv682x_vbus_sink_enable c port enable w
  | Call.source port enable, w => syv682x_vbus_source_enable c port enable w

/-- The states reached after each call of a sequence. -/
def states_after (c : Cfg) : List Call → World → List World
  | [], _ => []
  | x :: xs, w =>
    match x.exec c w with
    | none => []
    | some (_, w1) => w1 :: states_after c xs w1

/-- No call of the sequence enables the sink path of a port at a moment when
that port's SOURCE_ENABLED flag is set. -/
def sink_enable_only_when_not_sourcing (c : Cfg) : List Call → World → Prop
  | [], _ => True
  | x :: xs, w =>
    (match x with
     | Call.sink port enable => enable ≠ 0 → syv682x_is_sourcing_vbus port w = 0
     | Call.source _ _ => True) ∧
    (match x.exec c w with
     | none => True
     | some (_, w1) => sink_enable_only_when_not_sourcing c xs w1)

/-- The hardware changes the status register of a port. -/
def set_status (c : Cfg) (port : Nat) (s : Fin 256) (w : World) : World :=
  { w with regs := fun p r => if p = port ∧ r = c.SYV682X_STATUS_REG then s else w.regs p r }

/-- Call `syv682x_is_vbus_present` once for each status value in turn, the chip
showing that value when the call is made; the values returned, and the final
state. -/
def poll_vbus (c : Cfg) (port : Nat) : List (Fin 256) → World → List Nat × World
  | [], w => ([], w)
  | s :: ss, w =>
    let r := syv682x_is_vbus_present c port (set_status c port s w)
    let rest := poll_vbus c port ss r.2
    (r.1 :: rest.1, rest.2)

/-- The values of a sequence that differ from the value before them, `prev`
being the value before the first. -/
def changes (prev : Nat) : List Nat → List Nat
  | [] => []
  | x :: xs => (if x ≠ prev then [x] else []) ++ changes x xs

/-- The latched VBUS_PRESENT flag of a port, as 0 or 1. -/
def vbus_latched (port : Nat) (w : World) : Nat :=
  if (w.flags port).val &&& SYV682X_FLAGS_VBUS_PRESENT ≠ 0 then 1 else 0

/-! ## Concrete inputs -/

/-- One instance of the parameters, used to evaluate the driver on concrete
inputs: the register layout of the SYV682x data sheet, the timeout status 4,
every register zero after power-on, and both `CONFIG_` switches on as in the
volteer baseboard (baseboard.h:123 and 183). -/
def syv682x_h : Cfg where
  SYV682X_STATUS_REG := 0
  SYV682X_CONTROL_1_REG := 1
  SYV682X_CONTROL_2_REG := 2
  SYV682X_CONTROL_3_REG := 3
  SYV682X_CONTROL_4_REG := 4
  SYV682X_STATUS_VSAFE_5V := 2
  SYV682X_STATUS_VSAFE_0V := 1
  SYV682X_CONTROL_1_CH_SEL := 2
  SYV682X_CONTROL_1_HV_DR := 4
  SYV682X_CONTROL_1_PWR_ENB := 128
  SYV682X_ILIM_MASK := 24
  SYV682X_ILIM_BIT_SHIFT := 3
  SYV682X_ILIM_1_25 := 0
  SYV682X_ILIM_1_75 := 1
  SYV682X_ILIM_3_30 := 3
  SYV682X_CONTROL_2_SDSG := 2
  SYV682X_BUSY := 128
  SYV682X_RST_REG := 1
  SYV682X_OVP_MASK := 112
  SYV682X_OVP_BIT_SHIFT := 4
  SYV682X_OVP_23_7 := 4
  SYV682X_CONTROL_4_CC1_BPS := 128
  SYV682X_CONTROL_4_CC2_BPS := 64
  SYV682X_CONTROL_4_VCONN1 := 32
  SYV682X_CONTROL_4_VCONN2 := 16
  SYV682X_CONTROL_4_CC_FRS := 2
  EC_ERROR_TIMEOUT := 4
  CONFIG_USB_CHARGER := true
  CONFIG_USB_PD_VBUS_DETECT_PPC := true
  por := fun _ => 0

/-- A bus on which every transfer succeeds at once and the chip is never busy. -/
def quiet_bus : Nat → Access := fun _ => { rv := 0, busy := false, dt := 0 }

/-- A bus on which the chip is busy for the first `k` transfers. -/
def busy_then_quiet (k : Nat) : Nat → Access :=
  fun i => { rv := 0, busy := decide (i < k), dt := 0 }

/-- The state after power-up with a charger attached: all flags clear, every
register zero (so VSAFE_0V is not asserted), a quiet bus. -/
def boot : World where
  regs := fun _ _ => 0
  flags := fun _ => 0
  now := 0
  bus := quiet_bus
  log := []

/-- A state in which port 0 is sourcing: SOURCE_ENABLED set, `CONTROL_1` with the
5 V path on (HV_DR set, CH_SEL and PWR_ENB clear). -/
def sourcing0 : World where
  regs := fun p r => if p = 0 ∧ r = 1 then 4 else 0
  flags := fun p => if p = 0 then 1 else 0
  now := 0
  bus := quiet_bus
  log := []

/-- The state after power-up, with a chip that stays busy and a bus so slow that
the first poll of a busy wait already takes the whole 400 ms. -/
def stuck0 : World where
  regs := fun _ _ => 0
  flags := fun _ => 0
  now := 0
  bus := fun _ => { rv := 0, busy := true, dt := 400000 }
  log := []

/-- The state after power-up, with a chip that is busy for the first three
transfers. -/
def busy3 : World where
  regs := fun _ _ => 0
  flags := fun _ => 0
  now := 0
  bus := busy_then_quiet 3
  log := []

/-- A state in which port 0 is not sourcing and `CONTROL_1` holds 0x9c: the 5 V
path selected in source direction, the channel off, both ILIM bits set. -/
def idle0 : World where
  regs := fun p r => if p = 0 ∧ r = 1 then 156 else 0
  flags := fun p => if p = 0 then 2 else 0
  now := 0
  bus := quiet_bus
  log := []

/-- A state in which port 0 is sinking: no flag set, `CONTROL_1` with the high
voltage path on in sink direction (CH_SEL set, HV_DR and PWR_ENB clear). -/
def sinking0 : World where
  regs := fun p r => if p = 0 ∧ r = 1 then 2 else 0
  flags := fun _ => 0
  now := 0
  bus := quiet_bus
  log := []

/-- A state in which port 0 has latched VBUS as absent and the status register
shows neither VSAFE_5V nor VSAFE_0V (VBUS above 5 V). -/
def vbus_high0 : World where
  regs := fun _ _ => 0
  flags := fun _ => 0
  now := 0
  bus := quiet_bus
  log := []

/-- The time that has passed, counted from the start of a busy wait, right
after the poll number `i` (counted from 0) when the polls are answered by `bus`
and every earlier poll was followed by the 1 ms sleep. -/
def elapsed (bus : Nat → Access) : Nat → Nat
  | 0 => (bus 0).dt
  | i + 1 => elapsed bus i + 1 * MSEC + (bus (i + 1)).dt

/-- Every bus transfer succeeds and the chip is never busy past the bound: from
any position of the script on, the BUSY bit reads busy on some number `k` of
transfers, each of them within the 400 ms of a busy wait that starts there, and
not busy on the next one. -/
def bus_ok (bus : Nat → Access) : Prop :=
  (∀ i, (bus i).rv = 0) ∧
  ∀ j, ∃ k, (∀ i, i < k → (bus (j + i)).busy = true) ∧ (bus (j + k)).busy = false ∧
    ∀ i, i < k → elapsed (fun m => bus (j + m)) i < SYV682X_MAX_VBUS_DISCHARGE_TIME_MS * MSEC

/-- The five register addresses are different. -/
def Cfg.regs_distinct (c : Cfg) : Prop :=
  [c.SYV682X_STATUS_REG, c.SYV682X_CONTROL_1_REG, c.SYV682X_CONTROL_2_REG,
    c.SYV682X_CONTROL_3_REG, c.SYV682X_CONTROL_4_REG].Nodup

instance (c : Cfg) : Decidable c.regs_distinct := by
  unfold Cfg.regs_distinct; infer_instance

/-- The OVP field is a mask of a byte and the encoding of the 23.7 V setting,
shifted into place, lies inside it. -/
def Cfg.ovp_ok (c : Cfg) : Prop :=
  c.SYV682X_OVP_MASK < 256 ∧
  (c.SYV682X_OVP_23_7 <<< c.SYV682X_OVP_BIT_SHIFT) &&& c.SYV682X_OVP_MASK
    = c.SYV682X_OVP_23_7 <<< c.SYV682X_OVP_BIT_SHIFT

instance (c : Cfg) : Decidable c.ovp_ok := by
  unfold Cfg.ovp_ok; infer_instance

/-- The first three steps of `syv682x_init` (soft reset and wait, smart
discharge, OVP threshold) all succeed when started in `w`: `w2` is the state in
which `CONTROL_2` is read, `w3` the state in which `CONTROL_3` is read and `w4`
the state in which the status register is read. -/
def init_steps_1_3 (c : Cfg) (port : Nat) (w w2 w3 w4 : World) : Prop :=
  (∃ w1, write_reg c port c.SYV682X_CONTROL_3_REG c.SYV682X_RST_REG w = some (EC_SUCCESS, w1) ∧
    syv682x_wait_for_ready c port w1 = some (EC_SUCCESS, w2)) ∧
  (read_reg c port c.SYV682X_CONTROL_2_REG w2).1 = 0 ∧
  write_reg c port c.SYV682X_CONTROL_2_REG
    ((read_reg c port c.SYV682X_CONTROL_2_REG w2).2.1 ||| c.SYV682X_CONTROL_2_SDSG)
    (read_reg c port c.SYV682X_CONTROL_2_REG w2).2.2 = some (EC_SUCCESS, w3) ∧
  (read_reg c port c.SYV682X_CONTROL_3_REG w3).1 = 0 ∧
  write_reg c port c.SYV682X_CONTROL_3_REG
    (((read_reg c port c.SYV682X_CONTROL_3_REG w3).2.1 &&& cnot c.SYV682X_OVP_MASK)
      ||| (c.SYV682X_OVP_23_7 <<< c.SYV682X_OVP_BIT_SHIFT))
    (read_reg c port c.SYV682X_CONTROL_3_REG w3).2.2 = some (EC_SUCCESS, w4)

/-- The value `syv682x_init` writes to `CONTROL_1` in its power path step when
it reads the status register in `w4`: the value read from `CONTROL_1` with
PWR_ENB set when VSAFE_0V is asserted, and with the sink path enabled (as
`syv682x_vbus_sink_enable(port, 1)` computes it) when it is not. -/
def init_control_1 (c : Cfg) (port : Nat) (w4 : World) : Nat :=
  if (read_reg c port c.SYV682X_STATUS_REG w4).2.1 &&& c.SYV682X_STATUS_VSAFE_0V ≠ 0 then
    (read_reg c port c.SYV682X_CONTROL_1_REG
      (read_reg c port c.SYV682X_STATUS_REG w4).2.2).2.1 ||| c.SYV682X_CONTROL_1_PWR_ENB
  else
    ((read_reg c port c.SYV682X_CONTROL_1_REG
      (read_reg c port c.SYV682X_STATUS_REG w4).2.2).2.1 ||| c.SYV682X_CONTROL_1_CH_SEL)
      &&& cnot (c.SYV682X_CONTROL_1_HV_DR ||| c.SYV682X_CONTROL_1_PWR_ENB)

/-- The value `syv682x_init` writes to `CONTROL_4` when it reads it in `w5`. -/
def init_control_4 (c : Cfg) (port : Nat) (w5 : World) : Nat :=
  ((read_reg c port c.SYV682X_CONTROL_4_REG w5).2.1
    ||| (c.SYV682X_CONTROL_4_CC1_BPS ||| c.SYV682X_CONTROL_4_CC2_BPS))
    ||| c.SYV682X_CONTROL_4_CC_FRS

/-- The last two steps of `syv682x_init` (power path, CC routing) succeed when
the status register is read in `w4`: `w5` is the state in which `CONTROL_4` is
read and `wf` the state in which init returns. -/
def init_steps_4_5 (c : Cfg) (port : Nat) (w4 w5 wf : World) : Prop :=
  (read_reg c port c.SYV682X_STATUS_REG w4).1 = 0 ∧
  (read_reg c port c.SYV682X_CONTROL_1_REG (read_reg c port c.SYV682X_STATUS_REG w4).2.2).1 = 0 ∧
  write_reg c port c.SYV682X_CONTROL_1_REG (init_control_1 c port w4)
    (read_reg c port c.SYV682X_CONTROL_1_REG
      (read_reg c port c.SYV682X_STATUS_REG w4).2.2).2.2 = some (EC_SUCCESS, w5) ∧
  (read_reg c port c.SYV682X_CONTROL_4_REG w5).1 = 0 ∧
  write_reg c port c.SYV682X_CONTROL_4_REG (init_control_4 c port w5)
    (read_reg c port c.SYV682X_CONTROL_4_REG w5).2.2 = some (EC_SUCCESS, wf)

/-- The instance `syv682x_h` with a chip whose status register shows VSAFE_0V
after power-on (no charger attached). -/
def syv682x_h_0v : Cfg :=
  { syv682x_h with por := fun r => if r = 0 then 1 else 0 }

/-- The state after power-up with a charger attached (status register zero, so
VSAFE_0V is not asserted) and a chip that reads busy on the bus transfers 11 to
411: transfer 11 is the first BUSY poll of the `write_reg` inside
`syv682x_vbus_sink_enable` when `syv682x_init` runs from this state, and 401
polls, 1 ms apart, take the wait past its 400 ms bound. -/
def busy_at_sink_enable : World where
  regs := fun _ _ => 0
  flags := fun _ => 0
  now := 0
  bus := fun i => { rv := 0, busy := decide (11 ≤ i ∧ i < 412), dt := 0 }
  log := []

/-! ## Current limit, polarity and VCONN -/

/-- `syv682x_set_vbus_source_current_limit` (syv682x.c:216). `usb_pd_tcpm.h` is
not among the sources, so the three `enum tcpc_rp_value` constants named by the
`switch` are parameters and `rp` is the `int` behind the enum. -/
def syv682x_set_vbus_source_current_limit (c : Cfg)
    (TYPEC_RP_USB TYPEC_RP_1A5 TYPEC_RP_3A0 : Int) (port : Nat) (rp : Int) (w : World) :
    Option (Nat × World) :=
  let r := read_reg c port c.SYV682X_CONTROL_1_REG w
  if r.1 ≠ 0 then some (r.1, r.2.2)
  else
    let limit :=
      if rp = TYPEC_RP_3A0 then c.SYV682X_ILIM_3_30
      else if rp = TYPEC_RP_1A5 then c.SYV682X_ILIM_1_75
      else if rp = TYPEC_RP_USB then c.SYV682X_ILIM_1_25
      else c.SYV682X_ILIM_1_25
    let regval := (r.2.1 &&& cnot c.SYV682X_ILIM_MASK)
      ||| (limit <<< c.SYV682X_ILIM_BIT_SHIFT)
    write_reg c port c.SYV682X_CONTROL_1_REG regval r.2.2

/-- `syv682x_set_polarity` (syv682x.c:250), compiled when
`CONFIG_USBC_PPC_POLARITY` is defined. -/
def syv682x_set_polarity (port : Nat) (polarity : Int) (w : World) : Nat × World :=
  let f :=
    if polarity ≠ 0 then toByte ((w.flags port).val ||| SYV682X_FLAGS_CC_POLARITY)
    else toByte ((w.flags port).val &&& cnot SYV682X_FLAGS_CC_POLARITY)
  (EC_SUCCESS, { w with flags := fun p => if p = port then f else w.flags p })

/-- `syv682x_set_vconn` (syv682x.c:270), compiled when `CONFIG_USBC_PPC_VCONN` is
defined. -/
def syv682x_set_vconn (c : Cfg) (port : Nat) (enable : Int) (w : World) :
    Option (Nat × World) :=
  let r := read_reg c port c.SYV682X_CONTROL_4_REG w
  if r.1 ≠ 0 then some (r.1, r.2.2)
  else
    let regval :=
      if enable ≠ 0 then
        r.2.1 ||| (if (r.2.2.flags port).val &&& SYV682X_FLAGS_CC_POLARITY ≠ 0
                   then c.SYV682X_CONTROL_4_VCONN1 else c.SYV682X_CONTROL_4_VCONN2)
      else r.2.1 &&& cnot (c.SYV682X_CONTROL_4_VCONN2 ||| c.SYV682X_CONTROL_4_VCONN1)
    write_reg c port c.SYV682X_CONTROL_4_REG regval r.2.2

/-- The ILIM field is a mask of a byte that holds each of the three encodings
the driver writes, and it shares no bit with the path, direction and PWR_ENB
bits of `CONTROL_1`. -/
def Cfg.ilim_ok (c : Cfg) : Prop :=
  c.SYV682X_ILIM_MASK < 256 ∧
  (c.SYV682X_ILIM_1_25 <<< c.SYV682X_ILIM_BIT_SHIFT) &&& c.SYV682X_ILIM_MASK
    = c.SYV682X_ILIM_1_25 <<< c.SYV682X_ILIM_BIT_SHIFT ∧
  (c.SYV682X_ILIM_1_75 <<< c.SYV682X_ILIM_BIT_SHIFT) &&& c.SYV682X_ILIM_MASK
    = c.SYV682X_ILIM_1_75 <<< c.SYV682X_ILIM_BIT_SHIFT ∧
  (c.SYV682X_ILIM_3_30 <<< c.SYV682X_ILIM_BIT_SHIFT) &&& c.SYV682X_ILIM_MASK
    = c.SYV682X_ILIM_3_30 <<< c.SYV682X_ILIM_BIT_SHIFT ∧
  ((c.SYV682X_CONTROL_1_CH_SEL ||| c.SYV682X_CONTROL_1_HV_DR)
    ||| c.SYV682X_CONTROL_1_PWR_ENB) &&& c.SYV682X_ILIM_MASK = 0 ∧
  c.SYV682X_CONTROL_1_REG ≠ c.SYV682X_CONTROL_3_REG

instance (c : Cfg) : Decidable c.ilim_ok := by
  unfold Cfg.ilim_ok; infer_instance

/-- The two VCONN switches are bits of a byte and `CONTROL_4` is not the
register that carries the BUSY and reset bits. -/
def Cfg.control4_ok (c : Cfg) : Prop :=
  c.SYV682X_CONTROL_4_VCONN1 < 256 ∧ c.SYV682X_CONTROL_4_VCONN2 < 256 ∧
  c.SYV682X_CONTROL_4_REG ≠ c.SYV682X_CONTROL_3_REG

instance (c : Cfg) : Decidable c.control4_ok := by
  unfold Cfg.control4_ok; infer_instance

/-- A bus on which the transfer number `k` fails with status `rv` and the chip is
never busy. -/
def failing_bus (k rv : Nat) : Nat → Access :=
  fun i => { rv := if i = k then rv else 0, busy := false, dt := 0 }

/-- The state `sourcing0` with a bus on which the third transfer (the register
write of a read, poll, write sequence) fails with status 5. -/
def write_fails0 : World := { sourcing0 with bus := failing_bus 2 5 }

/-- The state after initialisation on port 0: `CONTROL_4` routes both CC lines to
the TCPC with fast role swap disabled, no flag set. -/
def routed0 : World where
  regs := fun p r => if p = 0 ∧ r = 4 then 194 else 0
  flags := fun _ => 0
  now := 0
  bus := quiet_bus
  log := []

/-- The state after power-up with a bus on which every transfer succeeds and the
chip reads busy on transfer 11, which takes 400 ms: transfer 11 is the first BUSY
poll of the `write_reg` of the power path step when `syv682x_init` runs from
this state, and that one poll takes the wait to its bound. -/
def slow_at_power_path : World where
  regs := fun _ _ => 0
  flags := fun _ => 0
  now := 0
  bus := fun i => { rv := 0, busy := decide (i = 11), dt := if i = 11 then 400000 else 0 }
  log := []

/-- The state `sourcing0` with the bus of `stuck0`: port 0 is sourcing, every
transfer succeeds, the chip stays busy and each transfer takes 400 ms. -/
def sourcing_stuck0 : World := { sourcing0 with bus := stuck0.bus }

end Syv682x

/-!
# Host commands of the USB-PD module (common/usb_pd_host_cmd.c)

The state of the identity cache is the global `rw_hash_table` and the function
static `rw_hash_next_idx`. `RW_HASH_ENTRIES`, the port count, the two response
sizes and `tcpm_get_chip_info` come from files that are not among the sources and
are parameters of the handlers.
-/

namespace UsbPdHostCmd

/-- Modelled from the spec: `ec_commands.h` is not among the sources; the three
statuses the handlers of this file return ("success / invalid-parameter /
generic-error"). -/
inductive ec_status where
  | EC_RES_SUCCESS
  | EC_RES_ERROR
  | EC_RES_INVALID_PARAM
deriving DecidableEq

/-- Modelled from the spec: `struct ec_params_usb_pd_rw_hash_entry` of
`ec_commands.h`, which is not among the sources: "{ dev_id, rw_hash: bytes,
image_info }". The handler reads `dev_id` and copies the struct as a whole. -/
structure ec_params_usb_pd_rw_hash_entry where
  dev_id : Nat
  dev_rw_hash : List Nat
  current_image : Nat
deriving DecidableEq

/-- The global `rw_hash_table` (slot `i` of the array for `i < RW_HASH_ENTRIES`)
and the static `rw_hash_next_idx` of `hc_remote_rw_hash_entry`. -/
structure HashState where
  rw_hash_table : Nat → ec_params_usb_pd_rw_hash_entry
  rw_hash_next_idx : Nat

/-- The zero-initialised entry. -/
def zero_entry : ec_params_usb_pd_rw_hash_entry :=
  { dev_id := 0, dev_rw_hash := [], current_image := 0 }

/-- The state at start-up: statics are zero-initialised. -/
def HashState.init : HashState :=
  { rw_hash_table := fun _ => zero_entry, rw_hash_next_idx := 0 }

/-- The `for (i = 0; i < RW_HASH_ENTRIES; i++)` loop of `hc_remote_rw_hash_entry`
(usb_pd_host_cmd.c:46), with `n` iterations left at index `i`: the first index
whose slot holds `dev_id`, if there is one. -/
def find_dev_id (table : Nat → ec_params_usb_pd_rw_hash_entry) (dev_id : Nat) :
    Nat → Nat → Option Nat
  | 0, _ => none
  | n + 1, i => if dev_id = (table i).dev_id then some i else find_dev_id table dev_id n (i + 1)

/-- `memcpy(&rw_hash_table[idx], p, sizeof(*p))` -/
def store_entry (table : Nat → ec_params_usb_pd_rw_hash_entry) (idx : Nat)
    (p : ec_params_usb_pd_rw_hash_entry) : Nat → ec_params_usb_pd_rw_hash_entry :=
  fun i => if i = idx then p else table i

/-- `hc_remote_rw_hash_entry` (usb_pd_host_cmd.c:36); `p` is the request payload
`args->params`. -/
def hc_remote_rw_hash_entry (RW_HASH_ENTRIES : Nat) (p : ec_params_usb_pd_rw_hash_entry)
    (s : HashState) : ec_status × HashState :=
  if p.dev_id = 0 then (ec_status.EC_RES_INVALID_PARAM, s)
  else
    match find_dev_id s.rw_hash_table p.dev_id RW_HASH_ENTRIES 0 with
    | some idx =>
      (ec_status.EC_RES_SUCCESS, { s with rw_hash_table := store_entry s.rw_hash_table idx p })
    | none =>
      let idx := s.rw_hash_next_idx
      let next := s.rw_hash_next_idx + 1
      (ec_status.EC_RES_SUCCESS,
        { rw_hash_table := store_entry s.rw_hash_table idx p,
          rw_hash_next_idx := if next = RW_HASH_ENTRIES then 0 else next })

/-- A sequence of requests handled one after the other; the state afterwards. -/
def upsert_all (RW_HASH_ENTRIES : Nat) :
    List ec_params_usb_pd_rw_hash_entry → HashState → HashState
  | [], s => s
  | p :: ps, s => upsert_all RW_HASH_ENTRIES ps (hc_remote_rw_hash_entry RW_HASH_ENTRIES p s).2

/-- The table holds no non-zero `dev_id` in two different slots, the cursor is
a slot index, and nothing was ever stored outside the table. -/
def table_ok (RW_HASH_ENTRIES : Nat) (s : HashState) : Prop :=
  s.rw_hash_next_idx < RW_HASH_ENTRIES ∧
  (∀ i j, i < RW_HASH_ENTRIES → j < RW_HASH_ENTRIES →
    (s.rw_hash_table i).dev_id = (s.rw_hash_table j).dev_id →
    (s.rw_hash_table i).dev_id ≠ 0 → i = j) ∧
  ∀ i, RW_HASH_ENTRIES ≤ i → s.rw_hash_table i = zero_entry

/-- Modelled from the spec: `struct ec_params_pd_chip_info` of `ec_commands.h`,
which is not among the sources: "{ port: u8, live: bool }". -/
structure ec_params_pd_chip_info where
  port : Nat
  live : Nat

/-- The fields of `struct host_cmd_handler_args` that `hc_remote_pd_chip_info`
uses besides the parameters: the command version, the response buffer (as
bytes) and the response size. -/
structure host_cmd_handler_args where
  version : Nat
  response : List Nat
  response_size : Nat

/-- `memcpy(dest, src, n)` on byte sequences. -/
def memcpy (dest src : List Nat) (n : Nat) : List Nat := src.take n ++ dest.drop n

/-- `hc_remote_pd_chip_info` (usb_pd_host_cmd.c:71). `port_count` is
`board_get_usb_pd_port_count()`; `tcpm_get_chip_info port live` gives the status
and the bytes of the `struct ec_response_pd_chip_info_v1` that `info` points to;
`sizeof_v0` and `sizeof_v1` are the sizes of the two response structs. -/
def hc_remote_pd_chip_info (port_count : Nat) (tcpm_get_chip_info : Nat → Nat → Nat × List Nat)
    (sizeof_v0 sizeof_v1 : Nat) (p : ec_params_pd_chip_info) (args : host_cmd_handler_args) :
    ec_status × host_cmd_handler_args :=
  if p.port ≥ port_count then (ec_status.EC_RES_INVALID_PARAM, args)
  else
    let r := tcpm_get_chip_info p.port p.live
    if r.1 ≠ 0 then (ec_status.EC_RES_ERROR, args)
    else
      let response_size := if args.version ≠ 0 then sizeof_v1 else sizeof_v0
      (ec_status.EC_RES_SUCCESS,
        { args with response_size := response_size,
                    response := memcpy args.response r.2 response_size })

/-- An empty table of three slots whose cursor is at the last slot. -/
def cursor_at_last : HashState :=
  { rw_hash_table := fun _ => zero_entry, rw_hash_next_idx := 2 }

/-- A request for device 5. -/
def entry5 : ec_params_usb_pd_rw_hash_entry :=
  { dev_id := 5, dev_rw_hash := [9], current_image := 1 }

/-- A second request for device 5, with another hash. -/
def entry5b : ec_params_usb_pd_rw_hash_entry :=
  { dev_id := 5, dev_rw_hash := [8], current_image := 2 }

/-- A request for device 6. -/
def entry6 : ec_params_usb_pd_rw_hash_entry :=
  { dev_id := 6, dev_rw_hash := [7], current_image := 1 }

/-- A request for device 7. -/
def entry7 : ec_params_usb_pd_rw_hash_entry :=
  { dev_id := 7, dev_rw_hash := [6], current_image := 1 }

/-- A request with the reserved device id 0. -/
def entry0 : ec_params_usb_pd_rw_hash_entry :=
  { dev_id := 0, dev_rw_hash := [1, 2, 3], current_image := 7 }

/-- A chip-info source for two ports: port 0 answers with an eight byte
`struct ec_response_pd_chip_info_v1`, port 1 fails. -/
def sample_chip_info : Nat → Nat → Nat × List Nat :=
  fun port _ => if port = 0 then (0, [1, 2, 3, 4, 5, 6, 7, 8]) else (1, [])

/-- A version 0 request buffer. -/
def args_v0 : host_cmd_handler_args :=
  { version := 0, response := [0, 0, 0, 0, 0, 0, 0, 0, 0, 0], response_size := 0 }

/-- A version 1 request buffer. -/
def args_v1 : host_cmd_handler_args :=
  { version := 1, response := [9, 9, 9, 9, 9, 9, 9, 9, 9, 9], response_size := 0 }

end UsbPdHostCmd

namespace UsbcTask

/-! ## The port task and the interrupt task (usbc_task.c) -/

/-- `#define USBC_EVENT_TIMEOUT (5 * MSEC)` -/
def USBC_EVENT_TIMEOUT : Int := 5 * (Syv682x.MSEC : Int)

/-- `#define PD_PROCESS_INTERRUPT (1<<0)` -/
def PD_PROCESS_INTERRUPT : Nat := 1 <<< 0

/-- The calls that leave this file, with their arguments; a call whose result
the caller uses carries the result as its last field. -/
inductive Call where
  | task_set_event (tskid event : Nat) (wait : Int)
  | task_wait_event (timeout_us : Int) (evt : Nat)
  | tc_state_init (port : Nat)
  | ppc_init (port : Nat)
  | tc_event_check (port evt : Nat)
  | tcpc_run (port evt : Nat)
  | pe_run (port evt : Nat) (en : Int)
  | prl_run (port evt : Nat) (en : Int)
  | tc_run (port : Nat)
  | tcpc_get_alert_status (status : Nat)
  | pd_is_port_enabled (port : Nat) (enabled : Int)
  | tcpc_alert (port : Nat)
deriving DecidableEq

/-- The memory the external modules can change: the `paused[]` array of this
file (through `tc_pause_event_loop` and `tc_start_event_loop`) and everything
outside this file. -/
structure Mem (σ : Type) where
  paused : Nat → Nat
  world : σ

/-- Modelled from the spec: `task.h`, `tcpm.h`, `usb_pd.h`, `usb_tc_sm.h`,
`usb_pe_sm.h`, `usb_prl_sm.h`, `usbc_ppc.h` and the code behind them are not
among the sources. The macros, the constants and the `CONFIG_` switches that
`usbc_task.c` names are parameters, and so is every external function: a
state machine step, an alert handler or a wait (during which other tasks run)
is a transition of the memory, `task_set_event` is a transition of the world
outside this file, and the queries are functions of that world. -/
structure Env (σ : Type) where
  PD_PORT_TO_TASK_ID : Nat → Nat
  TASK_ID_TO_PD_PORT : Nat → Nat
  TASK_EVENT_WAKE : Nat
  PD_STATUS_TCPC_ALERT_0 : Nat
  CONFIG_USB_PD_PORT_MAX_COUNT : Nat
  CONFIG_USBC_PPC : Bool
  HAS_DEFFERED_INTERRUPT_HANDLER : Bool
  CONFIG_USB_PD_TCPC : Bool
  CONFIG_USB_PE_SM : Bool
  CONFIG_USB_PRL_SM : Bool
  task_get_current : σ → Nat
  task_set_event : Nat → Nat → Int → σ → σ
  task_wait_event : Int → Mem σ → Nat × Mem σ
  tc_state_init : Nat → Mem σ → Mem σ
  ppc_init : Nat → Mem σ → Mem σ
  tc_event_check : Nat → Nat → Mem σ → Mem σ
  tcpc_run : Nat → Nat → Mem σ → Mem σ
  pe_run : Nat → Nat → Int → Mem σ → Mem σ
  prl_run : Nat → Nat → Int → Mem σ → Mem σ
  tc_run : Nat → Mem σ → Mem σ
  tc_get_pd_enabled : Nat → σ → Int
  tcpc_get_alert_status : σ → Nat
  pd_is_port_enabled : Nat → σ → Int
  tcpc_alert : Nat → Mem σ → Mem σ

/-- The state: the memory, `pd_int_task_id[]` and the calls made so far. -/
structure State (σ : Type) where
  mem : Mem σ
  pd_int_task_id : Nat → Nat
  trace : List Call

/-- A call of an external function that returns nothing. -/
def call {σ : Type} (f : Mem σ → Mem σ) (c : Call) (s : State σ) : State σ :=
  { s with mem := f s.mem, trace := s.trace ++ [c] }

/-- The call `task_set_event(tskid, event, wait)`. -/
def task_set_event {σ : Type} (e : Env σ) (tskid event : Nat) (wait : Int) (s : State σ) :
    State σ :=
  { s with mem := { s.mem with world := e.task_set_event tskid event wait s.mem.world },
           trace := s.trace ++ [Call.task_set_event tskid event wait] }

/-- The call `task_wait_event(timeout_us)` and the events it returns. -/
def task_wait_event {σ : Type} (e : Env σ) (timeout_us : Int) (s : State σ) :
    Nat × State σ :=
  let r := e.task_wait_event timeout_us s.mem
  (r.1, { s with mem := r.2, trace := s.trace ++ [Call.task_wait_event timeout_us r.1] })

/-- `tc_pause_event_loop` (usbc_task.c:44) -/
def tc_pause_event_loop {σ : Type} (port : Nat) (s : State σ) : State σ :=
  { s with mem := { s.mem with paused := fun p => if p = port then 1 else s.mem.paused p } }

/-- `tc_start_event_loop` (usbc_task.c:49) -/
def tc_start_event_loop {σ : Type} (e : Env σ) (port : Nat) (s : State σ) : State σ :=
  let s1 : State σ :=
    { s with mem := { s.mem with paused := fun p => if p = port then 0 else s.mem.paused p } }
  task_set_event e (e.PD_PORT_TO_TASK_ID port) e.TASK_EVENT_WAKE 0 s1

/-- `schedule_deferred_pd_interrupt` (usbc_task.c:67) -/
def schedule_deferred_pd_interrupt {σ : Type} (e : Env σ) (port : Nat) (s : State σ) :
    State σ :=
  task_set_event e (s.pd_int_task_id port) PD_PROCESS_INTERRUPT 0 s

/-- The condition of the inner `while` of `pd_interrupt_handler_task`
(usbc_task.c:102): the alert status is read, and the port is asked whether it is
enabled only when the port's bit is set in that status. -/
def alert_pending {σ : Type} (e : Env σ) (port : Nat) (s : State σ) : Bool × State σ :=
  let status := e.tcpc_get_alert_status s.mem.world
  let s1 : State σ := { s with trace := s.trace ++ [Call.tcpc_get_alert_status status] }
  if status &&& (e.PD_STATUS_TCPC_ALERT_0 <<< port) ≠ 0 then
    let en := e.pd_is_port_enabled port s1.mem.world
    (decide (en ≠ 0), { s1 with trace := s1.trace ++ [Call.pd_is_port_enabled port en] })
  else (false, s1)

/-- The inner `while` of `pd_interrupt_handler_task` (usbc_task.c:102), with a
bound on the number of times the condition is evaluated; `none` when the bound
runs out. -/
def drain_alerts {σ : Type} (e : Env σ) (port : Nat) : Nat → State σ → Option (State σ)
  | 0, _ => none
  | fuel + 1, s =>
    let r := alert_pending e port s
    if r.1 then drain_alerts e port fuel (call (e.tcpc_alert port) (Call.tcpc_alert port) r.2)
    else some r.2

/-- The statements of `pd_interrupt_handler_task` (usbc_task.c:78) before its
endless loop; `none` when the `ASSERT` fails. `pd_int_task_id[]` holds bytes. -/
def pd_interrupt_handler_task_start {σ : Type} (e : Env σ) (port : Nat) (s : State σ) :
    Option (State σ) :=
  if port < e.CONFIG_USB_PD_PORT_MAX_COUNT then
    some { s with pd_int_task_id := fun p =>
      if p = port then e.task_get_current s.mem.world % 256 else s.pd_int_task_id p }
  else none

/-- One pass through the endless loop of `pd_interrupt_handler_task`
(usbc_task.c:87): a wait without timeout, then the drain when the wake carries
`PD_PROCESS_INTERRUPT`. -/
def pd_interrupt_handler_task_iteration {σ : Type} (e : Env σ) (port fuel : Nat)
    (s : State σ) : Option (State σ) :=
  let r := task_wait_event e (-1) s
  if r.1 &&& PD_PROCESS_INTERRUPT ≠ 0 then drain_alerts e port fuel r.2 else some r.2

/-- The statements of `pd_task` (usbc_task.c:110) before its endless loop; the
result carries the local variable `port`. -/
def pd_task_start {σ : Type} (e : Env σ) (s : State σ) : Nat × State σ :=
  let port := e.TASK_ID_TO_PD_PORT (e.task_get_current s.mem.world)
  let s1 := call (e.tc_state_init port) (Call.tc_state_init port) s
  let s2 := if e.CONFIG_USBC_PPC then call (e.ppc_init port) (Call.ppc_init port) s1 else s1
  let s3 :=
    if e.HAS_DEFFERED_INTERRUPT_HANDLER then schedule_deferred_pd_interrupt e port s2 else s2
  (port, s3)

/-- The first statements of one pass through the endless loop of `pd_task`
(usbc_task.c:130 to 145): the wait, the event check and the port controller
step. The result carries `evt`. -/
def pd_task_iteration_head {σ : Type} (e : Env σ) (port : Nat) (s : State σ) :
    Nat × State σ :=
  let r := task_wait_event e (if s.mem.paused port ≠ 0 then -1 else USBC_EVENT_TIMEOUT) s
  let evt := r.1
  let s1 := call (e.tc_event_check port evt) (Call.tc_event_check port evt) r.2
  let s2 :=
    if e.CONFIG_USB_PD_TCPC then call (e.tcpc_run port evt) (Call.tcpc_run port evt) s1
    else s1
  (evt, s2)

/-- One pass through the endless loop of `pd_task` (usbc_task.c:130 to 156). -/
def pd_task_iteration {σ : Type} (e : Env σ) (port : Nat) (s : State σ) : State σ :=
  let h := pd_task_iteration_head e port s
  let evt := h.1
  let s3 :=
    if e.CONFIG_USB_PE_SM then
      call (e.pe_run port evt (e.tc_get_pd_enabled port h.2.mem.world))
        (Call.pe_run port evt (e.tc_get_pd_enabled port h.2.mem.world)) h.2
    else h.2
  let s4 :=
    if e.CONFIG_USB_PRL_SM then
      call (e.prl_run port evt (e.tc_get_pd_enabled port s3.mem.world))
        (Call.prl_run port evt (e.tc_get_pd_enabled port s3.mem.world)) s3
    else s3
  call (e.tc_run port) (Call.tc_run port) s4

/-- The first `n` passes through the endless loop of `pd_task`. -/
def pd_task_loop {σ : Type} (e : Env σ) (port : Nat) : Nat → State σ → State σ
  | 0, s => s
  | n + 1, s => pd_task_loop e port n (pd_task_iteration e port s)

/-- `pd_task` (usbc_task.c:110) up to the end of pass `n` of its endless loop. -/
def pd_task {σ : Type} (e : Env σ) (n : Nat) (s : State σ) : State σ :=
  pd_task_loop e (pd_task_start e s).1 n (pd_task_start e s).2

/-! ## Reading a trace -/

/-- The timeout of a wait. -/
def Call.wait_timeout : Call → Option Int
  | Call.task_wait_event t _ => some t
  | _ => none

/-- The timeouts of the waits of a trace, in order. -/
def wait_timeouts (l : List Call) : List Int := l.filterMap Call.wait_timeout

/-- The events posted by the `task_set_event` calls of a trace, in order, with
the task they are posted to. -/
def posted_events (l : List Call) : List (Nat × Nat) :=
  l.filterMap fun c =>
    match c with
    | Call.task_set_event tskid event _ => some (tskid, event)
    | _ => none

/-- The calls of `pd_task` before its loop, in the order the specification
gives: the Type-C state machine, the PPC when there is one, one deferred
interrupt pass when the deferred handler is in use. -/
def start_calls (ppc deferred : Bool) (p int_task : Nat) : List Call :=
  [Call.tc_state_init p] ++ (if ppc then [Call.ppc_init p] else []) ++
    (if deferred then [Call.task_set_event int_task PD_PROCESS_INTERRUPT 0] else [])

/-- The values of one pass of the loop of `pd_task`: the timeout of the wait,
the events it returned and the PD-enabled flag given to the policy engine and
to the protocol layer. -/
structure Pass where
  timeout : Int
  evt : Nat
  pe_enabled : Int
  prl_enabled : Int

/-- The calls of one pass of the loop of `pd_task`, in the order the
specification gives. -/
def pass_calls (tcpc pe prl : Bool) (p : Nat) (i : Pass) : List Call :=
  [Call.task_wait_event i.timeout i.evt, Call.tc_event_check p i.evt] ++
    (if tcpc then [Call.tcpc_run p i.evt] else []) ++
    (if pe then [Call.pe_run p i.evt i.pe_enabled] else []) ++
    (if prl then [Call.prl_run p i.evt i.prl_enabled] else []) ++
    [Call.tc_run p]

/-- The calls of consecutive passes. -/
def run_calls (tcpc pe prl : Bool) (p : Nat) : List Pass → List Call
  | [] => []
  | i :: is => pass_calls tcpc pe prl p i ++ run_calls tcpc pe prl p is

/-- The values of the pass of the loop of `pd_task` that starts in `s`. -/
def pass_of {σ : Type} (e : Env σ) (port : Nat) (s : State σ) : Pass :=
  let h := pd_task_iteration_head e port s
  let en := e.tc_get_pd_enabled port h.2.mem.world
  { timeout := if s.mem.paused port ≠ 0 then -1 else USBC_EVENT_TIMEOUT,
    evt := h.1,
    pe_enabled := en,
    prl_enabled := e.tc_get_pd_enabled port
      (if e.CONFIG_USB_PE_SM then e.pe_run port h.1 en h.2.mem else h.2.mem).world }

/-- The values of the first `n` passes of the loop of `pd_task` started in `s`. -/
def passes {σ : Type} (e : Env σ) (port n : Nat) (s : State σ) : List Pass :=
  (List.range n).map fun i => pass_of e port (pd_task_loop e port i s)

/-- The calls of one drain of the interrupt task: any number of rounds, each a
status read with the bit of `mask` set, the port reported enabled and
`tcpc_alert`, then one last check, which is either a status read with the bit
clear or a status read with the bit set and the port reported disabled. -/
def drain_calls (port mask : Nat) : List Call → Bool
  | [Call.tcpc_get_alert_status v] => decide (v &&& mask = 0)
  | [Call.tcpc_get_alert_status v, Call.pd_is_port_enabled p en] =>
    decide (v &&& mask ≠ 0 ∧ p = port ∧ en = 0)
  | Call.tcpc_get_alert_status v :: Call.pd_is_port_enabled p en :: Call.tcpc_alert q ::
      rest =>
    decide (v &&& mask ≠ 0 ∧ p = port ∧ en ≠ 0 ∧ q = port) && drain_calls port mask rest
  | _ => false

/-- The state after `k` rounds of the drain in which the condition held. -/
def after_alerts {σ : Type} (e : Env σ) (port : Nat) : Nat → State σ → State σ
  | 0, s => s
  | k + 1, s =>
    after_alerts e port k (call (e.tcpc_alert port) (Call.tcpc_alert port)
      (alert_pending e port s).2)

/-! ## A concrete environment -/

/-- The world of the examples: the pending events of each task, the running
task, the PD-enabled flag of the Type-C state machine, the number of alerts the
TCPC still holds and whether the port is enabled. -/
structure Board where
  pending : Nat → Nat
  current : Nat
  pd_enable : Int
  alerts : Nat
  port_enabled : Int

/-- Modelled from the spec: the task and state machine code is not among the
sources. An environment for the examples: the port task of port `p` is task
`p + 1`; the events are "a bitset of wake reasons: timer-expired,
interrupt-to-process, explicit-wake", so `TASK_EVENT_WAKE` is one bit of the
set, here bit 29; posting an event merges it into the pending set of the task,
and a wait returns and consumes the pending set of the running task ("consumed
atomically per loop iteration"); `tcpc_alert` serves one alert and the state
machine steps do nothing. -/
def ec_env : Env Board where
  PD_PORT_TO_TASK_ID := fun p => p + 1
  TASK_ID_TO_PD_PORT := fun t => t - 1
  TASK_EVENT_WAKE := 2 ^ 29
  PD_STATUS_TCPC_ALERT_0 := 1
  CONFIG_USB_PD_PORT_MAX_COUNT := 2
  CONFIG_USBC_PPC := true
  HAS_DEFFERED_INTERRUPT_HANDLER := true
  CONFIG_USB_PD_TCPC := true
  CONFIG_USB_PE_SM := true
  CONFIG_USB_PRL_SM := true
  task_get_current := fun b => b.current
  task_set_event := fun t ev _ b =>
    { b with pending := fun k => if k = t then b.pending k ||| ev else b.pending k }
  task_wait_event := fun _ m =>
    (m.world.pending m.world.current,
      { m with world := { m.world with
          pending := fun k => if k = m.world.current then 0 else m.world.pending k } })
  tc_state_init := fun _ m => m
  ppc_init := fun _ m => m
  tc_event_check := fun _ _ m => m
  tcpc_run := fun _ _ m => m
  pe_run := fun _ _ _ m => m
  prl_run := fun _ _ _ m => m
  tc_run := fun _ m => m
  tc_get_pd_enabled := fun _ b => b.pd_enable
  tcpc_get_alert_status := fun b => if b.alerts = 0 then 0 else 1
  pd_is_port_enabled := fun _ b => b.port_enabled
  tcpc_alert := fun _ m => { m with world := { m.world with alerts := m.world.alerts - 1 } }

/-- The environment `ec_env` with a policy engine step that turns PD off. -/
def pe_disables_pd : Env Board :=
  { ec_env with
    pe_run := fun _ _ _ m => { m with world := { m.world with pd_enable := 0 } } }

/-- The port task of port 0 is running, nothing is pending, PD is enabled, the
TCPC holds two alerts, the interrupt task of port 0 is task 3. -/
def state0 : State Board where
  mem := { paused := fun _ => 0,
           world := { pending := fun _ => 0, current := 1, pd_enable := 1, alerts := 2,
                      port_enabled := 1 } }
  pd_int_task_id := fun _ => 3
  trace := []

/-- The interrupt task of port 0 (task 3) is running with `PD_PROCESS_INTERRUPT`
pending, and the TCPC holds two alerts. -/
def int_state0 : State Board where
  mem := { paused := fun _ => 0,
           world := { pending := fun k => if k = 3 then 1 else 0, current := 3,
                      pd_enable := 1, alerts := 2, port_enabled := 1 } }
  pd_int_task_id := fun _ => 3
  trace := []

end UsbcTask

namespace Syv682x

/-! ## Bit arithmetic -/

theorem testBit_cnot (m i : Nat) (hm : m < 2 ^ 32) :
    (cnot m).testBit i = (decide (i < 32) && !m.testBit i) := by
  have h : cnot m = 2 ^ 32 - (m + 1) := by unfold cnot; omega
  rw [h, Nat.testBit_two_pow_sub_succ hm]

theorem or_and_self (x b : Nat) : (x ||| b) &&& b = b := by
  apply Nat.eq_of_testBit_eq
  intro i
  simp only [Nat.testBit_and, Nat.testBit_or]
  cases x.testBit i <;> cases b.testBit i <;> rfl

theorem and_cnot_and (x b : Nat) (hb : b < 2 ^ 32) : (x &&& cnot b) &&& b = 0 := by
  apply Nat.eq_of_testBit_eq
  intro i
  simp only [Nat.testBit_and, testBit_cnot b i hb, Nat.zero_testBit]
  cases x.testBit i <;> cases b.testBit i <;> simp

/-! ## Bus transfers -/

theorem read_reg_rv (c : Cfg) (port reg : Nat) (w : World) :
    (read_reg c port reg w).1 = (w.bus 0).rv := by
  unfold read_reg i2c_read8
  by_cases h : (w.bus 0).rv = 0
  · by_cases h1 : reg = c.SYV682X_CONTROL_3_REG <;> simp [h, h1]
  · simp [h]

theorem read_reg_world (c : Cfg) (port reg : Nat) (w : World) :
    (read_reg c port reg w).2.2 =
      { w with now := w.now + (w.bus 0).dt, bus := fun i => w.bus (i + 1),
               log := w.log ++ [Event.i2c_read port reg] } := by
  unfold read_reg i2c_read8
  by_cases h : (w.bus 0).rv = 0
  · by_cases h1 : reg = c.SYV682X_CONTROL_3_REG <;> simp [h, h1]
  · simp [h]

theorem read_reg_val (c : Cfg) (port reg : Nat) (w : World) (h : (w.bus 0).rv = 0)
    (hr : reg ≠ c.SYV682X_CONTROL_3_REG) :
    (read_reg c port reg w).2.1 = (w.regs port reg).val := by
  unfold read_reg i2c_read8
  simp [h, hr]

theorem read_busy_val (c : Cfg) (port : Nat) (w : World) (h : (w.bus 0).rv = 0) :
    (read_reg c port c.SYV682X_CONTROL_3_REG w).2.1 =
      if (w.bus 0).busy then (w.regs port c.SYV682X_CONTROL_3_REG).val ||| c.SYV682X_BUSY
      else (w.regs port c.SYV682X_CONTROL_3_REG).val &&& cnot c.SYV682X_BUSY := by
  unfold read_reg i2c_read8
  simp [h]

/-! ## The busy wait -/

theorem wait_loop_frame (c : Cfg) (port d : Nat) :
    ∀ (fuel : Nat) (w : World) (rv : Nat) (w1 : World),
      wait_loop c port d fuel w = some (rv, w1) →
      w1.regs = w.regs ∧ w1.flags = w.flags ∧
      ∃ l, w1.log = w.log ++ l ∧ ∀ e ∈ l, e.isWrite = false ∧ e.isNotify = false := by
  intro fuel
  induction fuel with
  | zero => intro w rv w1 h; simp [wait_loop] at h
  | succ n ih =>
    intro w rv w1 h
    unfold wait_loop at h
    simp only [read_reg_world] at h
    split_ifs at h with h1 h2 h3
    · simp only [Option.some.injEq, Prod.mk.injEq] at h
      obtain ⟨-, rfl⟩ := h
      exact ⟨rfl, rfl, [Event.i2c_read port c.SYV682X_CONTROL_3_REG], rfl, by simp [Event.isWrite, Event.isNotify]⟩
    · simp only [Option.some.injEq, Prod.mk.injEq] at h
      obtain ⟨-, rfl⟩ := h
      exact ⟨rfl, rfl, [Event.i2c_read port c.SYV682X_CONTROL_3_REG], rfl, by simp [Event.isWrite, Event.isNotify]⟩
    · simp only [Option.some.injEq, Prod.mk.injEq] at h
      obtain ⟨-, rfl⟩ := h
      refine ⟨rfl, rfl, [Event.i2c_read port c.SYV682X_CONTROL_3_REG,
        Event.cprints_busy_timeout port], ?_, by simp [Event.isWrite, Event.isNotify]⟩
      simp [cprints_busy_timeout]
    · obtain ⟨hr, hf, l, hl, hall⟩ := ih _ _ _ h
      refine ⟨hr, hf, Event.i2c_read port c.SYV682X_CONTROL_3_REG :: Event.msleep 1 :: l, ?_, ?_⟩
      · rw [hl]; simp [msleep]
      · intro e he
        simp only [List.mem_cons] at he
        rcases he with rfl | rfl | he
        · simp [Event.isWrite, Event.isNotify]
        · simp [Event.isWrite, Event.isNotify]
        · exact hall e he

theorem wait_loop_enough_fuel (c : Cfg) (port d : Nat) :
    ∀ (fuel : Nat) (w : World), d ≤ w.now + fuel * MSEC →
      ∃ r, wait_loop c port d (fuel + 1) w = some r := by
  intro fuel
  induction fuel with
  | zero =>
    intro w hd
    unfold wait_loop
    simp only [read_reg_world]
    split_ifs with h1 h2 h3
    · exact ⟨_, rfl⟩
    · exact ⟨_, rfl⟩
    · exact ⟨_, rfl⟩
    · exfalso
      apply h3
      simp only [timestamp_expired, decide_eq_true_eq]
      omega
  | succ n ih =>
    intro w hd
    unfold wait_loop
    simp only [read_reg_world]
    split_ifs with h1 h2 h3
    · exact ⟨_, rfl⟩
    · exact ⟨_, rfl⟩
    · exact ⟨_, rfl⟩
    · apply ih
      simp only [msleep, MSEC] at hd ⊢
      omega

theorem wait_for_ready_returns (c : Cfg) (port : Nat) (w : World) :
    ∃ r, syv682x_wait_for_ready c port w = some r := by
  unfold syv682x_wait_for_ready
  exact wait_loop_enough_fuel c port _ _ w (Nat.le_refl _)

theorem wait_for_ready_frame (c : Cfg) (port : Nat) (w : World) (rv : Nat) (w1 : World)
    (h : syv682x_wait_for_ready c port w = some (rv, w1)) :
    w1.regs = w.regs ∧ w1.flags = w.flags ∧
    ∃ l, w1.log = w.log ++ l ∧ ∀ e ∈ l, e.isWrite = false ∧ e.isNotify = false :=
  wait_loop_frame c port _ _ w rv w1 h

theorem write_reg_returns (c : Cfg) (port reg val : Nat) (w : World) :
    ∃ r, write_reg c port reg val w = some r := by
  unfold write_reg
  obtain ⟨⟨rv, w1⟩, h⟩ := wait_for_ready_returns c port w
  rw [h]
  by_cases hrv : rv = 0 <;> simp [hrv]

theorem poll_time_shift (c : Cfg) (port reg : Nat) (w : World) (i : Nat) :
    poll_time (msleep 1 (read_reg c port reg w).2.2) i = poll_time w (i + 1) := by
  induction i with
  | zero => simp [poll_time, msleep, read_reg_world]
  | succ n ih =>
    rw [poll_time, ih]
    simp [poll_time, msleep, read_reg_world]

theorem poll_time_ge (w : World) (i : Nat) : w.now + i * MSEC ≤ poll_time w i := by
  induction i with
  | zero => simp [poll_time]
  | succ n ih => simp only [poll_time, MSEC] at ih ⊢; omega

theorem wait_loop_busy_timeout (c : Cfg) (port d : Nat) (hb : c.SYV682X_BUSY ≠ 0) :
    ∀ (n fuel : Nat) (w : World),
      (∀ i, i ≤ n → (w.bus i).rv = 0 ∧ (w.bus i).busy = true) →
      d ≤ poll_time w n → d ≤ w.now + fuel * MSEC →
      ∃ w1, wait_loop c port d (fuel + 1) w = some (c.EC_ERROR_TIMEOUT, w1) := by
  intro n
  induction n with
  | zero =>
    intro fuel w hbusy hexp _
    obtain ⟨hrv, hby⟩ := hbusy 0 (Nat.le_refl 0)
    unfold wait_loop
    have hval := read_busy_val c port w hrv
    simp only [hby, if_true] at hval
    simp only [read_reg_rv, hrv, hval, or_and_self, hb, ne_eq, not_true_eq_false, if_false]
    have : timestamp_expired d (read_reg c port c.SYV682X_CONTROL_3_REG w).2.2 = true := by
      simp only [timestamp_expired, read_reg_world, decide_eq_true_eq]
      simpa [poll_time] using hexp
    simp [this]
  | succ n ih =>
    intro fuel w hbusy hexp hfuel
    obtain ⟨hrv, hby⟩ := hbusy 0 (Nat.zero_le _)
    unfold wait_loop
    have hval := read_busy_val c port w hrv
    simp only [hby, if_true] at hval
    simp only [read_reg_rv, hrv, hval, or_and_self, hb, ne_eq, not_true_eq_false, if_false]
    by_cases hex : timestamp_expired d (read_reg c port c.SYV682X_CONTROL_3_REG w).2.2 = true
    · simp [hex]
    · simp only [hex, Bool.false_eq_true, if_false]
      have hlt : w.now + (w.bus 0).dt < d := by
        simp only [timestamp_expired, read_reg_world, decide_eq_true_eq] at hex
        omega
      cases fuel with
      | zero => omega
      | succ f =>
        apply ih f
        · intro i hi
          simpa [msleep, read_reg_world] using hbusy (i + 1) (by omega)
        · rw [poll_time_shift]; exact hexp
        · simp only [msleep, read_reg_world, MSEC] at hfuel ⊢
          omega

theorem wait_loop_ready_after (c : Cfg) (port d : Nat) (hb : c.busy_ok) :
    ∀ (k fuel : Nat) (w : World),
      (∀ i, i < k → (w.bus i).rv = 0 ∧ (w.bus i).busy = true) →
      (w.bus k).rv = 0 → (w.bus k).busy = false →
      (∀ i, i < k → poll_time w i < d) → d ≤ w.now + fuel * MSEC →
      ∃ w1, wait_loop c port d (fuel + 1) w = some (EC_SUCCESS, w1) ∧
        w1.log = w.log ++ poll_log c port k ++ [Event.i2c_read port c.SYV682X_CONTROL_3_REG] ∧
        w1.bus = (fun i => w.bus (i + (k + 1))) ∧ w1.regs = w.regs ∧ w1.flags = w.flags := by
  intro k
  induction k with
  | zero =>
    intro fuel w _ hrv hby _ _
    unfold wait_loop
    have hval := read_busy_val c port w hrv
    simp only [hby, Bool.false_eq_true, if_false] at hval
    have h32 : c.SYV682X_BUSY < 2 ^ 32 := Nat.lt_trans hb.2 (by decide)
    simp only [read_reg_rv, hrv, hval, and_cnot_and _ _ h32, ne_eq, not_true_eq_false,
      if_false, if_true]
    refine ⟨_, rfl, ?_, ?_, ?_, ?_⟩ <;> simp [read_reg_world, poll_log]
  | succ n ih =>
    intro fuel w hbusy hrv hby hne hfuel
    obtain ⟨hrv0, hby0⟩ := hbusy 0 (Nat.succ_pos _)
    unfold wait_loop
    have hval := read_busy_val c port w hrv0
    simp only [hby0, if_true] at hval
    simp only [read_reg_rv, hrv0, hval, or_and_self, hb.1, ne_eq, not_true_eq_false, if_false]
    have hlt : w.now + (w.bus 0).dt < d := by
      simpa [poll_time] using hne 0 (Nat.succ_pos _)
    have hex : timestamp_expired d (read_reg c port c.SYV682X_CONTROL_3_REG w).2.2 = false := by
      simp only [timestamp_expired, read_reg_world, decide_eq_false_iff_not]
      omega
    simp only [hex, Bool.false_eq_true, if_false]
    cases fuel with
    | zero => omega
    | succ f =>
      obtain ⟨w1, h1, hlog, hbus, hregs, hflags⟩ :=
        ih f (msleep 1 (read_reg c port c.SYV682X_CONTROL_3_REG w).2.2)
          (by intro i hi; simpa [msleep, read_reg_world] using hbusy (i + 1) (by omega))
          (by simpa [msleep, read_reg_world] using hrv)
          (by simpa [msleep, read_reg_world] using hby)
          (by intro i hi; rw [poll_time_shift]; exact hne (i + 1) (by omega))
          (by simp only [msleep, read_reg_world, MSEC] at hfuel ⊢; omega)
      refine ⟨w1, h1, ?_, ?_, ?_, ?_⟩
      · rw [hlog]; simp [msleep, read_reg_world, poll_log]
      · rw [hbus]; funext i; simp only [msleep, read_reg_world]; congr 1
      · rw [hregs]; simp [msleep, read_reg_world]
      · rw [hflags]; simp [msleep, read_reg_world]

theorem i2c_write8_rv (c : Cfg) (port reg val : Nat) (w : World) :
    (i2c_write8 c port reg val w).1 = (w.bus 0).rv := by
  unfold i2c_write8
  by_cases h : (w.bus 0).rv = 0
  · by_cases h2 : reg = c.SYV682X_CONTROL_3_REG ∧ val &&& c.SYV682X_RST_REG ≠ 0 <;> simp [h, h2]
  · simp [h]

theorem i2c_write8_log (c : Cfg) (port reg val : Nat) (w : World) :
    (i2c_write8 c port reg val w).2.log = w.log ++ [Event.i2c_write port reg val] := by
  unfold i2c_write8
  by_cases h : (w.bus 0).rv = 0
  · by_cases h2 : reg = c.SYV682X_CONTROL_3_REG ∧ val &&& c.SYV682X_RST_REG ≠ 0 <;> simp [h, h2]
  · simp [h]

theorem i2c_write8_flags (c : Cfg) (port reg val : Nat) (w : World) :
    (i2c_write8 c port reg val w).2.flags = w.flags := by
  unfold i2c_write8
  by_cases h : (w.bus 0).rv = 0
  · by_cases h2 : reg = c.SYV682X_CONTROL_3_REG ∧ val &&& c.SYV682X_RST_REG ≠ 0 <;> simp [h, h2]
  · simp [h]

theorem i2c_write8_bus (c : Cfg) (port reg val : Nat) (w : World) :
    (i2c_write8 c port reg val w).2.bus = fun i => w.bus (i + 1) := by
  unfold i2c_write8
  by_cases h : (w.bus 0).rv = 0
  · by_cases h2 : reg = c.SYV682X_CONTROL_3_REG ∧ val &&& c.SYV682X_RST_REG ≠ 0 <;> simp [h, h2]
  · simp [h]

theorem i2c_write8_regs_fail (c : Cfg) (port reg val : Nat) (w : World)
    (h : (w.bus 0).rv ≠ 0) : (i2c_write8 c port reg val w).2.regs = w.regs := by
  unfold i2c_write8
  simp [h]

theorem i2c_write8_regs_other (c : Cfg) (port reg val : Nat) (w : World) (p : Nat)
    (h : p ≠ port) (r : Nat) : (i2c_write8 c port reg val w).2.regs p r = w.regs p r := by
  unfold i2c_write8
  by_cases h0 : (w.bus 0).rv = 0
  · by_cases h2 : reg = c.SYV682X_CONTROL_3_REG ∧ val &&& c.SYV682X_RST_REG ≠ 0 <;>
      simp [h0, h2, h]
  · simp [h0]

theorem i2c_write8_regs_ok (c : Cfg) (port reg val : Nat) (w : World)
    (h : (w.bus 0).rv = 0)
    (hr : ¬ (reg = c.SYV682X_CONTROL_3_REG ∧ val &&& c.SYV682X_RST_REG ≠ 0)) :
    (i2c_write8 c port reg val w).2.regs =
      fun p r => if p = port ∧ r = reg then toByte val else w.regs p r := by
  unfold i2c_write8
  simp only [h, ne_eq, not_true_eq_false, if_false]
  rw [if_neg hr]

theorem new_events_append (w w1 : World) (l : List Event) (h : w1.log = w.log ++ l) :
    new_events w w1 = l := by
  simp [new_events, h]

/-- C7: when every poll of the BUSY bit made by `write_reg` succeeds and reads
busy up to a poll at which the 400 ms deadline has passed, `write_reg` returns
`EC_ERROR_TIMEOUT`, puts no register write on the bus, and every chip register
keeps its value. -/
theorem write_reg_busy_timeout (c : Cfg) (port reg val : Nat) (w : World) (n : Nat)
    (hb : c.SYV682X_BUSY ≠ 0) (ht : c.EC_ERROR_TIMEOUT ≠ 0)
    (hbusy : ∀ i, i ≤ n → (w.bus i).rv = 0 ∧ (w.bus i).busy = true)
    (hexp : w.now + SYV682X_MAX_VBUS_DISCHARGE_TIME_MS * MSEC ≤ poll_time w n) :
    ∃ w1, write_reg c port reg val w = some (c.EC_ERROR_TIMEOUT, w1) ∧
      (∀ e ∈ new_events w w1, e.isWrite = false) ∧ w1.regs = w.regs := by
  obtain ⟨w1, h1⟩ := wait_loop_busy_timeout c port
    (w.now + SYV682X_MAX_VBUS_DISCHARGE_TIME_MS * MSEC) hb n
    SYV682X_MAX_VBUS_DISCHARGE_TIME_MS w hbusy hexp (Nat.le_refl _)
  obtain ⟨hregs, -, l, hl, hall⟩ := wait_loop_frame c port _ _ w _ w1 h1
  refine ⟨w1, ?_, ?_, hregs⟩
  · unfold write_reg syv682x_wait_for_ready
    rw [h1]
    simp [ht]
  · rw [new_events_append w w1 l hl]
    intro e he
    exact (hall e he).1

theorem write_reg_busy_timeout_witness :
    syv682x_h.SYV682X_BUSY ≠ 0 ∧ syv682x_h.EC_ERROR_TIMEOUT ≠ 0 ∧
    (∀ i, i ≤ 0 → (stuck0.bus i).rv = 0 ∧ (stuck0.bus i).busy = true) ∧
    stuck0.now + SYV682X_MAX_VBUS_DISCHARGE_TIME_MS * MSEC ≤ poll_time stuck0 0 ∧
    ∃ w1, write_reg syv682x_h 0 1 5 stuck0 = some (syv682x_h.EC_ERROR_TIMEOUT, w1) ∧
      (∀ e ∈ new_events stuck0 w1, e.isWrite = false) ∧ w1.regs = stuck0.regs :=
  ⟨by decide, by decide, fun _ _ => ⟨rfl, rfl⟩, by decide,
    write_reg_busy_timeout syv682x_h 0 1 5 stuck0 0 (by decide) (by decide)
      (fun _ _ => ⟨rfl, rfl⟩) (by decide)⟩

/-- C8: when the BUSY bit reads busy on the first `k` polls and not busy on the
next one, and the 400 ms deadline has not passed at any of the first `k` polls,
`write_reg` sleeps 1 ms after each busy poll, then puts exactly one write of
the given value to the given register on the bus, and returns the status of
that write; a successful write leaves the value in the register (unless it is
the reset bit of `CONTROL_3`), a failed one leaves the registers as they were. -/
theorem write_reg_after_busy_polls (c : Cfg) (port reg val : Nat) (w : World) (k : Nat)
    (hb : c.busy_ok)
    (hbusy : ∀ i, i < k → (w.bus i).rv = 0 ∧ (w.bus i).busy = true)
    (hrv : (w.bus k).rv = 0) (hready : (w.bus k).busy = false)
    (hne : ∀ i, i < k → poll_time w i < w.now + SYV682X_MAX_VBUS_DISCHARGE_TIME_MS * MSEC) :
    ∃ w1, write_reg c port reg val w = some ((w.bus (k + 1)).rv, w1) ∧
      new_events w w1 = poll_log c port k ++
        [Event.i2c_read port c.SYV682X_CONTROL_3_REG, Event.i2c_write port reg val] ∧
      ((w.bus (k + 1)).rv = 0 →
        ¬ (reg = c.SYV682X_CONTROL_3_REG ∧ val &&& c.SYV682X_RST_REG ≠ 0) →
        w1.regs port reg = toByte val) ∧
      ((w.bus (k + 1)).rv ≠ 0 → w1.regs = w.regs) := by
  obtain ⟨w0, h0, hlog, hbus, hregs, -⟩ := wait_loop_ready_after c port
    (w.now + SYV682X_MAX_VBUS_DISCHARGE_TIME_MS * MSEC) hb k
    SYV682X_MAX_VBUS_DISCHARGE_TIME_MS w hbusy hrv hready hne (Nat.le_refl _)
  have hb0 : w0.bus 0 = w.bus (k + 1) := by rw [hbus]; simp
  unfold write_reg syv682x_wait_for_ready
  rw [h0]
  simp only [EC_SUCCESS, ne_eq, not_true_eq_false, if_false]
  refine ⟨(i2c_write8 c port reg val w0).2, ?_, ?_, ?_, ?_⟩
  · rw [← hb0, ← i2c_write8_rv c port reg val w0]
  · apply new_events_append
    rw [i2c_write8_log, hlog]
    simp
  · intro hok hnr
    rw [i2c_write8_regs_ok c port reg val w0 (by rw [hb0]; exact hok) hnr]
    simp
  · intro hfail
    rw [i2c_write8_regs_fail c port reg val w0 (by rw [hb0]; exact hfail)]
    exact hregs

theorem write_reg_after_busy_polls_witness :
    syv682x_h.busy_ok ∧
    (∀ i, i < 3 → (busy3.bus i).rv = 0 ∧ (busy3.bus i).busy = true) ∧
    (busy3.bus 3).rv = 0 ∧ (busy3.bus 3).busy = false ∧
    (∀ i, i < 3 → poll_time busy3 i < busy3.now + SYV682X_MAX_VBUS_DISCHARGE_TIME_MS * MSEC) ∧
    ∃ w1, write_reg syv682x_h 0 1 5 busy3 = some ((busy3.bus (3 + 1)).rv, w1) ∧
      new_events busy3 w1 = poll_log syv682x_h 0 3 ++
        [Event.i2c_read 0 syv682x_h.SYV682X_CONTROL_3_REG, Event.i2c_write 0 1 5] ∧
      ((busy3.bus (3 + 1)).rv = 0 →
        ¬ (1 = syv682x_h.SYV682X_CONTROL_3_REG ∧ 5 &&& syv682x_h.SYV682X_RST_REG ≠ 0) →
        w1.regs 0 1 = toByte 5) ∧
      ((busy3.bus (3 + 1)).rv ≠ 0 → w1.regs = busy3.regs) :=
  ⟨by decide, by decide, by decide, by decide, by decide,
    write_reg_after_busy_polls syv682x_h 0 1 5 busy3 3 (by decide) (by decide) (by decide)
      (by decide) (by decide)⟩

/-! ## Setting and clearing bits of a register value -/

theorem testBit_high (v i : Nat) (hv : v < 2 ^ 32) (hi : ¬ i < 32) : v.testBit i = false :=
  Nat.testBit_lt_two_pow
    (Nat.lt_of_lt_of_le hv (Nat.pow_le_pow_right (by decide) (by omega)))

theorem disjoint_bits (a b : Nat) (h : a &&& b = 0) (i : Nat) :
    ¬ (a.testBit i = true ∧ b.testBit i = true) := by
  intro ⟨ha, hb⟩
  have := congrArg (fun x => x.testBit i) h
  simp [Nat.testBit_and, ha, hb] at this

theorem and_or_eq_zero (v a b : Nat) : v &&& (a ||| b) = 0 ↔ v &&& a = 0 ∧ v &&& b = 0 := by
  constructor
  · intro h
    constructor <;>
    · apply Nat.eq_of_testBit_eq
      intro i
      have := congrArg (fun x => x.testBit i) h
      simp only [Nat.testBit_and, Nat.testBit_or, Nat.zero_testBit] at this ⊢
      revert this
      cases v.testBit i <;> cases a.testBit i <;> cases b.testBit i <;> simp
  · intro ⟨ha, hb⟩
    apply Nat.eq_of_testBit_eq
    intro i
    have h1 := congrArg (fun x => x.testBit i) ha
    have h2 := congrArg (fun x => x.testBit i) hb
    simp only [Nat.testBit_and, Nat.testBit_or, Nat.zero_testBit] at h1 h2 ⊢
    revert h1 h2
    cases v.testBit i <;> cases a.testBit i <;> cases b.testBit i <;> simp

theorem or_and_disjoint (v s m : Nat) (hd : s &&& m = 0) : (v ||| s) &&& m = v &&& m := by
  apply Nat.eq_of_testBit_eq
  intro i
  have := disjoint_bits s m hd i
  simp only [Nat.testBit_and, Nat.testBit_or]
  revert this
  cases v.testBit i <;> cases s.testBit i <;> cases m.testBit i <;> simp

theorem or_testBit_other (v s i : Nat) (h : s.testBit i = false) :
    (v ||| s).testBit i = v.testBit i := by
  simp [Nat.testBit_or, h]

theorem clear_then_set (v s k : Nat) (hv : v < 2 ^ 32) (hk : k < 2 ^ 32) (hd : s &&& k = 0) :
    ((v &&& cnot k) ||| s) &&& k = 0 ∧ ((v &&& cnot k) ||| s) &&& s = s ∧
    ∀ i, (k ||| s).testBit i = false → ((v &&& cnot k) ||| s).testBit i = v.testBit i := by
  refine ⟨?_, or_and_self _ _, ?_⟩
  · apply Nat.eq_of_testBit_eq
    intro i
    have := disjoint_bits s k hd i
    simp only [Nat.testBit_and, Nat.testBit_or, testBit_cnot k i hk, Nat.zero_testBit]
    revert this
    cases v.testBit i <;> cases s.testBit i <;> cases k.testBit i <;> simp
  · intro i hi
    simp only [Nat.testBit_or, Bool.or_eq_false_iff] at hi
    simp only [Nat.testBit_and, Nat.testBit_or, testBit_cnot k i hk, hi.1, hi.2]
    by_cases h32 : i < 32
    · simp [h32]
    · simp [h32, testBit_high v i hv h32]

theorem set_then_clear (v s k : Nat) (hv : v < 2 ^ 32) (hs : s < 2 ^ 32) (hk : k < 2 ^ 32)
    (hd : s &&& k = 0) :
    ((v ||| s) &&& cnot k) &&& k = 0 ∧ ((v ||| s) &&& cnot k) &&& s = s ∧
    ∀ i, (s ||| k).testBit i = false → ((v ||| s) &&& cnot k).testBit i = v.testBit i := by
  refine ⟨and_cnot_and _ _ hk, ?_, ?_⟩
  · apply Nat.eq_of_testBit_eq
    intro i
    have := disjoint_bits s k hd i
    simp only [Nat.testBit_and, Nat.testBit_or, testBit_cnot k i hk]
    by_cases h32 : i < 32
    · revert this
      cases v.testBit i <;> cases s.testBit i <;> cases k.testBit i <;> simp [h32]
    · simp [h32, testBit_high s i hs h32]
  · intro i hi
    simp only [Nat.testBit_or, Bool.or_eq_false_iff] at hi
    simp only [Nat.testBit_and, Nat.testBit_or, testBit_cnot k i hk, hi.1, hi.2]
    by_cases h32 : i < 32
    · simp [h32]
    · simp [h32, testBit_high v i hv h32]

theorem toByte_val (x : Nat) (h : x < 256) : (toByte x).val = x := by
  simp [toByte, Nat.mod_eq_of_lt h]

theorem toByte_fin (b : Fin 256) : toByte b.val = b := by
  apply Fin.ext
  exact toByte_val b.val b.isLt

theorem byte_lt_int (b : Fin 256) : b.val < 2 ^ 32 :=
  Nat.lt_trans b.isLt (by decide)

theorem lt_int_of_lt_byte (x : Nat) (h : x < 256) : x < 2 ^ 32 :=
  Nat.lt_trans h (by decide)

/-! ## Register writes and the VBUS path functions -/

theorem write_reg_some (c : Cfg) (port reg val : Nat) (w : World) (rv : Nat) (w1 : World)
    (h : write_reg c port reg val w = some (rv, w1)) :
    ∃ rv0 w0, syv682x_wait_for_ready c port w = some (rv0, w0) ∧
      ((rv0 ≠ 0 ∧ rv = rv0 ∧ w1 = w0) ∨
       (rv0 = 0 ∧ rv = (w0.bus 0).rv ∧ w1 = (i2c_write8 c port reg val w0).2)) := by
  unfold write_reg at h
  obtain ⟨⟨rv0, w0⟩, h0⟩ := wait_for_ready_returns c port w
  rw [h0] at h
  refine ⟨rv0, w0, h0, ?_⟩
  by_cases hrv : rv0 = 0
  · right
    simp only [hrv, ne_eq, not_true_eq_false, if_false, Option.some.injEq] at h
    refine ⟨hrv, ?_, ?_⟩
    · rw [← i2c_write8_rv c port reg val w0, h]
    · rw [h]
  · left
    simp only [hrv, ne_eq, not_false_eq_true, if_true, Option.some.injEq, Prod.mk.injEq] at h
    exact ⟨hrv, h.1.symm, h.2.symm⟩

theorem write_reg_flags (c : Cfg) (port reg val : Nat) (w : World) (rv : Nat) (w1 : World)
    (h : write_reg c port reg val w = some (rv, w1)) : w1.flags = w.flags := by
  obtain ⟨rv0, w0, h0, hc⟩ := write_reg_some c port reg val w rv w1 h
  obtain ⟨-, hf, -⟩ := wait_for_ready_frame c port w rv0 w0 h0
  rcases hc with ⟨-, -, rfl⟩ | ⟨-, -, rfl⟩
  · exact hf
  · rw [i2c_write8_flags, hf]

theorem write_reg_regs_other (c : Cfg) (port reg val : Nat) (w : World) (rv : Nat)
    (w1 : World) (h : write_reg c port reg val w = some (rv, w1)) (p : Nat) (hp : p ≠ port)
    (r : Nat) : w1.regs p r = w.regs p r := by
  obtain ⟨rv0, w0, h0, hc⟩ := write_reg_some c port reg val w rv w1 h
  obtain ⟨hr, -, -⟩ := wait_for_ready_frame c port w rv0 w0 h0
  rcases hc with ⟨-, -, rfl⟩ | ⟨-, -, rfl⟩
  · rw [hr]
  · rw [i2c_write8_regs_other c port reg val w0 p hp, hr]

theorem write_reg_fail (c : Cfg) (port reg val : Nat) (w : World) (rv : Nat) (w1 : World)
    (h : write_reg c port reg val w = some (rv, w1)) (hrv : rv ≠ 0) :
    w1.regs = w.regs ∧
    ∃ l, w1.log = w.log ++ l ∧ ∀ e ∈ l, e.isNotify = false := by
  obtain ⟨rv0, w0, h0, hc⟩ := write_reg_some c port reg val w rv w1 h
  obtain ⟨hr, -, l, hl, hall⟩ := wait_for_ready_frame c port w rv0 w0 h0
  rcases hc with ⟨-, -, rfl⟩ | ⟨-, hb, rfl⟩
  · exact ⟨hr, l, hl, fun e he => (hall e he).2⟩
  · refine ⟨?_, l ++ [Event.i2c_write port reg val], ?_, ?_⟩
    · rw [i2c_write8_regs_fail c port reg val w0 (by rw [← hb]; exact hrv), hr]
    · rw [i2c_write8_log, hl, List.append_assoc]
    · intro e he
      rcases List.mem_append.1 he with he | he
      · exact (hall e he).2
      · simp only [List.mem_singleton] at he
        subst he
        rfl

theorem write_reg_ok (c : Cfg) (port reg val : Nat) (w : World) (w1 : World)
    (h : write_reg c port reg val w = some (0, w1))
    (hr : ¬ (reg = c.SYV682X_CONTROL_3_REG ∧ val &&& c.SYV682X_RST_REG ≠ 0)) :
    (w1.regs = fun p r => if p = port ∧ r = reg then toByte val else w.regs p r) ∧
    ∃ l, w1.log = w.log ++ l ++ [Event.i2c_write port reg val] ∧
      ∀ e ∈ l, e.isWrite = false ∧ e.isNotify = false := by
  obtain ⟨rv0, w0, h0, hc⟩ := write_reg_some c port reg val w 0 w1 h
  obtain ⟨hregs, -, l, hl, hall⟩ := wait_for_ready_frame c port w rv0 w0 h0
  rcases hc with ⟨hne, he, -⟩ | ⟨-, hb, rfl⟩
  · exact absurd he.symm hne
  · refine ⟨?_, l, ?_, hall⟩
    · rw [i2c_write8_regs_ok c port reg val w0 hb.symm hr, hregs]
    · rw [i2c_write8_log, hl]

theorem filter_isWrite_nil (l : List Event)
    (h : ∀ e ∈ l, e.isWrite = false ∧ e.isNotify = false) : l.filter Event.isWrite = [] := by
  rw [List.filter_eq_nil_iff]
  intro e he
  simp [(h e he).1]

theorem write_reg_of_ready (c : Cfg) (port reg val : Nat) (w w0 : World)
    (h : syv682x_wait_for_ready c port w = some (EC_SUCCESS, w0)) :
    write_reg c port reg val w = some (i2c_write8 c port reg val w0) := by
  unfold write_reg
  rw [h]
  simp [EC_SUCCESS]

theorem i2c_write8_ok_eq (c : Cfg) (port reg val : Nat) (w : World) (h : (w.bus 0).rv = 0) :
    i2c_write8 c port reg val w = (EC_SUCCESS, (i2c_write8 c port reg val w).2) := by
  apply Prod.ext
  · rw [i2c_write8_rv, h]; rfl
  · rfl

theorem ready_then_write_log (c : Cfg) (port reg val : Nat) (w wr w0 : World)
    (hread : wr.log = w.log ++ [Event.i2c_read port c.SYV682X_CONTROL_1_REG])
    (hready : syv682x_wait_for_ready c port wr = some (EC_SUCCESS, w0)) :
    (new_events w (i2c_write8 c port reg val w0).2).filter Event.isWrite
      = [Event.i2c_write port reg val] := by
  obtain ⟨-, -, l, hl, hall⟩ := wait_for_ready_frame c port wr _ w0 hready
  have hlog : (i2c_write8 c port reg val w0).2.log
      = w.log ++ (Event.i2c_read port c.SYV682X_CONTROL_1_REG :: l
          ++ [Event.i2c_write port reg val]) := by
    rw [i2c_write8_log, hl, hread]
    simp
  rw [new_events_append _ _ _ hlog]
  simp [List.filter_cons, List.filter_append, Event.isWrite, filter_isWrite_nil l hall]

/-- C6: on a port that is not sourcing, when the read of `CONTROL_1` (value `v`),
the busy wait and the bus write succeed, `syv682x_vbus_sink_enable(port, 1)`
puts exactly one write on the bus, to `CONTROL_1`, of `v` with CH_SEL set and
HV_DR and PWR_ENB cleared and every other bit as in `v`; the register then holds
that value (the sink path is active), the call returns `EC_SUCCESS` and the
flags are unchanged, so the port is still not sourcing. -/
theorem sink_enable_on (c : Cfg) (port : Nat) (w w0 : World) (hc : c.control1_ok)
    (hns : syv682x_is_sourcing_vbus port w = 0)
    (hread : (w.bus 0).rv = 0)
    (hready : syv682x_wait_for_ready c port
      (read_reg c port c.SYV682X_CONTROL_1_REG w).2.2 = some (EC_SUCCESS, w0))
    (hwrite : (w0.bus 0).rv = 0) :
    let v := (w.regs port c.SYV682X_CONTROL_1_REG).val
    let val := (v ||| c.SYV682X_CONTROL_1_CH_SEL)
      &&& cnot (c.SYV682X_CONTROL_1_HV_DR ||| c.SYV682X_CONTROL_1_PWR_ENB)
    ∃ w1, syv682x_vbus_sink_enable c port 1 w = some (EC_SUCCESS, w1) ∧
      (new_events w w1).filter Event.isWrite
        = [Event.i2c_write port c.SYV682X_CONTROL_1_REG val] ∧
      (w1.regs port c.SYV682X_CONTROL_1_REG).val = val ∧
      val &&& c.SYV682X_CONTROL_1_CH_SEL = c.SYV682X_CONTROL_1_CH_SEL ∧
      val &&& c.SYV682X_CONTROL_1_HV_DR = 0 ∧
      val &&& c.SYV682X_CONTROL_1_PWR_ENB = 0 ∧
      (∀ i, (c.SYV682X_CONTROL_1_CH_SEL |||
          (c.SYV682X_CONTROL_1_HV_DR ||| c.SYV682X_CONTROL_1_PWR_ENB)).testBit i = false →
        val.testBit i = v.testBit i) ∧
      sink_active c port w1 ∧ w1.flags = w.flags ∧
      syv682x_is_sourcing_vbus port w1 = 0 := by
  intro v val
  obtain ⟨hch, -, -, hch8, hhv8, hpw8, hd1, hd2, -, hreg⟩ := hc
  have hk : c.SYV682X_CONTROL_1_HV_DR ||| c.SYV682X_CONTROL_1_PWR_ENB < 2 ^ 32 :=
    Nat.or_lt_two_pow (lt_int_of_lt_byte _ hhv8) (lt_int_of_lt_byte _ hpw8)
  have hd : c.SYV682X_CONTROL_1_CH_SEL &&&
      (c.SYV682X_CONTROL_1_HV_DR ||| c.SYV682X_CONTROL_1_PWR_ENB) = 0 :=
    (and_or_eq_zero _ _ _).2 ⟨hd1, hd2⟩
  obtain ⟨hb1, hb2, hb3⟩ := set_then_clear v c.SYV682X_CONTROL_1_CH_SEL _
    (byte_lt_int _) (lt_int_of_lt_byte _ hch8) hk hd
  have hb1s := (and_or_eq_zero val _ _).1 hb1
  have hval8 : val < 256 :=
    Nat.lt_of_le_of_lt Nat.and_le_left
      (Nat.or_lt_two_pow (n := 8) (w.regs port c.SYV682X_CONTROL_1_REG).isLt hch8)
  have hcall : syv682x_vbus_sink_enable c port 1 w
      = some (i2c_write8 c port c.SYV682X_CONTROL_1_REG val w0) := by
    unfold syv682x_vbus_sink_enable
    simp only [read_reg_rv, hread, read_reg_val c port _ w hread hreg, one_ne_zero, false_and,
      ne_eq, not_true_eq_false, not_false_eq_true, if_false, if_true]
    exact write_reg_of_ready c port _ _ _ w0 hready
  have hregs := i2c_write8_regs_ok c port c.SYV682X_CONTROL_1_REG val w0 hwrite
    (fun h => hreg h.1)
  have hrval : ((i2c_write8 c port c.SYV682X_CONTROL_1_REG val w0).2.regs port
      c.SYV682X_CONTROL_1_REG).val = val := by
    rw [hregs]
    simp [toByte_val val hval8]
  obtain ⟨-, hfl, -⟩ := wait_for_ready_frame c port _ _ w0 hready
  have hflags : (i2c_write8 c port c.SYV682X_CONTROL_1_REG val w0).2.flags = w.flags := by
    rw [i2c_write8_flags, hfl, read_reg_world]
  refine ⟨(i2c_write8 c port c.SYV682X_CONTROL_1_REG val w0).2, ?_, ?_, hrval, hb2,
    hb1s.1, hb1s.2, hb3, ?_, hflags, ?_⟩
  · rw [hcall, ← i2c_write8_ok_eq c port c.SYV682X_CONTROL_1_REG val w0 hwrite]
  · exact ready_then_write_log c port _ val w _ w0 (by rw [read_reg_world]) hready
  · unfold sink_active
    rw [hrval, hb2, hb1s.1, hb1s.2]
    exact ⟨hch, rfl, rfl⟩
  · unfold syv682x_is_sourcing_vbus at hns ⊢
    rw [hflags]
    exact hns

theorem sink_enable_on_witness :
    syv682x_h.control1_ok ∧ syv682x_is_sourcing_vbus 0 idle0 = 0 ∧ (idle0.bus 0).rv = 0 ∧
    syv682x_wait_for_ready syv682x_h 0
      (read_reg syv682x_h 0 syv682x_h.SYV682X_CONTROL_1_REG idle0).2.2
      = some (EC_SUCCESS, (read_reg syv682x_h 0 3
          (read_reg syv682x_h 0 1 idle0).2.2).2.2) ∧
    ∃ w1, syv682x_vbus_sink_enable syv682x_h 0 1 idle0 = some (EC_SUCCESS, w1) ∧
      (new_events idle0 w1).filter Event.isWrite = [Event.i2c_write 0 1 26] ∧
      (w1.regs 0 1).val = 26 ∧ sink_active syv682x_h 0 w1 ∧ w1.flags = idle0.flags ∧
      syv682x_is_sourcing_vbus 0 w1 = 0 := by
  have hready : syv682x_wait_for_ready syv682x_h 0
      (read_reg syv682x_h 0 syv682x_h.SYV682X_CONTROL_1_REG idle0).2.2
      = some (EC_SUCCESS, (read_reg syv682x_h 0 3
          (read_reg syv682x_h 0 1 idle0).2.2).2.2) := rfl
  obtain ⟨w1, h1, h2, h3, -, -, -, -, h4, h5, h6⟩ :=
    sink_enable_on syv682x_h 0 idle0 _ (by decide) (by decide) (by decide) hready rfl
  exact ⟨by decide, by decide, by decide, hready, w1, h1, h2, h3, h4, h5, h6⟩

theorem source_enable_ok (c : Cfg) (port : Nat) (enable : Int) (w w0 : World)
    (hreg : c.SYV682X_CONTROL_1_REG ≠ c.SYV682X_CONTROL_3_REG)
    (hread : (w.bus 0).rv = 0)
    (hready : syv682x_wait_for_ready c port
      (read_reg c port c.SYV682X_CONTROL_1_REG w).2.2 = some (EC_SUCCESS, w0))
    (hwrite : (w0.bus 0).rv = 0) (val : Nat)
    (hval : val =
      if enable ≠ 0 then
        ((w.regs port c.SYV682X_CONTROL_1_REG).val
            &&& cnot (c.SYV682X_CONTROL_1_CH_SEL ||| c.SYV682X_CONTROL_1_PWR_ENB))
          ||| c.SYV682X_CONTROL_1_HV_DR
      else if (w.flags port).val &&& SYV682X_FLAGS_SOURCE_ENABLED ≠ 0 then
        (w.regs port c.SYV682X_CONTROL_1_REG).val ||| c.SYV682X_CONTROL_1_PWR_ENB
      else (w.regs port c.SYV682X_CONTROL_1_REG).val) :
    ∃ w1, syv682x_vbus_source_enable c port enable w = some (EC_SUCCESS, w1) ∧
      (w1.regs = fun p r =>
        if p = port ∧ r = c.SYV682X_CONTROL_1_REG then toByte val else w.regs p r) ∧
      (w1.flags = fun p =>
        if p = port then
          (if enable ≠ 0 then toByte ((w.flags port).val ||| SYV682X_FLAGS_SOURCE_ENABLED)
           else toByte ((w.flags port).val &&& cnot SYV682X_FLAGS_SOURCE_ENABLED))
        else w.flags p) ∧
      (new_events w w1).filter Event.isWrite
        = [Event.i2c_write port c.SYV682X_CONTROL_1_REG val] := by
  obtain ⟨hr0, hf0, l, hl, hall⟩ := wait_for_ready_frame c port _ _ w0 hready
  have hw := write_reg_of_ready c port c.SYV682X_CONTROL_1_REG val _ w0 hready
  rw [i2c_write8_ok_eq c port _ val w0 hwrite] at hw
  have hregs := i2c_write8_regs_ok c port c.SYV682X_CONTROL_1_REG val w0 hwrite
    (fun h => hreg h.1)
  have hflags : (i2c_write8 c port c.SYV682X_CONTROL_1_REG val w0).2.flags = w.flags := by
    rw [i2c_write8_flags, hf0, read_reg_world]
  have hlog : (i2c_write8 c port c.SYV682X_CONTROL_1_REG val w0).2.log
      = w.log ++ (Event.i2c_read port c.SYV682X_CONTROL_1_REG :: l
          ++ [Event.i2c_write port c.SYV682X_CONTROL_1_REG val]) := by
    rw [i2c_write8_log, hl, read_reg_world]
    simp
  have hfl : (read_reg c port c.SYV682X_CONTROL_1_REG w).2.2.flags = w.flags := by
    rw [read_reg_world]
  unfold syv682x_vbus_source_enable
  simp only [read_reg_rv, hread, read_reg_val c port _ w hread hreg, hfl, ne_eq,
    not_true_eq_false, if_false]
  simp only [ne_eq] at hval
  rw [← hval, hw]
  simp only [EC_SUCCESS, ne_eq, not_true_eq_false, if_false]
  by_cases hcfg : c.CONFIG_USB_CHARGER = true ∧ c.CONFIG_USB_PD_VBUS_DETECT_PPC = true
  · simp only [hcfg, and_self, if_true]
    refine ⟨_, rfl, ?_, ?_, ?_⟩
    · simp only [usb_charger_vbus_change, hregs, hr0, read_reg_world]
    · simp only [usb_charger_vbus_change, hflags]
    · simp only [new_events, usb_charger_vbus_change, hlog, List.append_assoc, List.drop_left]
      simp [List.filter_cons, List.filter_append, Event.isWrite, filter_isWrite_nil l hall]
  · simp only [hcfg, if_false]
    refine ⟨_, rfl, ?_, ?_, ?_⟩
    · simp only [hregs, hr0, read_reg_world]
    · simp only [hflags]
    · simp only [new_events, hlog, List.drop_left]
      simp [List.filter_cons, List.filter_append, Event.isWrite, filter_isWrite_nil l hall]

theorem set_flag_bit (f : Fin 256) (b : Nat) (hb : b < 256) :
    (toByte (f.val ||| b)).val &&& b = b := by
  rw [toByte_val _ (Nat.or_lt_two_pow (n := 8) f.isLt hb), or_and_self]

theorem clear_flag_bit (f : Fin 256) (b : Nat) (hb : b < 256) :
    (toByte (f.val &&& cnot b)).val &&& b = 0 := by
  rw [toByte_val _ (Nat.lt_of_le_of_lt Nat.and_le_left f.isLt),
    and_cnot_and _ _ (lt_int_of_lt_byte b hb)]

/-- C5: when the read of `CONTROL_1` (value `v`), the busy wait and the bus
write succeed, `syv682x_vbus_source_enable(port, 1)` puts exactly one write on
the bus, to `CONTROL_1`, of `v` with CH_SEL and PWR_ENB cleared and HV_DR set and
every other bit as in `v`; the register then holds that value, the call returns
`EC_SUCCESS` and `syv682x_is_sourcing_vbus(port)` is non-zero afterwards. -/
theorem source_enable_on (c : Cfg) (port : Nat) (w w0 : World) (hc : c.control1_ok)
    (hread : (w.bus 0).rv = 0)
    (hready : syv682x_wait_for_ready c port
      (read_reg c port c.SYV682X_CONTROL_1_REG w).2.2 = some (EC_SUCCESS, w0))
    (hwrite : (w0.bus 0).rv = 0) :
    let v := (w.regs port c.SYV682X_CONTROL_1_REG).val
    let val := (v &&& cnot (c.SYV682X_CONTROL_1_CH_SEL ||| c.SYV682X_CONTROL_1_PWR_ENB))
      ||| c.SYV682X_CONTROL_1_HV_DR
    ∃ w1, syv682x_vbus_source_enable c port 1 w = some (EC_SUCCESS, w1) ∧
      (new_events w w1).filter Event.isWrite
        = [Event.i2c_write port c.SYV682X_CONTROL_1_REG val] ∧
      (w1.regs port c.SYV682X_CONTROL_1_REG).val = val ∧
      val &&& c.SYV682X_CONTROL_1_CH_SEL = 0 ∧
      val &&& c.SYV682X_CONTROL_1_PWR_ENB = 0 ∧
      val &&& c.SYV682X_CONTROL_1_HV_DR = c.SYV682X_CONTROL_1_HV_DR ∧
      (∀ i, ((c.SYV682X_CONTROL_1_CH_SEL ||| c.SYV682X_CONTROL_1_PWR_ENB) |||
          c.SYV682X_CONTROL_1_HV_DR).testBit i = false → val.testBit i = v.testBit i) ∧
      syv682x_is_sourcing_vbus port w1 ≠ 0 := by
  intro v val
  obtain ⟨-, -, -, hch8, hhv8, hpw8, hd1, -, hd3, hreg⟩ := hc
  have hk : c.SYV682X_CONTROL_1_CH_SEL ||| c.SYV682X_CONTROL_1_PWR_ENB < 2 ^ 32 :=
    Nat.or_lt_two_pow (lt_int_of_lt_byte _ hch8) (lt_int_of_lt_byte _ hpw8)
  have hd : c.SYV682X_CONTROL_1_HV_DR &&&
      (c.SYV682X_CONTROL_1_CH_SEL ||| c.SYV682X_CONTROL_1_PWR_ENB) = 0 :=
    (and_or_eq_zero _ _ _).2 ⟨by rw [Nat.land_comm]; exact hd1, hd3⟩
  obtain ⟨hb1, hb2, hb3⟩ := clear_then_set v c.SYV682X_CONTROL_1_HV_DR _
    (byte_lt_int _) hk hd
  have hb1s := (and_or_eq_zero val _ _).1 hb1
  have hval8 : val < 256 :=
    Nat.or_lt_two_pow (n := 8)
      (Nat.lt_of_le_of_lt Nat.and_le_left (w.regs port c.SYV682X_CONTROL_1_REG).isLt) hhv8
  obtain ⟨w1, h1, hregs, hflags, hlog⟩ :=
    source_enable_ok c port 1 w w0 hreg hread hready hwrite val (by simp [val, v])
  refine ⟨w1, h1, hlog, ?_, hb1s.1, hb1s.2, hb2, hb3, ?_⟩
  · rw [hregs]
    simp [toByte_val val hval8]
  · unfold syv682x_is_sourcing_vbus
    rw [hflags]
    simp only [one_ne_zero, ne_eq, not_false_eq_true, if_true]
    rw [set_flag_bit _ _ (by decide)]
    decide

theorem source_enable_on_witness :
    syv682x_h.control1_ok ∧ (idle0.bus 0).rv = 0 ∧
    syv682x_wait_for_ready syv682x_h 0
      (read_reg syv682x_h 0 syv682x_h.SYV682X_CONTROL_1_REG idle0).2.2
      = some (EC_SUCCESS, (read_reg syv682x_h 0 3
          (read_reg syv682x_h 0 1 idle0).2.2).2.2) ∧
    ∃ w1, syv682x_vbus_source_enable syv682x_h 0 1 idle0 = some (EC_SUCCESS, w1) ∧
      (new_events idle0 w1).filter Event.isWrite = [Event.i2c_write 0 1 28] ∧
      (w1.regs 0 1).val = 28 ∧ syv682x_is_sourcing_vbus 0 w1 ≠ 0 := by
  have hready : syv682x_wait_for_ready syv682x_h 0
      (read_reg syv682x_h 0 syv682x_h.SYV682X_CONTROL_1_REG idle0).2.2
      = some (EC_SUCCESS, (read_reg syv682x_h 0 3
          (read_reg syv682x_h 0 1 idle0).2.2).2.2) := rfl
  obtain ⟨w1, h1, h2, h3, -, -, -, -, h4⟩ :=
    source_enable_on syv682x_h 0 idle0 _ (by decide) (by decide) hready rfl
  exact ⟨by decide, by decide, hready, w1, h1, h2, h3, h4⟩

/-- C3, corrected: the guard of `syv682x_vbus_sink_enable` is on the disable
request. On a port whose SOURCE_ENABLED flag is set,
`syv682x_vbus_sink_enable(port, 0)` returns `EC_SUCCESS` and does nothing else:
no bus transfer, the registers, the flags and the log are as before. -/
theorem sink_disable_while_sourcing (c : Cfg) (port : Nat) (w : World)
    (hs : syv682x_is_sourcing_vbus port w ≠ 0) :
    syv682x_vbus_sink_enable c port 0 w = some (EC_SUCCESS, w) := by
  unfold syv682x_vbus_sink_enable
  simp [hs]

theorem sink_disable_while_sourcing_witness :
    syv682x_is_sourcing_vbus 0 sourcing0 ≠ 0 ∧
    syv682x_vbus_sink_enable syv682x_h 0 0 sourcing0 = some (EC_SUCCESS, sourcing0) :=
  ⟨by decide, sink_disable_while_sourcing syv682x_h 0 sourcing0 (by decide)⟩

/-- C3 as stated fails: on port 0 with SOURCE_ENABLED set and `CONTROL_1` = 0x04,
`syv682x_vbus_sink_enable(0, 1)` reads `CONTROL_1`, polls BUSY and writes 0x02
to `CONTROL_1`, which then holds 0x02 instead of 0x04. -/
theorem sink_enable_while_sourcing_writes :
    syv682x_is_sourcing_vbus 0 sourcing0 ≠ 0 ∧
    sourcing0.regs 0 1 = 4 ∧
    (syv682x_vbus_sink_enable syv682x_h 0 1 sourcing0).map
        (fun r => (r.1, new_events sourcing0 r.2, r.2.regs 0 1))
      = some (EC_SUCCESS,
          [Event.i2c_read 0 1, Event.i2c_read 0 3, Event.i2c_write 0 1 2], 2) := by
  decide

theorem sink_disable_ok (c : Cfg) (port : Nat) (w w1 : World)
    (hreg : c.SYV682X_CONTROL_1_REG ≠ c.SYV682X_CONTROL_3_REG)
    (hns : syv682x_is_sourcing_vbus port w = 0)
    (h : syv682x_vbus_sink_enable c port 0 w = some (0, w1)) :
    (w1.regs = fun p r =>
      if p = port ∧ r = c.SYV682X_CONTROL_1_REG then
        toByte ((w.regs port c.SYV682X_CONTROL_1_REG).val ||| c.SYV682X_CONTROL_1_PWR_ENB)
      else w.regs p r) ∧ w1.flags = w.flags := by
  unfold syv682x_vbus_sink_enable at h
  simp only [hns, ne_eq, not_true_eq_false, and_false, if_false, read_reg_rv] at h
  by_cases hrv : (w.bus 0).rv = 0
  · simp only [hrv, not_true_eq_false, if_false, if_true,
      read_reg_val c port _ w hrv hreg] at h
    obtain ⟨hregs, -⟩ := write_reg_ok c port _ _ _ w1 h (fun hh => hreg hh.1)
    refine ⟨?_, ?_⟩
    · rw [hregs, read_reg_world]
    · rw [write_reg_flags c port _ _ _ _ w1 h, read_reg_world]
  · simp only [hrv, not_false_eq_true, if_true, Option.some.injEq, Prod.mk.injEq] at h
    exact absurd h.1 (fun hf => hf)

/-- C4, corrected: in a state in which the port's SOURCE_ENABLED flag is clear,
whatever path and direction `CONTROL_1` selects, a call
`syv682x_vbus_sink_enable(port, 0)` that returns `EC_SUCCESS` leaves `CONTROL_1`
equal to its old value with PWR_ENB set: PWR_ENB is set and the CH_SEL and HV_DR
bits are as before; the flags are unchanged. -/
theorem sink_disable_when_not_sourcing (c : Cfg) (port : Nat) (w w1 : World)
    (hc : c.control1_ok) (hns : syv682x_is_sourcing_vbus port w = 0)
    (h : syv682x_vbus_sink_enable c port 0 w = some (EC_SUCCESS, w1)) :
    (w1.regs port c.SYV682X_CONTROL_1_REG).val
      = (w.regs port c.SYV682X_CONTROL_1_REG).val ||| c.SYV682X_CONTROL_1_PWR_ENB ∧
    (w1.regs port c.SYV682X_CONTROL_1_REG).val &&& c.SYV682X_CONTROL_1_PWR_ENB ≠ 0 ∧
    (w1.regs port c.SYV682X_CONTROL_1_REG).val &&& c.SYV682X_CONTROL_1_CH_SEL
      = (w.regs port c.SYV682X_CONTROL_1_REG).val &&& c.SYV682X_CONTROL_1_CH_SEL ∧
    (w1.regs port c.SYV682X_CONTROL_1_REG).val &&& c.SYV682X_CONTROL_1_HV_DR
      = (w.regs port c.SYV682X_CONTROL_1_REG).val &&& c.SYV682X_CONTROL_1_HV_DR ∧
    w1.flags = w.flags := by
  obtain ⟨-, -, hpw, -, -, hpw8, -, hd2, hd3, hreg⟩ := hc
  obtain ⟨hregs, hflags⟩ := sink_disable_ok c port w w1 hreg hns h
  have hval : (w1.regs port c.SYV682X_CONTROL_1_REG).val
      = (w.regs port c.SYV682X_CONTROL_1_REG).val ||| c.SYV682X_CONTROL_1_PWR_ENB := by
    rw [hregs]
    simp only [and_self, if_true]
    exact toByte_val _ (Nat.or_lt_two_pow (n := 8) (w.regs port _).isLt hpw8)
  refine ⟨hval, ?_, ?_, ?_, hflags⟩
  · rw [hval, or_and_self]; exact hpw
  · rw [hval, or_and_disjoint _ _ _ (by rw [Nat.land_comm]; exact hd2)]
  · rw [hval, or_and_disjoint _ _ _ (by rw [Nat.land_comm]; exact hd3)]

theorem sink_disable_when_not_sourcing_witness :
    syv682x_h.control1_ok ∧ syv682x_is_sourcing_vbus 0 sinking0 = 0 ∧
    syv682x_vbus_sink_enable syv682x_h 0 0 sinking0
      = some (EC_SUCCESS, (i2c_write8 syv682x_h 0 1 130
          (read_reg syv682x_h 0 3 (read_reg syv682x_h 0 1 sinking0).2.2).2.2).2) ∧
    ((i2c_write8 syv682x_h 0 1 130
        (read_reg syv682x_h 0 3 (read_reg syv682x_h 0 1 sinking0).2.2).2.2).2.regs 0
          syv682x_h.SYV682X_CONTROL_1_REG).val
      = (sinking0.regs 0 syv682x_h.SYV682X_CONTROL_1_REG).val
          ||| syv682x_h.SYV682X_CONTROL_1_PWR_ENB :=
  ⟨by decide, by decide, rfl,
    (sink_disable_when_not_sourcing syv682x_h 0 sinking0 _ (by decide) (by decide) rfl).1⟩

/-- C4 as stated fails: on port 0 with SOURCE_ENABLED set and `CONTROL_1` = 0x04
(PWR_ENB clear), `syv682x_vbus_sink_enable(0, 0)` returns `EC_SUCCESS` and
`CONTROL_1` is still 0x04, with PWR_ENB clear. -/
theorem sink_disable_while_sourcing_keeps_channel_on :
    syv682x_is_sourcing_vbus 0 sourcing0 ≠ 0 ∧
    (syv682x_vbus_sink_enable syv682x_h 0 0 sourcing0).map
        (fun r => (r.1, r.2.regs 0 syv682x_h.SYV682X_CONTROL_1_REG,
          (r.2.regs 0 syv682x_h.SYV682X_CONTROL_1_REG).val
            &&& syv682x_h.SYV682X_CONTROL_1_PWR_ENB))
      = some (EC_SUCCESS, 4, 0) := by
  decide

/-! ## VBUS detection -/

/-- C9: when the read of the status register succeeds with value `s`,
`syv682x_is_vbus_present` returns 0 or 1; it returns 1 exactly when VSAFE_5V is
set in `s` or neither VSAFE_5V nor VSAFE_0V is set, and 0 exactly when VSAFE_0V
is set and VSAFE_5V is clear. -/
theorem is_vbus_present_value (c : Cfg) (port : Nat) (w : World)
    (hread : (w.bus 0).rv = 0) :
    let s := (read_reg c port c.SYV682X_STATUS_REG w).2.1
    let r := (syv682x_is_vbus_present c port w).1
    (r = 1 ∨ r = 0) ∧
    (r = 1 ↔ (s &&& c.SYV682X_STATUS_VSAFE_5V ≠ 0 ∨
      (s &&& c.SYV682X_STATUS_VSAFE_5V = 0 ∧ s &&& c.SYV682X_STATUS_VSAFE_0V = 0))) ∧
    (r = 0 ↔ (s &&& c.SYV682X_STATUS_VSAFE_0V ≠ 0 ∧ s &&& c.SYV682X_STATUS_VSAFE_5V = 0)) := by
  intro s r
  have hr : r = if s &&& c.SYV682X_STATUS_VSAFE_5V ≠ 0 ∨
      s &&& (c.SYV682X_STATUS_VSAFE_5V ||| c.SYV682X_STATUS_VSAFE_0V) = 0 then 1 else 0 := by
    simp only [r, s, syv682x_is_vbus_present, read_reg_rv, hread, ne_eq, not_true_eq_false,
      if_false]
    by_cases hcfg : c.CONFIG_USB_CHARGER = true
    · simp only [hcfg, if_true]
    · simp only [hcfg, Bool.false_eq_true, if_false]
  simp only [and_or_eq_zero] at hr
  by_cases h5 : s &&& c.SYV682X_STATUS_VSAFE_5V = 0 <;>
    by_cases h0 : s &&& c.SYV682X_STATUS_VSAFE_0V = 0 <;>
    simp [hr, h5, h0]

theorem is_vbus_present_value_witness :
    (vbus_high0.bus 0).rv = 0 ∧
    (syv682x_is_vbus_present syv682x_h 0 vbus_high0).1 = 1 ∧
    (read_reg syv682x_h 0 syv682x_h.SYV682X_STATUS_REG vbus_high0).2.1
      &&& syv682x_h.SYV682X_STATUS_VSAFE_5V = 0 ∧
    (read_reg syv682x_h 0 syv682x_h.SYV682X_STATUS_REG vbus_high0).2.1
      &&& syv682x_h.SYV682X_STATUS_VSAFE_0V = 0 := by
  have h := (is_vbus_present_value syv682x_h 0 vbus_high0 rfl).2.1
  exact ⟨rfl, h.2 (Or.inr ⟨by decide, by decide⟩), by decide, by decide⟩

theorem vbus_present_step (c : Cfg) (port : Nat) (w : World)
    (hcfg : c.CONFIG_USB_CHARGER = true) (hread : (w.bus 0).rv = 0) :
    (syv682x_is_vbus_present c port w).2.log
      = w.log ++ (Event.i2c_read port c.SYV682X_STATUS_REG ::
          (if (syv682x_is_vbus_present c port w).1 ≠ vbus_latched port w then
            [Event.usb_charger_vbus_change port ((syv682x_is_vbus_present c port w).1 : Nat)]
           else [])) ∧
    vbus_latched port (syv682x_is_vbus_present c port w).2
      = (syv682x_is_vbus_present c port w).1 ∧
    (syv682x_is_vbus_present c port w).2.bus = (fun i => w.bus (i + 1)) := by
  unfold syv682x_is_vbus_present vbus_latched
  simp only [read_reg_rv, hread, hcfg, read_reg_world, ne_eq, not_true_eq_false, if_false,
    if_true]
  have hlt : SYV682X_FLAGS_VBUS_PRESENT < 256 := by decide
  have hne : SYV682X_FLAGS_VBUS_PRESENT ≠ 0 := by decide
  by_cases hv : (read_reg c port c.SYV682X_STATUS_REG w).2.1 &&& c.SYV682X_STATUS_VSAFE_5V ≠ 0 ∨
      (read_reg c port c.SYV682X_STATUS_REG w).2.1 &&&
        (c.SYV682X_STATUS_VSAFE_5V ||| c.SYV682X_STATUS_VSAFE_0V) = 0
  · simp only [ne_eq] at hv
    simp only [hv, if_true, one_ne_zero, not_false_eq_true]
    by_cases hl : (w.flags port).val &&& SYV682X_FLAGS_VBUS_PRESENT = 0
    · simp [hl, usb_charger_vbus_change, set_flag_bit _ _ hlt, hne]
    · simp [hl, set_flag_bit _ _ hlt, hne]
  · simp only [ne_eq] at hv
    simp only [hv, if_false, not_true_eq_false]
    by_cases hl : (w.flags port).val &&& SYV682X_FLAGS_VBUS_PRESENT = 0
    · simp [hl, clear_flag_bit _ _ hlt]
    · simp [hl, usb_charger_vbus_change, clear_flag_bit _ _ hlt]

theorem poll_vbus_log (c : Cfg) (port : Nat) (hcfg : c.CONFIG_USB_CHARGER = true) :
    ∀ (ss : List (Fin 256)) (w : World), (∀ i, i < ss.length → (w.bus i).rv = 0) →
      ∃ l, (poll_vbus c port ss w).2.log = w.log ++ l ∧
        l.filter Event.isNotify
          = (changes (vbus_latched port w) (poll_vbus c port ss w).1).map
              (fun v => Event.usb_charger_vbus_change port (v : Nat)) := by
  intro ss
  induction ss with
  | nil => intro w _; exact ⟨[], by simp [poll_vbus], by simp [poll_vbus, changes]⟩
  | cons s ss ih =>
    intro w hbus
    have h0 : ((set_status c port s w).bus 0).rv = 0 := hbus 0 (by simp)
    obtain ⟨hlog, hlatch, hb⟩ := vbus_present_step c port (set_status c port s w) hcfg h0
    obtain ⟨l, hl, hfilter⟩ := ih (syv682x_is_vbus_present c port (set_status c port s w)).2
      (by
        intro i hi
        rw [hb]
        exact hbus (i + 1) (by simp; omega))
    have hprev : vbus_latched port (set_status c port s w) = vbus_latched port w := rfl
    rw [hlatch] at hfilter
    rw [hprev] at hlog
    by_cases hch : (syv682x_is_vbus_present c port (set_status c port s w)).1
        ≠ vbus_latched port w
    · refine ⟨Event.i2c_read port c.SYV682X_STATUS_REG ::
        Event.usb_charger_vbus_change port
          ((syv682x_is_vbus_present c port (set_status c port s w)).1 : Nat) :: l, ?_, ?_⟩
      · simp only [poll_vbus, hl, hlog, hch, ne_eq, not_false_eq_true, if_true]
        simp [set_status]
      · simp only [poll_vbus, changes, hch, ne_eq, not_false_eq_true, if_true]
        simp [List.filter_cons, Event.isNotify, hfilter]
    · refine ⟨Event.i2c_read port c.SYV682X_STATUS_REG :: l, ?_, ?_⟩
      · simp only [poll_vbus, hl, hlog, hch, if_false]
        simp [set_status]
      · simp only [poll_vbus, changes, hch, if_false]
        simp [List.filter_cons, Event.isNotify, hfilter]

/-- C10: with the charger notification configured and the status read
succeeding, `syv682x_is_vbus_present` calls `usb_charger_vbus_change` exactly
once, with the new value, when the computed presence differs from the latched
VBUS_PRESENT flag and not at all when it equals it, and afterwards the latched
flag equals the returned value; hence over any sequence of such calls the
notifications are exactly the changes of the reported presence, one for each
change, in order. -/
theorem vbus_change_notified_once_per_change (c : Cfg) (port : Nat)
    (hcfg : c.CONFIG_USB_CHARGER = true) :
    (∀ w : World, (w.bus 0).rv = 0 →
      (new_events w (syv682x_is_vbus_present c port w).2).filter Event.isNotify
        = (if (syv682x_is_vbus_present c port w).1 ≠ vbus_latched port w then
            [Event.usb_charger_vbus_change port ((syv682x_is_vbus_present c port w).1 : Nat)]
           else []) ∧
      vbus_latched port (syv682x_is_vbus_present c port w).2
        = (syv682x_is_vbus_present c port w).1) ∧
    (∀ (ss : List (Fin 256)) (w : World), (∀ i, i < ss.length → (w.bus i).rv = 0) →
      (new_events w (poll_vbus c port ss w).2).filter Event.isNotify
        = (changes (vbus_latched port w) (poll_vbus c port ss w).1).map
            (fun v => Event.usb_charger_vbus_change port (v : Nat))) := by
  constructor
  · intro w hread
    obtain ⟨hlog, hlatch, -⟩ := vbus_present_step c port w hcfg hread
    refine ⟨?_, hlatch⟩
    rw [new_events_append _ _ _ hlog]
    by_cases hch : (syv682x_is_vbus_present c port w).1 ≠ vbus_latched port w
    · simp [hch, List.filter_cons, Event.isNotify]
    · simp [hch, List.filter_cons, Event.isNotify]
  · intro ss w hbus
    obtain ⟨l, hl, hfilter⟩ := poll_vbus_log c port hcfg ss w hbus
    rw [new_events_append _ _ _ hl, hfilter]

theorem vbus_change_notified_once_per_change_witness :
    syv682x_h.CONFIG_USB_CHARGER = true ∧
    (poll_vbus syv682x_h 0 [0, 1, 1, 2] vbus_high0).1 = [1, 0, 0, 1] ∧
    (new_events vbus_high0 (poll_vbus syv682x_h 0 [0, 1, 1, 2] vbus_high0).2).filter
        Event.isNotify
      = [Event.usb_charger_vbus_change 0 1, Event.usb_charger_vbus_change 0 0,
         Event.usb_charger_vbus_change 0 1] :=
  ⟨rfl, by decide,
    (vbus_change_notified_once_per_change syv682x_h 0 rfl).2 [0, 1, 1, 2] vbus_high0
      (fun _ _ => rfl)⟩

/-! ## Sequences of VBUS path calls -/

theorem sink_enable_returns (c : Cfg) (port : Nat) (enable : Int) (w : World) :
    ∃ r, syv682x_vbus_sink_enable c port enable w = some r := by
  unfold syv682x_vbus_sink_enable
  by_cases h1 : enable = 0 ∧ syv682x_is_sourcing_vbus port w ≠ 0
  · rw [if_pos h1]
    exact ⟨_, rfl⟩
  · rw [if_neg h1]
    by_cases h2 : (read_reg c port c.SYV682X_CONTROL_1_REG w).1 = 0
    · simp only [h2, ne_eq, not_true_eq_false, if_false]
      exact write_reg_returns c port _ _ _
    · simp only [h2, ne_eq, not_false_eq_true, if_true]
      exact ⟨_, rfl⟩

theorem source_enable_returns (c : Cfg) (port : Nat) (enable : Int) (w : World) :
    ∃ r, syv682x_vbus_source_enable c port enable w = some r := by
  unfold syv682x_vbus_source_enable
  by_cases hrv : (read_reg c port c.SYV682X_CONTROL_1_REG w).1 = 0
  · simp only [hrv, ne_eq, not_true_eq_false, if_false]
    obtain ⟨⟨rv, w1⟩, h⟩ := write_reg_returns c port c.SYV682X_CONTROL_1_REG
      (if ¬ enable = 0 then
        (read_reg c port c.SYV682X_CONTROL_1_REG w).2.1 &&&
            cnot (c.SYV682X_CONTROL_1_CH_SEL ||| c.SYV682X_CONTROL_1_PWR_ENB) |||
          c.SYV682X_CONTROL_1_HV_DR
       else if ¬ ((read_reg c port c.SYV682X_CONTROL_1_REG w).2.2.flags port).val &&&
            SYV682X_FLAGS_SOURCE_ENABLED = 0 then
          (read_reg c port c.SYV682X_CONTROL_1_REG w).2.1 ||| c.SYV682X_CONTROL_1_PWR_ENB
       else (read_reg c port c.SYV682X_CONTROL_1_REG w).2.1)
      (read_reg c port c.SYV682X_CONTROL_1_REG w).2.2
    rw [h]
    by_cases hrv1 : rv = 0
    · simp only [hrv1, not_true_eq_false, if_false]
      exact ⟨_, rfl⟩
    · simp only [hrv1, not_false_eq_true, if_true]
      exact ⟨_, rfl⟩
  · simp only [hrv, ne_eq, not_false_eq_true, if_true]
    exact ⟨_, rfl⟩

theorem sink_enable_frame (c : Cfg) (port : Nat) (enable : Int) (w : World) (rv : Nat)
    (w1 : World) (h : syv682x_vbus_sink_enable c port enable w = some (rv, w1)) :
    w1.flags = w.flags ∧ ∀ p, p ≠ port → ∀ r, w1.regs p r = w.regs p r := by
  unfold syv682x_vbus_sink_enable at h
  by_cases h1 : enable = 0 ∧ syv682x_is_sourcing_vbus port w ≠ 0
  · rw [if_pos h1] at h
    simp only [Option.some.injEq, Prod.mk.injEq] at h
    obtain ⟨-, rfl⟩ := h
    exact ⟨rfl, fun _ _ _ => rfl⟩
  · rw [if_neg h1] at h
    by_cases h2 : (read_reg c port c.SYV682X_CONTROL_1_REG w).1 = 0
    · simp only [h2, ne_eq, not_true_eq_false, if_false] at h
      refine ⟨?_, ?_⟩
      · rw [write_reg_flags c port _ _ _ rv w1 h, read_reg_world]
      · intro p hp r
        rw [write_reg_regs_other c port _ _ _ rv w1 h p hp r, read_reg_world]
    · simp only [h2, ne_eq, not_false_eq_true, if_true, Option.some.injEq,
        Prod.mk.injEq] at h
      obtain ⟨-, rfl⟩ := h
      rw [read_reg_world]
      exact ⟨rfl, fun _ _ _ => rfl⟩

theorem source_enable_cases (c : Cfg) (port : Nat) (enable : Int) (w : World) (rv : Nat)
    (w1 : World) (hreg : c.SYV682X_CONTROL_1_REG ≠ c.SYV682X_CONTROL_3_REG)
    (h : syv682x_vbus_source_enable c port enable w = some (rv, w1)) :
    (rv ≠ 0 ∧ w1.regs = w.regs ∧ w1.flags = w.flags) ∨
    (rv = 0 ∧
      (w1.regs = fun p r =>
        if p = port ∧ r = c.SYV682X_CONTROL_1_REG then
          toByte (if enable ≠ 0 then
            ((w.regs port c.SYV682X_CONTROL_1_REG).val
                &&& cnot (c.SYV682X_CONTROL_1_CH_SEL ||| c.SYV682X_CONTROL_1_PWR_ENB))
              ||| c.SYV682X_CONTROL_1_HV_DR
            else if (w.flags port).val &&& SYV682X_FLAGS_SOURCE_ENABLED ≠ 0 then
              (w.regs port c.SYV682X_CONTROL_1_REG).val ||| c.SYV682X_CONTROL_1_PWR_ENB
            else (w.regs port c.SYV682X_CONTROL_1_REG).val)
        else w.regs p r) ∧
      (w1.flags = fun p =>
        if p = port then
          (if enable ≠ 0 then toByte ((w.flags port).val ||| SYV682X_FLAGS_SOURCE_ENABLED)
           else toByte ((w.flags port).val &&& cnot SYV682X_FLAGS_SOURCE_ENABLED))
        else w.flags p)) := by
  unfold syv682x_vbus_source_enable at h
  by_cases hrv : (w.bus 0).rv = 0
  · have hfl : (read_reg c port c.SYV682X_CONTROL_1_REG w).2.2.flags = w.flags := by
      rw [read_reg_world]
    have hrg : (read_reg c port c.SYV682X_CONTROL_1_REG w).2.2.regs = w.regs := by
      rw [read_reg_world]
    simp only [read_reg_rv, hrv, read_reg_val c port _ w hrv hreg, hfl, ne_eq,
      not_true_eq_false, if_false] at h
    generalize hval : (if ¬ enable = 0 then
        (w.regs port c.SYV682X_CONTROL_1_REG).val &&&
            cnot (c.SYV682X_CONTROL_1_CH_SEL ||| c.SYV682X_CONTROL_1_PWR_ENB) |||
          c.SYV682X_CONTROL_1_HV_DR
       else if ¬ (w.flags port).val &&& SYV682X_FLAGS_SOURCE_ENABLED = 0 then
          (w.regs port c.SYV682X_CONTROL_1_REG).val ||| c.SYV682X_CONTROL_1_PWR_ENB
       else (w.regs port c.SYV682X_CONTROL_1_REG).val) = val at h
    obtain ⟨⟨rv0, w0⟩, h0⟩ := write_reg_returns c port c.SYV682X_CONTROL_1_REG val
      (read_reg c port c.SYV682X_CONTROL_1_REG w).2.2
    rw [h0] at h
    have hf0 := write_reg_flags c port _ _ _ rv0 w0 h0
    by_cases hrv0 : rv0 = 0
    · subst hrv0
      obtain ⟨hregs, -⟩ := write_reg_ok c port _ _ _ w0 h0 (fun hh => hreg hh.1)
      simp only [not_true_eq_false, if_false, Option.some.injEq, Prod.mk.injEq] at h
      obtain ⟨hrv1, rfl⟩ := h
      right
      refine ⟨by rw [← hrv1]; rfl, ?_, ?_⟩
      · by_cases hcfg : c.CONFIG_USB_CHARGER = true ∧ c.CONFIG_USB_PD_VBUS_DETECT_PPC = true
        · simp only [hcfg, and_self, if_true, usb_charger_vbus_change, hregs, hrg]
        · simp only [hcfg, if_false, hregs, hrg]
      · by_cases hcfg : c.CONFIG_USB_CHARGER = true ∧ c.CONFIG_USB_PD_VBUS_DETECT_PPC = true
        · simp only [hcfg, and_self, if_true, usb_charger_vbus_change, hf0, hfl, ne_eq]
        · simp only [hcfg, if_false, hf0, hfl, ne_eq]
    · simp only [hrv0, not_false_eq_true, if_true, Option.some.injEq, Prod.mk.injEq] at h
      obtain ⟨rfl, rfl⟩ := h
      left
      obtain ⟨hregs, -⟩ := write_reg_fail c port _ _ _ _ _ h0 hrv0
      exact ⟨hrv0, by rw [hregs, hrg], by rw [hf0, hfl]⟩
  · simp only [read_reg_rv, hrv, ne_eq, not_false_eq_true, if_true, Option.some.injEq,
      Prod.mk.injEq] at h
    obtain ⟨rfl, rfl⟩ := h
    left
    exact ⟨hrv, by rw [read_reg_world], by rw [read_reg_world]⟩

theorem exec_returns (c : Cfg) (x : Call) (w : World) : ∃ r, x.exec c w = some r := by
  cases x with
  | sink port enable => exact sink_enable_returns c port enable w
  | source port enable => exact source_enable_returns c port enable w

theorem sink_active_congr (c : Cfg) (p : Nat) (w w1 : World)
    (h : w1.regs p c.SYV682X_CONTROL_1_REG = w.regs p c.SYV682X_CONTROL_1_REG) :
    sink_active c p w1 ↔ sink_active c p w := by
  unfold sink_active
  rw [h]

theorem exec_keeps_paths_apart (c : Cfg) (hc : c.control1_ok) (p : Nat) (x : Call)
    (w w1 : World) (rv : Nat)
    (hinv : ¬ (syv682x_is_sourcing_vbus p w ≠ 0 ∧ sink_active c p w))
    (hd : match x with
      | Call.sink port enable => enable ≠ 0 → syv682x_is_sourcing_vbus port w = 0
      | Call.source _ _ => True)
    (h : x.exec c w = some (rv, w1)) :
    ¬ (syv682x_is_sourcing_vbus p w1 ≠ 0 ∧ sink_active c p w1) := by
  obtain ⟨-, hhv, -, -, hhv8, -, -, -, -, hreg⟩ := hc
  cases x with
  | sink q enable =>
    simp only [Call.exec] at h
    simp only at hd
    obtain ⟨hfl, hother⟩ := sink_enable_frame c q enable w rv w1 h
    have hsrc : syv682x_is_sourcing_vbus p w1 = syv682x_is_sourcing_vbus p w := by
      unfold syv682x_is_sourcing_vbus; rw [hfl]
    by_cases hpq : p = q
    · subst hpq
      by_cases hs : syv682x_is_sourcing_vbus p w = 0
      · intro hcon
        exact hcon.1 (by rw [hsrc]; exact hs)
      · have hen : enable = 0 := by
          by_contra hne
          exact hs (hd hne)
        unfold syv682x_vbus_sink_enable at h
        rw [if_pos ⟨hen, hs⟩] at h
        simp only [Option.some.injEq, Prod.mk.injEq] at h
        obtain ⟨-, rfl⟩ := h
        exact hinv
    · rw [hsrc, sink_active_congr c p w w1 (hother p hpq _)]
      exact hinv
  | source q enable =>
    simp only [Call.exec] at h
    rcases source_enable_cases c q enable w rv w1 hreg h with ⟨-, hregs, hflags⟩ | ⟨-, hregs, hflags⟩
    · have hsrc : syv682x_is_sourcing_vbus p w1 = syv682x_is_sourcing_vbus p w := by
        unfold syv682x_is_sourcing_vbus; rw [hflags]
      rw [hsrc, sink_active_congr c p w w1 (by rw [hregs])]
      exact hinv
    · by_cases hpq : p = q
      · subst hpq
        by_cases hen : enable = 0
        · intro hcon
          apply hcon.1
          unfold syv682x_is_sourcing_vbus
          rw [hflags]
          simp only [hen, ne_eq, not_true_eq_false, if_true, if_false]
          exact clear_flag_bit _ _ (by decide)
        · intro hcon
          have hsa := hcon.2
          unfold sink_active at hsa
          rw [hregs] at hsa
          simp only [hen, ne_eq, not_false_eq_true, and_self, if_true] at hsa
          have hval8 : (w.regs p c.SYV682X_CONTROL_1_REG).val &&&
              cnot (c.SYV682X_CONTROL_1_CH_SEL ||| c.SYV682X_CONTROL_1_PWR_ENB) |||
                c.SYV682X_CONTROL_1_HV_DR < 256 :=
            Nat.or_lt_two_pow (n := 8)
              (Nat.lt_of_le_of_lt Nat.and_le_left (w.regs p _).isLt) hhv8
          rw [toByte_val _ hval8, or_and_self] at hsa
          exact hhv hsa.2.1
      · have hsrc : syv682x_is_sourcing_vbus p w1 = syv682x_is_sourcing_vbus p w := by
          unfold syv682x_is_sourcing_vbus; rw [hflags]; simp [hpq]
        rw [hsrc, sink_active_congr c p w w1 (by rw [hregs]; simp [hpq])]
        exact hinv

theorem states_keep_paths_apart (c : Cfg) (hc : c.control1_ok) (p : Nat) :
    ∀ (calls : List Call) (w : World),
      ¬ (syv682x_is_sourcing_vbus p w ≠ 0 ∧ sink_active c p w) →
      sink_enable_only_when_not_sourcing c calls w →
      (states_after c calls w).length = calls.length ∧
      ∀ s ∈ states_after c calls w,
        ¬ (syv682x_is_sourcing_vbus p s ≠ 0 ∧ sink_active c p s) := by
  intro calls
  induction calls with
  | nil => intro w _ _; simp [states_after]
  | cons x xs ih =>
    intro w hinv hd
    obtain ⟨⟨rv, w1⟩, hx⟩ := exec_returns c x w
    simp only [sink_enable_only_when_not_sourcing, hx] at hd
    have hinv1 := exec_keeps_paths_apart c hc p x w w1 rv hinv hd.1 hx
    obtain ⟨hlen, hall⟩ := ih w1 hinv1 hd.2
    simp only [states_after, hx, List.length_cons, hlen, List.mem_cons, true_and]
    intro s hs
    rcases hs with rfl | hs
    · exact hinv1
    · exact hall s hs

/-- C1, corrected: for every port, every state in which the port's
SOURCE_ENABLED flag is clear and every finite sequence of
`syv682x_vbus_sink_enable` and `syv682x_vbus_source_enable` calls (any ports, any
enable arguments, whatever the bus does) in which the sink path of a port is
never enabled while that port's SOURCE_ENABLED flag is set: every call returns,
and no state reached after a call has both the SOURCE_ENABLED flag set and the
sink path active. -/
theorem source_and_sink_never_both (c : Cfg) (hc : c.control1_ok) (p : Nat)
    (calls : List Call) (w : World)
    (hstart : syv682x_is_sourcing_vbus p w = 0)
    (hd : sink_enable_only_when_not_sourcing c calls w) :
    (states_after c calls w).length = calls.length ∧
    ∀ s ∈ states_after c calls w,
      ¬ (syv682x_is_sourcing_vbus p s ≠ 0 ∧ sink_active c p s) :=
  states_keep_paths_apart c hc p calls w (fun h => h.1 hstart) hd

theorem source_and_sink_never_both_witness :
    syv682x_h.control1_ok ∧ syv682x_is_sourcing_vbus 0 boot = 0 ∧
    sink_enable_only_when_not_sourcing syv682x_h
      [Call.sink 0 1, Call.source 0 1, Call.sink 0 0, Call.source 0 0, Call.sink 0 1] boot ∧
    (states_after syv682x_h
      [Call.sink 0 1, Call.source 0 1, Call.sink 0 0, Call.source 0 0, Call.sink 0 1]
      boot).length = 5 ∧
    ∀ s ∈ states_after syv682x_h
        [Call.sink 0 1, Call.source 0 1, Call.sink 0 0, Call.source 0 0, Call.sink 0 1] boot,
      ¬ (syv682x_is_sourcing_vbus 0 s ≠ 0 ∧ sink_active syv682x_h 0 s) := by
  have hd : sink_enable_only_when_not_sourcing syv682x_h
      [Call.sink 0 1, Call.source 0 1, Call.sink 0 0, Call.source 0 0, Call.sink 0 1] boot :=
    ⟨fun _ => rfl, trivial, fun h => absurd rfl h, trivial, fun _ => rfl, trivial⟩
  exact ⟨by decide, by decide, hd,
    source_and_sink_never_both syv682x_h (by decide) 0 _ boot (by decide) hd⟩

/-- C1 as stated fails: from the power-up state (all flags clear, every bus
transfer succeeding), `syv682x_vbus_source_enable(0, 1)` followed by
`syv682x_vbus_sink_enable(0, 1)` reaches a state in which SOURCE_ENABLED is set
and the sink path is active. -/
theorem sink_enable_after_source_enable_breaks_exclusion :
    syv682x_is_sourcing_vbus 0 boot = 0 ∧ (∀ i, i < 8 → (boot.bus i).rv = 0) ∧
    (states_after syv682x_h [Call.source 0 1, Call.sink 0 1] boot).map
        (fun s => (syv682x_is_sourcing_vbus 0 s, decide (sink_active syv682x_h 0 s)))
      = [(1, false), (1, true)] := by
  decide

/-! ## Initialisation -/

theorem init_cc_routing_flags (c : Cfg) (port : Nat) (w : World) (rv : Nat) (w1 : World)
    (h : init_cc_routing c port w = some (rv, w1)) : w1.flags = w.flags := by
  unfold init_cc_routing at h
  by_cases hr : (read_reg c port c.SYV682X_CONTROL_4_REG w).1 = 0
  · simp only [hr, ne_eq, not_true_eq_false, if_false] at h
    split at h
    · exact absurd h (by simp)
    · rename_i rv0 w0 h0
      have hf := write_reg_flags c port _ _ _ rv0 w0 h0
      by_cases hrv0 : rv0 = 0
      · simp only [hrv0, not_true_eq_false, if_false, Option.some.injEq, Prod.mk.injEq] at h
        obtain ⟨-, rfl⟩ := h
        rw [hf, read_reg_world]
      · simp only [hrv0, not_false_eq_true, if_true, Option.some.injEq, Prod.mk.injEq] at h
        obtain ⟨-, rfl⟩ := h
        rw [hf, read_reg_world]
  · simp only [hr, ne_eq, not_false_eq_true, if_true, Option.some.injEq, Prod.mk.injEq] at h
    obtain ⟨-, rfl⟩ := h
    rw [read_reg_world]

theorem init_power_path_flags (c : Cfg) (port : Nat) (w : World) (rv : Nat) (w1 : World)
    (h : init_power_path c port w = some (rv, w1)) : w1.flags = w.flags := by
  unfold init_power_path at h
  have hfl : ∀ reg (x : World), (read_reg c port reg x).2.2.flags = x.flags := by
    intro reg x; rw [read_reg_world]
  by_cases hr : (read_reg c port c.SYV682X_STATUS_REG w).1 = 0
  · simp only [hr, ne_eq, not_true_eq_false, if_false] at h
    by_cases hs : (read_reg c port c.SYV682X_STATUS_REG w).2.1 &&& c.SYV682X_STATUS_VSAFE_0V = 0
    · simp only [hs, not_true_eq_false, if_false] at h
      split at h
      · exact absurd h (by simp)
      · rename_i rv0 w0 h0
        rw [init_cc_routing_flags c port w0 rv w1 h,
          (sink_enable_frame c port 1 _ rv0 w0 h0).1, hfl]
    · simp only [hs, not_false_eq_true, if_true] at h
      by_cases hr1 : (read_reg c port c.SYV682X_CONTROL_1_REG
          (read_reg c port c.SYV682X_STATUS_REG w).2.2).1 = 0
      · simp only [hr1, not_true_eq_false, if_false] at h
        split at h
        · exact absurd h (by simp)
        · rename_i rv0 w0 h0
          have hf := write_reg_flags c port _ _ _ rv0 w0 h0
          by_cases hrv0 : rv0 = 0
          · simp only [hrv0, not_true_eq_false, if_false] at h
            rw [init_cc_routing_flags c port w0 rv w1 h, hf, hfl, hfl]
          · simp only [hrv0, not_false_eq_true, if_true, Option.some.injEq,
              Prod.mk.injEq] at h
            obtain ⟨-, rfl⟩ := h
            rw [hf, hfl, hfl]
      · simp only [hr1, not_false_eq_true, if_true, Option.some.injEq, Prod.mk.injEq] at h
        obtain ⟨-, rfl⟩ := h
        rw [hfl, hfl]
  · simp only [hr, ne_eq, not_false_eq_true, if_true, Option.some.injEq, Prod.mk.injEq] at h
    obtain ⟨-, rfl⟩ := h
    rw [hfl]

theorem init_discharge_ovp_flags (c : Cfg) (port : Nat) (w : World) (rv : Nat) (w1 : World)
    (h : init_discharge_ovp c port w = some (rv, w1)) : w1.flags = w.flags := by
  unfold init_discharge_ovp at h
  have hfl : ∀ reg (x : World), (read_reg c port reg x).2.2.flags = x.flags := by
    intro reg x; rw [read_reg_world]
  by_cases hr : (read_reg c port c.SYV682X_CONTROL_2_REG w).1 = 0
  · simp only [hr, ne_eq, not_true_eq_false, if_false] at h
    split at h
    · exact absurd h (by simp)
    · rename_i rv0 w0 h0
      have hf := write_reg_flags c port _ _ _ rv0 w0 h0
      by_cases hrv0 : rv0 = 0
      · simp only [hrv0, not_true_eq_false, if_false] at h
        by_cases hr1 : (read_reg c port c.SYV682X_CONTROL_3_REG w0).1 = 0
        · simp only [hr1, not_true_eq_false, if_false] at h
          split at h
          · exact absurd h (by simp)
          · rename_i rv2 w2 h2
            have hf2 := write_reg_flags c port _ _ _ rv2 w2 h2
            by_cases hrv2 : rv2 = 0
            · simp only [hrv2, not_true_eq_false, if_false] at h
              rw [init_power_path_flags c port w2 rv w1 h, hf2, hfl, hf, hfl]
            · simp only [hrv2, not_false_eq_true, if_true, Option.some.injEq,
                Prod.mk.injEq] at h
              obtain ⟨-, rfl⟩ := h
              rw [hf2, hfl, hf, hfl]
        · simp only [hr1, not_false_eq_true, if_true, Option.some.injEq,
            Prod.mk.injEq] at h
          obtain ⟨-, rfl⟩ := h
          rw [hfl, hf, hfl]
      · simp only [hrv0, not_false_eq_true, if_true, Option.some.injEq, Prod.mk.injEq] at h
        obtain ⟨-, rfl⟩ := h
        rw [hf, hfl]
  · simp only [hr, ne_eq, not_false_eq_true, if_true, Option.some.injEq, Prod.mk.injEq] at h
    obtain ⟨-, rfl⟩ := h
    rw [hfl]

theorem init_flags (c : Cfg) (port : Nat) (w : World) (rv : Nat) (w1 : World)
    (h : syv682x_init c port w = some (rv, w1)) : w1.flags = w.flags := by
  unfold syv682x_init at h
  split at h
  · exact absurd h (by simp)
  · rename_i rv0 w0 h0
    have hf := write_reg_flags c port _ _ _ rv0 w0 h0
    by_cases hrv0 : rv0 = 0
    · simp only [hrv0, ne_eq, not_true_eq_false, if_false] at h
      split at h
      · exact absurd h (by simp)
      · rename_i rv2 w2 h2
        obtain ⟨-, hf2, -⟩ := wait_for_ready_frame c port w0 rv2 w2 h2
        by_cases hrv2 : rv2 = 0
        · simp only [hrv2, not_true_eq_false, if_false] at h
          rw [init_discharge_ovp_flags c port w2 rv w1 h, hf2, hf]
        · simp only [hrv2, not_false_eq_true, if_true, Option.some.injEq, Prod.mk.injEq] at h
          obtain ⟨-, rfl⟩ := h
          rw [hf2, hf]
    · simp only [hrv0, ne_eq, not_false_eq_true, if_true, Option.some.injEq,
        Prod.mk.injEq] at h
      obtain ⟨-, rfl⟩ := h
      exact hf

theorem init_cc_routing_returns (c : Cfg) (port : Nat) (w : World) :
    ∃ r, init_cc_routing c port w = some r := by
  unfold init_cc_routing
  by_cases hr : (read_reg c port c.SYV682X_CONTROL_4_REG w).1 = 0
  · simp only [hr, ne_eq, not_true_eq_false, if_false]
    split
    · rename_i h0
      obtain ⟨r, hr0⟩ := write_reg_returns c port c.SYV682X_CONTROL_4_REG
        ((read_reg c port c.SYV682X_CONTROL_4_REG w).2.1 |||
          (c.SYV682X_CONTROL_4_CC1_BPS ||| c.SYV682X_CONTROL_4_CC2_BPS) |||
            c.SYV682X_CONTROL_4_CC_FRS) (read_reg c port c.SYV682X_CONTROL_4_REG w).2.2
      rw [h0] at hr0
      exact absurd hr0 (by simp)
    · rename_i rv0 w0 h0
      by_cases hrv0 : rv0 = 0
      · simp only [hrv0, not_true_eq_false, if_false]; exact ⟨_, rfl⟩
      · simp only [hrv0, not_false_eq_true, if_true]; exact ⟨_, rfl⟩
  · simp only [hr, ne_eq, not_false_eq_true, if_true]
    exact ⟨_, rfl⟩

theorem init_power_path_returns (c : Cfg) (port : Nat) (w : World) :
    ∃ r, init_power_path c port w = some r := by
  unfold init_power_path
  by_cases hr : (read_reg c port c.SYV682X_STATUS_REG w).1 = 0
  · simp only [hr, ne_eq, not_true_eq_false, if_false]
    by_cases hs : (read_reg c port c.SYV682X_STATUS_REG w).2.1 &&& c.SYV682X_STATUS_VSAFE_0V = 0
    · simp only [hs, not_true_eq_false, if_false]
      split
      · rename_i h0
        obtain ⟨r, hr0⟩ := sink_enable_returns c port 1
          (read_reg c port c.SYV682X_STATUS_REG w).2.2
        rw [h0] at hr0
        exact absurd hr0 (by simp)
      · exact init_cc_routing_returns c port _
    · simp only [hs, not_false_eq_true, if_true]
      by_cases hr1 : (read_reg c port c.SYV682X_CONTROL_1_REG
          (read_reg c port c.SYV682X_STATUS_REG w).2.2).1 = 0
      · simp only [hr1, not_true_eq_false, if_false]
        split
        · rename_i h0
          obtain ⟨r, hr0⟩ := write_reg_returns c port c.SYV682X_CONTROL_1_REG
            ((read_reg c port c.SYV682X_CONTROL_1_REG
              (read_reg c port c.SYV682X_STATUS_REG w).2.2).2.1 |||
                c.SYV682X_CONTROL_1_PWR_ENB)
            (read_reg c port c.SYV682X_CONTROL_1_REG
              (read_reg c port c.SYV682X_STATUS_REG w).2.2).2.2
          rw [h0] at hr0
          exact absurd hr0 (by simp)
        · rename_i rv0 w0 h0
          by_cases hrv0 : rv0 = 0
          · simp only [hrv0, not_true_eq_false, if_false]
            exact init_cc_routing_returns c port _
          · simp only [hrv0, not_false_eq_true, if_true]; exact ⟨_, rfl⟩
      · simp only [hr1, not_false_eq_true, if_true]
        exact ⟨_, rfl⟩
  · simp only [hr, ne_eq, not_false_eq_true, if_true]
    exact ⟨_, rfl⟩

theorem init_discharge_ovp_returns (c : Cfg) (port : Nat) (w : World) :
    ∃ r, init_discharge_ovp c port w = some r := by
  unfold init_discharge_ovp
  by_cases hr : (read_reg c port c.SYV682X_CONTROL_2_REG w).1 = 0
  · simp only [hr, ne_eq, not_true_eq_false, if_false]
    split
    · rename_i h0
      obtain ⟨r, hr0⟩ := write_reg_returns c port c.SYV682X_CONTROL_2_REG
        ((read_reg c port c.SYV682X_CONTROL_2_REG w).2.1 ||| c.SYV682X_CONTROL_2_SDSG)
        (read_reg c port c.SYV682X_CONTROL_2_REG w).2.2
      rw [h0] at hr0
      exact absurd hr0 (by simp)
    · rename_i rv0 w0 h0
      by_cases hrv0 : rv0 = 0
      · simp only [hrv0, not_true_eq_false, if_false]
        by_cases hr1 : (read_reg c port c.SYV682X_CONTROL_3_REG w0).1 = 0
        · simp only [hr1, not_true_eq_false, if_false]
          split
          · rename_i h2
            obtain ⟨r, hr2⟩ := write_reg_returns c port c.SYV682X_CONTROL_3_REG
              ((read_reg c port c.SYV682X_CONTROL_3_REG w0).2.1 &&& cnot c.SYV682X_OVP_MASK |||
                c.SYV682X_OVP_23_7 <<< c.SYV682X_OVP_BIT_SHIFT)
              (read_reg c port c.SYV682X_CONTROL_3_REG w0).2.2
            rw [h2] at hr2
            exact absurd hr2 (by simp)
          · rename_i rv2 w2 h2
            by_cases hrv2 : rv2 = 0
            · simp only [hrv2, not_true_eq_false, if_false]
              exact init_power_path_returns c port _
            · simp only [hrv2, not_false_eq_true, if_true]; exact ⟨_, rfl⟩
        · simp only [hr1, not_false_eq_true, if_true]; exact ⟨_, rfl⟩
      · simp only [hrv0, not_false_eq_true, if_true]; exact ⟨_, rfl⟩
  · simp only [hr, ne_eq, not_false_eq_true, if_true]
    exact ⟨_, rfl⟩

theorem init_returns (c : Cfg) (port : Nat) (w : World) :
    ∃ r, syv682x_init c port w = some r := by
  unfold syv682x_init
  split
  · rename_i h0
    obtain ⟨r, hr0⟩ := write_reg_returns c port c.SYV682X_CONTROL_3_REG c.SYV682X_RST_REG w
    rw [h0] at hr0
    exact absurd hr0 (by simp)
  · rename_i rv0 w0 h0
    by_cases hrv0 : rv0 = 0
    · simp only [hrv0, ne_eq, not_true_eq_false, if_false]
      split
      · rename_i h2
        obtain ⟨r, hr2⟩ := wait_for_ready_returns c port w0
        rw [h2] at hr2
        exact absurd hr2 (by simp)
      · rename_i rv2 w2 h2
        by_cases hrv2 : rv2 = 0
        · simp only [hrv2, not_true_eq_false, if_false]
          exact init_discharge_ovp_returns c port _
        · simp only [hrv2, not_false_eq_true, if_true]; exact ⟨_, rfl⟩
    · simp only [hrv0, ne_eq, not_false_eq_true, if_true]; exact ⟨_, rfl⟩

theorem source_disable_keeps_regs (c : Cfg) (port : Nat) (w : World) (rv : Nat) (w1 : World)
    (hreg : c.SYV682X_CONTROL_1_REG ≠ c.SYV682X_CONTROL_3_REG)
    (hclear : syv682x_is_sourcing_vbus port w = 0)
    (h : syv682x_vbus_source_enable c port 0 w = some (rv, w1)) : w1.regs = w.regs := by
  rcases source_enable_cases c port 0 w rv w1 hreg h with ⟨-, hregs, -⟩ | ⟨-, hregs, -⟩
  · exact hregs
  · rw [hregs]
    unfold syv682x_is_sourcing_vbus at hclear
    funext p r
    simp only [ne_eq, not_true_eq_false, if_false, hclear, toByte_fin]
    by_cases hpr : p = port ∧ r = c.SYV682X_CONTROL_1_REG
    · simp only [hpr, and_self, if_true]
    · simp only [hpr, if_false]

/-- C2, corrected: when the port's SOURCE_ENABLED flag is clear at the moment
`syv682x_init` is called (as it is at power-up; init itself never changes the
flags) and init succeeds, a `syv682x_vbus_source_enable(port, 0)` called right
after it returns and leaves every chip register, `CONTROL_1` in particular, with
the value it had before the call; so a sink path that init enabled in the dead
battery branch is still enabled afterwards. -/
theorem source_disable_after_init (c : Cfg) (port : Nat) (w w1 : World)
    (hreg : c.SYV682X_CONTROL_1_REG ≠ c.SYV682X_CONTROL_3_REG)
    (hclear : syv682x_is_sourcing_vbus port w = 0)
    (hinit : syv682x_init c port w = some (EC_SUCCESS, w1)) :
    ∃ rv w2, syv682x_vbus_source_enable c port 0 w1 = some (rv, w2) ∧
      w2.regs = w1.regs ∧
      w2.regs port c.SYV682X_CONTROL_1_REG = w1.regs port c.SYV682X_CONTROL_1_REG ∧
      (sink_active c port w1 → sink_active c port w2) := by
  have hclear1 : syv682x_is_sourcing_vbus port w1 = 0 := by
    unfold syv682x_is_sourcing_vbus at hclear ⊢
    rw [init_flags c port w _ w1 hinit]
    exact hclear
  obtain ⟨⟨rv, w2⟩, h2⟩ := source_enable_returns c port 0 w1
  have hregs := source_disable_keeps_regs c port w1 rv w2 hreg hclear1 h2
  refine ⟨rv, w2, h2, hregs, by rw [hregs], ?_⟩
  intro hsa
  exact (sink_active_congr c port w1 w2 (by rw [hregs])).2 hsa

theorem source_disable_after_init_witness :
    syv682x_h.SYV682X_CONTROL_1_REG ≠ syv682x_h.SYV682X_CONTROL_3_REG ∧
    syv682x_is_sourcing_vbus 0 boot = 0 ∧
    ∃ w1, syv682x_init syv682x_h 0 boot = some (EC_SUCCESS, w1) ∧
      sink_active syv682x_h 0 w1 ∧
      ∃ rv w2, syv682x_vbus_source_enable syv682x_h 0 0 w1 = some (rv, w2) ∧
        w2.regs = w1.regs ∧ sink_active syv682x_h 0 w2 := by
  have hrv : (syv682x_init syv682x_h 0 boot).map
      (fun r => (r.1, decide (sink_active syv682x_h 0 r.2))) = some (EC_SUCCESS, true) := by
    decide
  cases hinit : syv682x_init syv682x_h 0 boot with
  | none => rw [hinit] at hrv; simp at hrv
  | some r =>
    obtain ⟨rv, w1⟩ := r
    rw [hinit] at hrv
    simp only [Option.map_some', Option.some.injEq, Prod.mk.injEq, decide_eq_true_eq] at hrv
    obtain ⟨rfl, hsa⟩ := hrv
    obtain ⟨rv2, w2, h2, hregs, -, himp⟩ :=
      source_disable_after_init syv682x_h 0 boot w1 (by decide) (by decide) hinit
    exact ⟨by decide, by decide, w1, rfl, hsa, rv2, w2, h2, hregs, himp hsa⟩

/-- C2 as stated fails: from the power-up state, `syv682x_vbus_source_enable(0, 1)`
sets SOURCE_ENABLED; a following `syv682x_init(0)` succeeds in the dead battery
branch and leaves `CONTROL_1` = 0x02 with the sink path enabled, but the flag is
still set, so the `syv682x_vbus_source_enable(0, 0)` called right after init,
with no enable call since that init, writes 0x82: `CONTROL_1` differs from its
value before the call and the sink path is off. -/
theorem source_disable_after_reinit_turns_sink_off :
    ((syv682x_vbus_source_enable syv682x_h 0 1 boot).bind fun r0 =>
      (syv682x_init syv682x_h 0 r0.2).bind fun r1 =>
        (syv682x_vbus_source_enable syv682x_h 0 0 r1.2).map fun r2 =>
          ([r0.1, r1.1, r2.1], [(r1.2.regs 0 1).val, (r2.2.regs 0 1).val],
            [decide (sink_active syv682x_h 0 r1.2), decide (sink_active syv682x_h 0 r2.2)]))
      = some ([EC_SUCCESS, EC_SUCCESS, EC_SUCCESS], [2, 130], [true, false]) := by
  decide

/-! ## A bus on which every register access succeeds -/

theorem poll_time_elapsed (w : World) (i : Nat) : poll_time w i = w.now + elapsed w.bus i := by
  induction i with
  | zero => rfl
  | succ n ih => simp only [poll_time, elapsed, ih]; omega

theorem bus_ok_shift (bus : Nat → Access) (n : Nat) (h : bus_ok bus) :
    bus_ok (fun i => bus (i + n)) := by
  obtain ⟨hrv, hbusy⟩ := h
  refine ⟨fun i => hrv _, ?_⟩
  intro j
  obtain ⟨k, h1, h2, h3⟩ := hbusy (j + n)
  refine ⟨k, ?_, ?_, ?_⟩
  · intro i hi
    have := h1 i hi
    rwa [Nat.add_right_comm] at this
  · rwa [Nat.add_right_comm] at h2
  · intro i hi
    have := h3 i hi
    have hfun : (fun m => (fun i => bus (i + n)) (j + m)) = (fun m => bus (j + n + m)) := by
      funext m
      show bus (j + m + n) = bus (j + n + m)
      rw [Nat.add_right_comm]
    rw [hfun]
    exact this

theorem wait_loop_bus_suffix (c : Cfg) (port d : Nat) :
    ∀ (fuel : Nat) (w : World) (rv : Nat) (w1 : World),
      wait_loop c port d fuel w = some (rv, w1) → ∃ n, w1.bus = fun i => w.bus (i + n) := by
  intro fuel
  induction fuel with
  | zero => intro w rv w1 h; simp [wait_loop] at h
  | succ n ih =>
    intro w rv w1 h
    unfold wait_loop at h
    simp only [read_reg_world] at h
    split_ifs at h with h1 h2 h3
    · simp only [Option.some.injEq, Prod.mk.injEq] at h
      obtain ⟨-, rfl⟩ := h
      exact ⟨1, rfl⟩
    · simp only [Option.some.injEq, Prod.mk.injEq] at h
      obtain ⟨-, rfl⟩ := h
      exact ⟨1, rfl⟩
    · simp only [Option.some.injEq, Prod.mk.injEq] at h
      obtain ⟨-, rfl⟩ := h
      exact ⟨1, rfl⟩
    · obtain ⟨m, hm⟩ := ih _ _ _ h
      refine ⟨m + 1, ?_⟩
      rw [hm]
      funext i
      simp only [msleep]
      rw [Nat.add_assoc]

theorem write_reg_bus_suffix (c : Cfg) (port reg val : Nat) (w : World) (rv : Nat)
    (w1 : World) (h : write_reg c port reg val w = some (rv, w1)) :
    ∃ n, w1.bus = fun i => w.bus (i + n) := by
  obtain ⟨rv0, w0, h0, hc⟩ := write_reg_some c port reg val w rv w1 h
  obtain ⟨n, hn⟩ := wait_loop_bus_suffix c port _ _ w rv0 w0 h0
  rcases hc with ⟨-, -, rfl⟩ | ⟨-, -, rfl⟩
  · exact ⟨n, hn⟩
  · refine ⟨n + 1, ?_⟩
    rw [i2c_write8_bus, hn]
    funext i
    show w.bus (i + 1 + n) = w.bus (i + (n + 1))
    rw [Nat.add_right_comm, Nat.add_assoc]

theorem write_reg_bus_ok (c : Cfg) (port reg val : Nat) (w : World) (rv : Nat)
    (w1 : World) (h : write_reg c port reg val w = some (rv, w1)) (hb : bus_ok w.bus) :
    bus_ok w1.bus := by
  obtain ⟨n, hn⟩ := write_reg_bus_suffix c port reg val w rv w1 h
  rw [hn]
  exact bus_ok_shift _ n hb

theorem read_reg_bus_ok (c : Cfg) (port reg : Nat) (w : World) (hb : bus_ok w.bus) :
    (read_reg c port reg w).1 = 0 ∧ bus_ok (read_reg c port reg w).2.2.bus := by
  refine ⟨by rw [read_reg_rv]; exact hb.1 0, ?_⟩
  rw [read_reg_world]
  exact bus_ok_shift _ 1 hb

theorem wait_for_ready_good (c : Cfg) (hc : c.busy_ok) (port : Nat) (w : World)
    (hb : bus_ok w.bus) :
    ∃ w1, syv682x_wait_for_ready c port w = some (EC_SUCCESS, w1) ∧ bus_ok w1.bus := by
  obtain ⟨k, h1, h2, h3⟩ := hb.2 0
  simp only [Nat.zero_add] at h1 h2 h3
  obtain ⟨w1, hw, -, hbus, -, -⟩ := wait_loop_ready_after c port
    (w.now + SYV682X_MAX_VBUS_DISCHARGE_TIME_MS * MSEC) hc k
    SYV682X_MAX_VBUS_DISCHARGE_TIME_MS w (fun i hi => ⟨hb.1 i, h1 i hi⟩) (hb.1 k) h2
    (fun i hi => by rw [poll_time_elapsed]; exact Nat.add_lt_add_left (h3 i hi) _)
    (Nat.le_refl _)
  refine ⟨w1, hw, ?_⟩
  rw [hbus]
  exact bus_ok_shift _ (k + 1) hb

theorem write_reg_good (c : Cfg) (hc : c.busy_ok) (port reg val : Nat) (w : World)
    (hb : bus_ok w.bus) :
    ∃ w1, write_reg c port reg val w = some (EC_SUCCESS, w1) ∧ bus_ok w1.bus := by
  obtain ⟨w0, h0, hb0⟩ := wait_for_ready_good c hc port w hb
  have hw := write_reg_of_ready c port reg val w w0 h0
  rw [i2c_write8_ok_eq c port reg val w0 (hb0.1 0)] at hw
  exact ⟨_, hw, write_reg_bus_ok c port reg val w _ _ hw hb⟩

theorem write_reg_log (c : Cfg) (port reg val : Nat) (w w1 : World)
    (h : write_reg c port reg val w = some (EC_SUCCESS, w1)) :
    ∃ l, w1.log = w.log ++ l ∧ l.filter Event.isWrite = [Event.i2c_write port reg val] := by
  obtain ⟨rv0, w0, h0, hc⟩ := write_reg_some c port reg val w _ w1 h
  obtain ⟨-, -, l, hl, hall⟩ := wait_for_ready_frame c port w rv0 w0 h0
  rcases hc with ⟨hne, he, -⟩ | ⟨-, -, rfl⟩
  · exact absurd he.symm hne
  · refine ⟨l ++ [Event.i2c_write port reg val], ?_, ?_⟩
    · rw [i2c_write8_log, hl, List.append_assoc]
    · simp [List.filter_append, filter_isWrite_nil l hall, Event.isWrite]

/-! ## The steps of initialisation -/

theorem init_of_steps_1_3 (c : Cfg) (port : Nat) (w w2 w3 w4 : World)
    (h : init_steps_1_3 c port w w2 w3 w4) :
    syv682x_init c port w = init_power_path c port w4 := by
  obtain ⟨⟨w1, h1, h2⟩, hr2, h3, hr3, h4⟩ := h
  unfold syv682x_init
  rw [h1]
  simp only [EC_SUCCESS, ne_eq, not_true_eq_false, if_false]
  rw [h2]
  simp only [EC_SUCCESS, ne_eq, not_true_eq_false, if_false]
  unfold init_discharge_ovp
  simp only [hr2, ne_eq, not_true_eq_false, if_false]
  rw [h3]
  simp only [EC_SUCCESS, ne_eq, not_true_eq_false, if_false, hr3]
  rw [h4]
  simp only [EC_SUCCESS, ne_eq, not_true_eq_false, if_false]

theorem init_power_path_of_steps (c : Cfg) (port : Nat) (w4 w5 wf : World)
    (h : init_steps_4_5 c port w4 w5 wf) :
    init_power_path c port w4 = some (EC_SUCCESS, wf) := by
  obtain ⟨hrs, hr1, h5, hr4, hf⟩ := h
  have hcc : init_cc_routing c port w5 = some (EC_SUCCESS, wf) := by
    unfold init_cc_routing
    simp only [hr4, ne_eq, not_true_eq_false, if_false]
    unfold init_control_4 at hf
    rw [hf]
    simp only [EC_SUCCESS, ne_eq, not_true_eq_false, if_false]
  unfold init_power_path
  simp only [hrs, ne_eq, not_true_eq_false, if_false]
  unfold init_control_1 at h5
  by_cases hs : (read_reg c port c.SYV682X_STATUS_REG w4).2.1 &&& c.SYV682X_STATUS_VSAFE_0V = 0
  · simp only [hs, ne_eq, not_true_eq_false, if_false] at h5 ⊢
    unfold syv682x_vbus_sink_enable
    simp only [one_ne_zero, false_and, if_false, hr1, ne_eq, not_true_eq_false,
      not_false_eq_true, if_true]
    rw [h5]
    exact hcc
  · simp only [hs, ne_eq, not_false_eq_true, if_true] at h5 ⊢
    simp only [hr1, not_true_eq_false, if_false]
    rw [h5]
    simp only [EC_SUCCESS, not_true_eq_false, if_false]
    exact hcc

theorem init_steps_1_3_exist (c : Cfg) (hc : c.busy_ok) (port : Nat) (w : World)
    (hb : bus_ok w.bus) : ∃ w2 w3 w4, init_steps_1_3 c port w w2 w3 w4 := by
  obtain ⟨w1, h1, hb1⟩ := write_reg_good c hc port c.SYV682X_CONTROL_3_REG c.SYV682X_RST_REG w hb
  obtain ⟨w2, h2, hb2⟩ := wait_for_ready_good c hc port w1 hb1
  obtain ⟨hr2, hb2r⟩ := read_reg_bus_ok c port c.SYV682X_CONTROL_2_REG w2 hb2
  obtain ⟨w3, h3, hb3⟩ := write_reg_good c hc port c.SYV682X_CONTROL_2_REG
    ((read_reg c port c.SYV682X_CONTROL_2_REG w2).2.1 ||| c.SYV682X_CONTROL_2_SDSG) _ hb2r
  obtain ⟨hr3, hb3r⟩ := read_reg_bus_ok c port c.SYV682X_CONTROL_3_REG w3 hb3
  obtain ⟨w4, h4, -⟩ := write_reg_good c hc port c.SYV682X_CONTROL_3_REG
    (((read_reg c port c.SYV682X_CONTROL_3_REG w3).2.1 &&& cnot c.SYV682X_OVP_MASK)
      ||| (c.SYV682X_OVP_23_7 <<< c.SYV682X_OVP_BIT_SHIFT)) _ hb3r
  exact ⟨w2, w3, w4, ⟨w1, h1, h2⟩, hr2, h3, hr3, h4⟩

theorem init_steps_1_3_frame (c : Cfg) (port : Nat) (w w2 w3 w4 : World)
    (h : init_steps_1_3 c port w w2 w3 w4) :
    w4.flags = w.flags ∧ (bus_ok w.bus → bus_ok w4.bus) ∧
    ∃ l, w4.log = w.log ++ l ∧ l.filter Event.isWrite =
      [Event.i2c_write port c.SYV682X_CONTROL_3_REG c.SYV682X_RST_REG,
       Event.i2c_write port c.SYV682X_CONTROL_2_REG
         ((read_reg c port c.SYV682X_CONTROL_2_REG w2).2.1 ||| c.SYV682X_CONTROL_2_SDSG),
       Event.i2c_write port c.SYV682X_CONTROL_3_REG
         (((read_reg c port c.SYV682X_CONTROL_3_REG w3).2.1 &&& cnot c.SYV682X_OVP_MASK)
           ||| (c.SYV682X_OVP_23_7 <<< c.SYV682X_OVP_BIT_SHIFT))] := by
  obtain ⟨⟨w1, h1, h2⟩, -, h3, -, h4⟩ := h
  obtain ⟨hr2, hf2, l2, hl2, hall2⟩ := wait_for_ready_frame c port w1 _ w2 h2
  obtain ⟨n2, hn2⟩ := wait_loop_bus_suffix c port _ _ w1 _ w2 h2
  obtain ⟨l1, hl1, hw1⟩ := write_reg_log c port _ _ w w1 h1
  obtain ⟨l3, hl3, hw3⟩ := write_reg_log c port _ _ _ w3 h3
  obtain ⟨l4, hl4, hw4⟩ := write_reg_log c port _ _ _ w4 h4
  refine ⟨?_, ?_, ?_⟩
  · rw [write_reg_flags c port _ _ _ _ w4 h4, read_reg_world,
      write_reg_flags c port _ _ _ _ w3 h3, read_reg_world, hf2,
      write_reg_flags c port _ _ _ _ w1 h1]
  · intro hb
    have hb1 := write_reg_bus_ok c port _ _ w _ w1 h1 hb
    have hb2 : bus_ok w2.bus := by rw [hn2]; exact bus_ok_shift _ n2 hb1
    have hb3 := write_reg_bus_ok c port _ _ _ _ w3 h3
      (read_reg_bus_ok c port c.SYV682X_CONTROL_2_REG w2 hb2).2
    exact write_reg_bus_ok c port _ _ _ _ w4 h4
      (read_reg_bus_ok c port c.SYV682X_CONTROL_3_REG w3 hb3).2
  · refine ⟨l1 ++ l2 ++ (Event.i2c_read port c.SYV682X_CONTROL_2_REG :: l3)
      ++ (Event.i2c_read port c.SYV682X_CONTROL_3_REG :: l4), ?_, ?_⟩
    · rw [hl4, read_reg_world]
      simp only [hl3, read_reg_world, hl2, hl1]
      simp
    · simp [List.filter_append, List.filter_cons, Event.isWrite, hw1, hw3, hw4,
        filter_isWrite_nil l2 hall2]

theorem init_steps_4_5_exist (c : Cfg) (hc : c.busy_ok) (port : Nat) (w4 : World)
    (hb : bus_ok w4.bus) : ∃ w5 wf, init_steps_4_5 c port w4 w5 wf := by
  obtain ⟨hrs, hbs⟩ := read_reg_bus_ok c port c.SYV682X_STATUS_REG w4 hb
  obtain ⟨hr1, hb1⟩ := read_reg_bus_ok c port c.SYV682X_CONTROL_1_REG _ hbs
  obtain ⟨w5, h5, hb5⟩ := write_reg_good c hc port c.SYV682X_CONTROL_1_REG
    (init_control_1 c port w4) _ hb1
  obtain ⟨hr4, hb4⟩ := read_reg_bus_ok c port c.SYV682X_CONTROL_4_REG w5 hb5
  obtain ⟨wf, hf, -⟩ := write_reg_good c hc port c.SYV682X_CONTROL_4_REG
    (init_control_4 c port w5) _ hb4
  exact ⟨w5, wf, hrs, hr1, h5, hr4, hf⟩

theorem init_steps_4_5_frame (c : Cfg) (port : Nat) (w4 w5 wf : World)
    (h : init_steps_4_5 c port w4 w5 wf) :
    wf.flags = w4.flags ∧
    ∃ l, wf.log = w4.log ++ l ∧ l.filter Event.isWrite =
      [Event.i2c_write port c.SYV682X_CONTROL_1_REG (init_control_1 c port w4),
       Event.i2c_write port c.SYV682X_CONTROL_4_REG (init_control_4 c port w5)] := by
  obtain ⟨-, -, h5, -, hf⟩ := h
  obtain ⟨l5, hl5, hw5⟩ := write_reg_log c port _ _ _ w5 h5
  obtain ⟨lf, hlf, hwf⟩ := write_reg_log c port _ _ _ wf hf
  refine ⟨?_, ?_⟩
  · rw [write_reg_flags c port _ _ _ _ wf hf, read_reg_world,
      write_reg_flags c port _ _ _ _ w5 h5, read_reg_world, read_reg_world]
  · refine ⟨Event.i2c_read port c.SYV682X_STATUS_REG ::
      Event.i2c_read port c.SYV682X_CONTROL_1_REG :: l5
      ++ (Event.i2c_read port c.SYV682X_CONTROL_4_REG :: lf), ?_, ?_⟩
    · rw [hlf, read_reg_world]
      simp only [hl5, read_reg_world]
      simp
    · simp [List.filter_append, List.filter_cons, Event.isWrite, hw5, hwf]

theorem replace_field (v s k : Nat) (hv : v < 2 ^ 32) (hk : k < 2 ^ 32) (hs : s &&& k = s) :
    ((v &&& cnot k) ||| s) &&& k = s ∧
    ∀ i, k.testBit i = false → ((v &&& cnot k) ||| s).testBit i = v.testBit i := by
  have hsub : ∀ i, s.testBit i = true → k.testBit i = true := by
    intro i hi
    have := congrArg (fun x => x.testBit i) hs
    simp only [Nat.testBit_and, hi, Bool.true_and] at this
    exact this
  refine ⟨?_, ?_⟩
  · apply Nat.eq_of_testBit_eq
    intro i
    have := hsub i
    simp only [Nat.testBit_and, Nat.testBit_or, testBit_cnot k i hk]
    revert this
    cases v.testBit i <;> cases s.testBit i <;> cases k.testBit i <;> simp
  · intro i hi
    have hsi : s.testBit i = false := by
      by_contra hne
      have := hsub i (by simpa using hne)
      rw [hi] at this
      exact absurd this (by simp)
    simp only [Nat.testBit_and, Nat.testBit_or, testBit_cnot k i hk, hi, hsi]
    by_cases h32 : i < 32
    · simp [h32]
    · simp [h32, testBit_high v i hv h32]

theorem read_reg_lt (c : Cfg) (hc : c.busy_ok) (port reg : Nat) (w : World) :
    (read_reg c port reg w).2.1 < 256 := by
  unfold read_reg i2c_read8
  by_cases h : (w.bus 0).rv = 0
  · by_cases hr : reg = c.SYV682X_CONTROL_3_REG
    · by_cases hby : (w.bus 0).busy = true
      · simp only [h, hr, hby, ne_eq, not_true_eq_false, if_false, if_true]
        exact Nat.or_lt_two_pow (n := 8) (w.regs port _).isLt hc.2
      · simp only [h, hr, hby, ne_eq, not_true_eq_false, if_false, if_true]
        exact Nat.lt_of_le_of_lt Nat.and_le_left (w.regs port _).isLt
    · simp only [h, hr, ne_eq, not_true_eq_false, if_false]
      exact (w.regs port reg).isLt
  · simp [h]

theorem new_events_trans (w w1 w2 : World) (l1 l2 : List Event)
    (h1 : w1.log = w.log ++ l1) (h2 : w2.log = w1.log ++ l2) :
    new_events w w2 = l1 ++ l2 := by
  apply new_events_append
  rw [h2, h1, List.append_assoc]

/-- C14: when every bus transfer succeeds and the chip is never busy past the
bound, `syv682x_init` returns `EC_SUCCESS` and the register writes it puts on the
bus are exactly these five, in this order: `CONTROL_3` with the reset bit,
followed by a successful busy wait; `CONTROL_2` with the value read plus SDSG;
`CONTROL_3` with the value read, the OVP field replaced by the 23.7 V setting
and every bit outside the field as read; `CONTROL_1` (power path step); and
`CONTROL_4` with the value read plus CC1_BPS, CC2_BPS and CC_FRS. -/
theorem init_write_order (c : Cfg) (hc : c.busy_ok) (hovp : c.ovp_ok) (port : Nat)
    (w : World) (hb : bus_ok w.bus) :
    ∃ w2 w3 w4 w5 wf, init_steps_1_3 c port w w2 w3 w4 ∧ init_steps_4_5 c port w4 w5 wf ∧
      syv682x_init c port w = some (EC_SUCCESS, wf) ∧
      (new_events w wf).filter Event.isWrite =
        [Event.i2c_write port c.SYV682X_CONTROL_3_REG c.SYV682X_RST_REG,
         Event.i2c_write port c.SYV682X_CONTROL_2_REG
           ((read_reg c port c.SYV682X_CONTROL_2_REG w2).2.1 ||| c.SYV682X_CONTROL_2_SDSG),
         Event.i2c_write port c.SYV682X_CONTROL_3_REG
           (((read_reg c port c.SYV682X_CONTROL_3_REG w3).2.1 &&& cnot c.SYV682X_OVP_MASK)
             ||| (c.SYV682X_OVP_23_7 <<< c.SYV682X_OVP_BIT_SHIFT)),
         Event.i2c_write port c.SYV682X_CONTROL_1_REG (init_control_1 c port w4),
         Event.i2c_write port c.SYV682X_CONTROL_4_REG (init_control_4 c port w5)] ∧
      (((read_reg c port c.SYV682X_CONTROL_3_REG w3).2.1 &&& cnot c.SYV682X_OVP_MASK)
          ||| (c.SYV682X_OVP_23_7 <<< c.SYV682X_OVP_BIT_SHIFT)) &&& c.SYV682X_OVP_MASK
        = c.SYV682X_OVP_23_7 <<< c.SYV682X_OVP_BIT_SHIFT ∧
      (∀ i, c.SYV682X_OVP_MASK.testBit i = false →
        (((read_reg c port c.SYV682X_CONTROL_3_REG w3).2.1 &&& cnot c.SYV682X_OVP_MASK)
          ||| (c.SYV682X_OVP_23_7 <<< c.SYV682X_OVP_BIT_SHIFT)).testBit i
        = ((read_reg c port c.SYV682X_CONTROL_3_REG w3).2.1).testBit i) := by
  obtain ⟨w2, w3, w4, h13⟩ := init_steps_1_3_exist c hc port w hb
  obtain ⟨-, hb4, l13, hl13, hw13⟩ := init_steps_1_3_frame c port w w2 w3 w4 h13
  obtain ⟨w5, wf, h45⟩ := init_steps_4_5_exist c hc port w4 (hb4 hb)
  obtain ⟨-, l45, hl45, hw45⟩ := init_steps_4_5_frame c port w4 w5 wf h45
  obtain ⟨hf1, hf2⟩ := replace_field (read_reg c port c.SYV682X_CONTROL_3_REG w3).2.1
    (c.SYV682X_OVP_23_7 <<< c.SYV682X_OVP_BIT_SHIFT) c.SYV682X_OVP_MASK
    (lt_int_of_lt_byte _ (read_reg_lt c hc port _ w3)) (lt_int_of_lt_byte _ hovp.1) hovp.2
  refine ⟨w2, w3, w4, w5, wf, h13, h45, ?_, ?_, hf1, hf2⟩
  · rw [init_of_steps_1_3 c port w w2 w3 w4 h13]
    exact init_power_path_of_steps c port w4 w5 wf h45
  · rw [new_events_trans w w4 wf l13 l45 hl13 hl45, List.filter_append, hw13, hw45]
    rfl

theorem quiet_bus_ok : bus_ok quiet_bus :=
  ⟨fun _ => rfl, fun _ => ⟨0, fun _ hi => absurd hi (Nat.not_lt_zero _), rfl,
    fun _ hi => absurd hi (Nat.not_lt_zero _)⟩⟩

theorem regs_distinct_ne (c : Cfg) (h : c.regs_distinct) :
    c.SYV682X_STATUS_REG ≠ c.SYV682X_CONTROL_1_REG ∧
    c.SYV682X_STATUS_REG ≠ c.SYV682X_CONTROL_3_REG ∧
    c.SYV682X_CONTROL_1_REG ≠ c.SYV682X_CONTROL_2_REG ∧
    c.SYV682X_CONTROL_1_REG ≠ c.SYV682X_CONTROL_3_REG ∧
    c.SYV682X_CONTROL_1_REG ≠ c.SYV682X_CONTROL_4_REG ∧
    c.SYV682X_CONTROL_4_REG ≠ c.SYV682X_CONTROL_3_REG := by
  unfold Cfg.regs_distinct at h
  simp only [List.nodup_cons, List.mem_cons, List.mem_singleton, not_or, List.not_mem_nil,
    not_false_eq_true, List.nodup_nil, and_true] at h
  obtain ⟨⟨h01, -, h03, -⟩, ⟨h12, h13, h14⟩, ⟨-, -⟩, h34⟩ := h
  exact ⟨h01, h03, h12, h13, h14, fun e => h34 e.symm⟩

theorem init_steps_4_5_regs (c : Cfg) (hd : c.regs_distinct) (port : Nat) (w4 w5 wf : World)
    (h : init_steps_4_5 c port w4 w5 wf) (hlt : init_control_1 c port w4 < 256) :
    (w5.regs port c.SYV682X_CONTROL_1_REG).val = init_control_1 c port w4 ∧
    (wf.regs port c.SYV682X_CONTROL_1_REG).val = init_control_1 c port w4 := by
  obtain ⟨-, -, -, h13, h14, h43⟩ := regs_distinct_ne c hd
  obtain ⟨-, -, h5, -, hf⟩ := h
  obtain ⟨hr5, -⟩ := write_reg_ok c port _ _ _ w5 h5 (fun hh => h13 hh.1)
  obtain ⟨hrf, -⟩ := write_reg_ok c port _ _ _ wf hf (fun hh => h43 hh.1)
  have h5v : (w5.regs port c.SYV682X_CONTROL_1_REG).val = init_control_1 c port w4 := by
    rw [hr5]
    simp only [and_self, if_true]
    exact toByte_val _ hlt
  refine ⟨h5v, ?_⟩
  rw [hrf]
  simp only [h14, and_false, if_false, read_reg_world]
  exact h5v

/-- C11, corrected: when every bus transfer succeeds, no busy wait expires (the
chip is never busy past the 400 ms bound) and the status register read by
`syv682x_init` (in the state `w4` reached after the first three steps) has VSAFE_0V clear, init returns `EC_SUCCESS` with the
sink path enabled in `CONTROL_1` (CH_SEL set, HV_DR clear, PWR_ENB clear); every
write to `CONTROL_1` made by init has CH_SEL set and HV_DR and PWR_ENB clear, so
the 5 V source path is never selected or powered and PWR_ENB is never set; the
flags, SOURCE_ENABLED among them, are unchanged. -/
theorem init_dead_battery (c : Cfg) (hc : c.busy_ok) (h1 : c.control1_ok)
    (hd : c.regs_distinct) (port : Nat) (w w2 w3 w4 : World) (hb : bus_ok w.bus)
    (h13 : init_steps_1_3 c port w w2 w3 w4)
    (hst : (read_reg c port c.SYV682X_STATUS_REG w4).2.1 &&& c.SYV682X_STATUS_VSAFE_0V = 0) :
    ∃ wf, syv682x_init c port w = some (EC_SUCCESS, wf) ∧ sink_active c port wf ∧
      (∀ val, Event.i2c_write port c.SYV682X_CONTROL_1_REG val ∈ new_events w wf →
        val &&& c.SYV682X_CONTROL_1_CH_SEL ≠ 0 ∧ val &&& c.SYV682X_CONTROL_1_HV_DR = 0 ∧
        val &&& c.SYV682X_CONTROL_1_PWR_ENB = 0) ∧
      wf.flags = w.flags := by
  obtain ⟨hf4, hb4, l13, hl13, hw13⟩ := init_steps_1_3_frame c port w w2 w3 w4 h13
  obtain ⟨w5, wf, h45⟩ := init_steps_4_5_exist c hc port w4 (hb4 hb)
  obtain ⟨hff, l45, hl45, hw45⟩ := init_steps_4_5_frame c port w4 w5 wf h45
  obtain ⟨hch, -, -, hch8, hhv8, hpw8, hd1, hd2, -, -⟩ := h1
  obtain ⟨-, -, h12, h13r, h14, -⟩ := regs_distinct_ne c hd
  have hval : init_control_1 c port w4 =
      ((read_reg c port c.SYV682X_CONTROL_1_REG
        (read_reg c port c.SYV682X_STATUS_REG w4).2.2).2.1 ||| c.SYV682X_CONTROL_1_CH_SEL)
        &&& cnot (c.SYV682X_CONTROL_1_HV_DR ||| c.SYV682X_CONTROL_1_PWR_ENB) := by
    unfold init_control_1
    simp only [hst, ne_eq, not_true_eq_false, if_false]
  have hk : c.SYV682X_CONTROL_1_HV_DR ||| c.SYV682X_CONTROL_1_PWR_ENB < 2 ^ 32 :=
    Nat.or_lt_two_pow (lt_int_of_lt_byte _ hhv8) (lt_int_of_lt_byte _ hpw8)
  have hv8 := read_reg_lt c hc port c.SYV682X_CONTROL_1_REG
    (read_reg c port c.SYV682X_STATUS_REG w4).2.2
  obtain ⟨hb1, hb2, -⟩ := set_then_clear _ c.SYV682X_CONTROL_1_CH_SEL _
    (lt_int_of_lt_byte _ hv8) (lt_int_of_lt_byte _ hch8) hk
    ((and_or_eq_zero _ _ _).2 ⟨hd1, hd2⟩)
  rw [← hval] at hb1 hb2
  have hb1s := (and_or_eq_zero _ _ _).1 hb1
  have hlt : init_control_1 c port w4 < 256 := by
    rw [hval]
    exact Nat.lt_of_le_of_lt Nat.and_le_left (Nat.or_lt_two_pow (n := 8) hv8 hch8)
  obtain ⟨-, hregf⟩ := init_steps_4_5_regs c hd port w4 w5 wf h45 hlt
  have hbits : init_control_1 c port w4 &&& c.SYV682X_CONTROL_1_CH_SEL ≠ 0 ∧
      init_control_1 c port w4 &&& c.SYV682X_CONTROL_1_HV_DR = 0 ∧
      init_control_1 c port w4 &&& c.SYV682X_CONTROL_1_PWR_ENB = 0 :=
    ⟨by rw [hb2]; exact hch, hb1s.1, hb1s.2⟩
  refine ⟨wf, ?_, ?_, ?_, by rw [hff, hf4]⟩
  · rw [init_of_steps_1_3 c port w w2 w3 w4 h13]
    exact init_power_path_of_steps c port w4 w5 wf h45
  · unfold sink_active
    rw [hregf]
    exact hbits
  · intro val hmem
    have hmem2 : Event.i2c_write port c.SYV682X_CONTROL_1_REG val ∈
        (new_events w wf).filter Event.isWrite :=
      List.mem_filter.2 ⟨hmem, rfl⟩
    rw [new_events_trans w w4 wf l13 l45 hl13 hl45, List.filter_append, hw13, hw45] at hmem2
    simp only [List.cons_append, List.nil_append, List.mem_cons, Event.i2c_write.injEq,
      true_and, List.mem_singleton, List.not_mem_nil, or_false] at hmem2
    rcases hmem2 with h | h | h | h | h
    · exact absurd h.1 h13r
    · exact absurd h.1 h12
    · exact absurd h.1 h13r
    · rw [h]; exact hbits
    · exact absurd h.1 h14

theorem init_dead_battery_witness :
    syv682x_h.busy_ok ∧ syv682x_h.control1_ok ∧ syv682x_h.regs_distinct ∧ bus_ok boot.bus ∧
    ∃ w2 w3 w4, init_steps_1_3 syv682x_h 0 boot w2 w3 w4 ∧
      (read_reg syv682x_h 0 syv682x_h.SYV682X_STATUS_REG w4).2.1
        &&& syv682x_h.SYV682X_STATUS_VSAFE_0V = 0 ∧
      ∃ wf, syv682x_init syv682x_h 0 boot = some (EC_SUCCESS, wf) ∧
        sink_active syv682x_h 0 wf ∧
        (∀ val, Event.i2c_write 0 syv682x_h.SYV682X_CONTROL_1_REG val ∈ new_events boot wf →
          val &&& syv682x_h.SYV682X_CONTROL_1_CH_SEL ≠ 0 ∧
          val &&& syv682x_h.SYV682X_CONTROL_1_HV_DR = 0 ∧
          val &&& syv682x_h.SYV682X_CONTROL_1_PWR_ENB = 0) ∧
        wf.flags = boot.flags := by
  obtain ⟨w2, w3, w4, h13, hst⟩ : ∃ w2 w3 w4, init_steps_1_3 syv682x_h 0 boot w2 w3 w4 ∧
      (read_reg syv682x_h 0 syv682x_h.SYV682X_STATUS_REG w4).2.1
        &&& syv682x_h.SYV682X_STATUS_VSAFE_0V = 0 :=
    ⟨_, _, _, ⟨⟨_, rfl, rfl⟩, rfl, rfl, rfl, rfl⟩, rfl⟩
  exact ⟨by decide, by decide, by decide, quiet_bus_ok, w2, w3, w4, h13, hst,
    init_dead_battery syv682x_h (by decide) (by decide) (by decide) 0 boot w2 w3 w4
      quiet_bus_ok h13 hst⟩

/-- C12, corrected: when every bus transfer succeeds, no busy wait expires (the
chip is never busy past the 400 ms bound) and the status register read by
`syv682x_init` (in the state `w4` reached after the first three steps) has VSAFE_0V set, init returns `EC_SUCCESS`; from the
status read on it puts exactly two writes on the bus: `CONTROL_1` with the value
it read from `CONTROL_1` (the register's content) plus PWR_ENB, every other bit
as read, and then `CONTROL_4`; every write to `CONTROL_1` made by init has
PWR_ENB set, so the sink enable step is not performed. -/
theorem init_not_dead_battery (c : Cfg) (hc : c.busy_ok) (h1 : c.control1_ok)
    (hd : c.regs_distinct) (port : Nat) (w w2 w3 w4 : World) (hb : bus_ok w.bus)
    (h13 : init_steps_1_3 c port w w2 w3 w4)
    (hst : (read_reg c port c.SYV682X_STATUS_REG w4).2.1 &&& c.SYV682X_STATUS_VSAFE_0V ≠ 0) :
    ∃ w5 wf, init_steps_4_5 c port w4 w5 wf ∧
      syv682x_init c port w = some (EC_SUCCESS, wf) ∧
      (new_events w4 wf).filter Event.isWrite =
        [Event.i2c_write port c.SYV682X_CONTROL_1_REG
           ((w4.regs port c.SYV682X_CONTROL_1_REG).val ||| c.SYV682X_CONTROL_1_PWR_ENB),
         Event.i2c_write port c.SYV682X_CONTROL_4_REG (init_control_4 c port w5)] ∧
      ((w4.regs port c.SYV682X_CONTROL_1_REG).val ||| c.SYV682X_CONTROL_1_PWR_ENB)
        &&& c.SYV682X_CONTROL_1_PWR_ENB = c.SYV682X_CONTROL_1_PWR_ENB ∧
      (∀ i, c.SYV682X_CONTROL_1_PWR_ENB.testBit i = false →
        ((w4.regs port c.SYV682X_CONTROL_1_REG).val ||| c.SYV682X_CONTROL_1_PWR_ENB).testBit i
          = ((w4.regs port c.SYV682X_CONTROL_1_REG).val).testBit i) ∧
      (w5.regs port c.SYV682X_CONTROL_1_REG).val
        = (w4.regs port c.SYV682X_CONTROL_1_REG).val ||| c.SYV682X_CONTROL_1_PWR_ENB ∧
      (∀ val, Event.i2c_write port c.SYV682X_CONTROL_1_REG val ∈ new_events w wf →
        val &&& c.SYV682X_CONTROL_1_PWR_ENB ≠ 0) := by
  obtain ⟨-, hb4, l13, hl13, hw13⟩ := init_steps_1_3_frame c port w w2 w3 w4 h13
  obtain ⟨w5, wf, h45⟩ := init_steps_4_5_exist c hc port w4 (hb4 hb)
  obtain ⟨-, l45, hl45, hw45⟩ := init_steps_4_5_frame c port w4 w5 wf h45
  obtain ⟨-, -, hpw, -, -, hpw8, -, -, -, -⟩ := h1
  obtain ⟨-, -, h12, h13r, h14, -⟩ := regs_distinct_ne c hd
  have hr1 := h45.2.1
  rw [read_reg_rv] at hr1
  have hv1 : (read_reg c port c.SYV682X_CONTROL_1_REG
      (read_reg c port c.SYV682X_STATUS_REG w4).2.2).2.1
      = (w4.regs port c.SYV682X_CONTROL_1_REG).val := by
    rw [read_reg_val c port _ _ hr1 h13r, read_reg_world]
  have hval : init_control_1 c port w4 =
      (w4.regs port c.SYV682X_CONTROL_1_REG).val ||| c.SYV682X_CONTROL_1_PWR_ENB := by
    unfold init_control_1
    simp only [hst, ne_eq, not_false_eq_true, if_true, hv1]
  have hlt : init_control_1 c port w4 < 256 := by
    rw [hval]
    exact Nat.or_lt_two_pow (n := 8) (w4.regs port _).isLt hpw8
  obtain ⟨hreg5, -⟩ := init_steps_4_5_regs c hd port w4 w5 wf h45 hlt
  rw [hval] at hw45 hreg5
  refine ⟨w5, wf, h45, ?_, ?_, or_and_self _ _, ?_, hreg5, ?_⟩
  · rw [init_of_steps_1_3 c port w w2 w3 w4 h13]
    exact init_power_path_of_steps c port w4 w5 wf h45
  · rw [new_events_append w4 wf l45 hl45, hw45]
  · intro i hi
    exact or_testBit_other _ _ i hi
  · intro val hmem
    have hmem2 : Event.i2c_write port c.SYV682X_CONTROL_1_REG val ∈
        (new_events w wf).filter Event.isWrite :=
      List.mem_filter.2 ⟨hmem, rfl⟩
    rw [new_events_trans w w4 wf l13 l45 hl13 hl45, List.filter_append, hw13, hw45] at hmem2
    simp only [List.cons_append, List.nil_append, List.mem_cons, Event.i2c_write.injEq,
      true_and, List.mem_singleton, List.not_mem_nil, or_false] at hmem2
    rcases hmem2 with h | h | h | h | h
    · exact absurd h.1 h13r
    · exact absurd h.1 h12
    · exact absurd h.1 h13r
    · rw [h, or_and_self]; exact hpw
    · exact absurd h.1 h14

theorem init_not_dead_battery_witness :
    syv682x_h_0v.busy_ok ∧ syv682x_h_0v.control1_ok ∧ syv682x_h_0v.regs_distinct ∧
    bus_ok boot.bus ∧
    ∃ w2 w3 w4, init_steps_1_3 syv682x_h_0v 0 boot w2 w3 w4 ∧
      (read_reg syv682x_h_0v 0 syv682x_h_0v.SYV682X_STATUS_REG w4).2.1
        &&& syv682x_h_0v.SYV682X_STATUS_VSAFE_0V ≠ 0 ∧
      ∃ w5 wf, init_steps_4_5 syv682x_h_0v 0 w4 w5 wf ∧
        syv682x_init syv682x_h_0v 0 boot = some (EC_SUCCESS, wf) ∧
        (w5.regs 0 syv682x_h_0v.SYV682X_CONTROL_1_REG).val
          = (w4.regs 0 syv682x_h_0v.SYV682X_CONTROL_1_REG).val
              ||| syv682x_h_0v.SYV682X_CONTROL_1_PWR_ENB := by
  obtain ⟨w2, w3, w4, h13, hst⟩ : ∃ w2 w3 w4, init_steps_1_3 syv682x_h_0v 0 boot w2 w3 w4 ∧
      (read_reg syv682x_h_0v 0 syv682x_h_0v.SYV682X_STATUS_REG w4).2.1
        &&& syv682x_h_0v.SYV682X_STATUS_VSAFE_0V ≠ 0 :=
    ⟨_, _, _, ⟨⟨_, rfl, rfl⟩, rfl, rfl, rfl, rfl⟩, by decide⟩
  obtain ⟨w5, wf, h45, hinit, -, -, -, hreg, -⟩ :=
    init_not_dead_battery syv682x_h_0v (by decide) (by decide) (by decide) 0 boot w2 w3 w4
      quiet_bus_ok h13 hst
  exact ⟨by decide, by decide, by decide, quiet_bus_ok, w2, w3, w4, h13, hst, w5, wf, h45,
    hinit, hreg⟩

theorem init_write_order_witness :
    syv682x_h.busy_ok ∧ syv682x_h.ovp_ok ∧ bus_ok boot.bus ∧
    (∃ w2 w3 w4 w5 wf, init_steps_1_3 syv682x_h 0 boot w2 w3 w4 ∧
      init_steps_4_5 syv682x_h 0 w4 w5 wf ∧
      syv682x_init syv682x_h 0 boot = some (EC_SUCCESS, wf)) ∧
    (syv682x_init syv682x_h 0 boot).map
        (fun r => (r.1, (new_events boot r.2).filter Event.isWrite))
      = some (EC_SUCCESS, [Event.i2c_write 0 3 1, Event.i2c_write 0 2 2,
          Event.i2c_write 0 3 64, Event.i2c_write 0 1 2, Event.i2c_write 0 4 194]) := by
  obtain ⟨w2, w3, w4, w5, wf, h13, h45, hinit, -⟩ :=
    init_write_order syv682x_h (by decide) (by decide) 0 boot quiet_bus_ok
  exact ⟨by decide, by decide, quiet_bus_ok, ⟨w2, w3, w4, w5, wf, h13, h45, hinit⟩, by decide⟩

set_option maxRecDepth 1000000 in
/-- C13 fails in the dead battery branch: from `busy_at_sink_enable` every bus
transfer succeeds and the only busy wait that expires is the one of the power
path step, inside `syv682x_vbus_sink_enable(0, 1)`; `syv682x_init` drops that
call's return value (syv682x.c:371), so it goes on to the CC routing step,
writes 0xc2 to `CONTROL_4` and returns `EC_SUCCESS`, with no write to `CONTROL_1`
and the sink path not enabled. -/
theorem init_ignores_sink_enable_timeout :
    (∀ i, (busy_at_sink_enable.bus i).rv = 0) ∧
    (syv682x_init syv682x_h 0 busy_at_sink_enable).map
        (fun r => (r.1, (new_events busy_at_sink_enable r.2).filter Event.isWrite,
          decide (Event.cprints_busy_timeout 0 ∈ new_events busy_at_sink_enable r.2),
          decide (sink_active syv682x_h 0 r.2)))
      = some (EC_SUCCESS, [Event.i2c_write 0 3 1, Event.i2c_write 0 2 2,
          Event.i2c_write 0 3 64, Event.i2c_write 0 4 194], true, false) :=
  ⟨fun _ => rfl, by decide⟩

theorem rmw_ok (c : Cfg) (port reg val : Nat) (w w1 : World)
    (hreg : reg ≠ c.SYV682X_CONTROL_3_REG)
    (h : write_reg c port reg val (read_reg c port reg w).2.2 = some (0, w1)) :
    (w1.regs = fun p r => if p = port ∧ r = reg then toByte val else w.regs p r) ∧
    w1.flags = w.flags ∧
    (new_events w w1).filter Event.isWrite = [Event.i2c_write port reg val] ∧
    (new_events w w1).filter Event.isNotify = [] := by
  obtain ⟨hregs, l, hl, hall⟩ := write_reg_ok c port reg val _ w1 h (fun hh => hreg hh.1)
  have hf := write_reg_flags c port reg val _ 0 w1 h
  have hlog : w1.log = w.log ++ (Event.i2c_read port reg :: l
      ++ [Event.i2c_write port reg val]) := by
    rw [hl, read_reg_world]
    simp
  refine ⟨?_, ?_, ?_, ?_⟩
  · rw [hregs, read_reg_world]
  · rw [hf, read_reg_world]
  · rw [new_events_append _ _ _ hlog]
    simp [List.filter_cons, List.filter_append, Event.isWrite, filter_isWrite_nil l hall]
  · rw [new_events_append _ _ _ hlog]
    rw [List.filter_eq_nil_iff]
    intro e he
    simp only [List.cons_append, List.mem_cons, List.mem_append, List.mem_singleton,
      List.not_mem_nil, or_false] at he
    rcases he with rfl | he | rfl
    · simp [Event.isNotify]
    · simp [(hall e he).2]
    · simp [Event.isNotify]

/-- C27, corrected: when the read of `CONTROL_1` (value `v`) and the bus write
succeed and the busy wait before the write does not expire,
`syv682x_vbus_source_enable(port, 0)` returns `EC_SUCCESS` and leaves
`CONTROL_1` equal to `v` with PWR_ENB set when the SOURCE_ENABLED flag was set
before the call, and equal to `v` when the flag was clear; in both cases the
CH_SEL and HV_DR bits are as in `v` and the port is not sourcing afterwards. -/
theorem source_disable_value (c : Cfg) (port : Nat) (w w0 : World) (hc : c.control1_ok)
    (hread : (w.bus 0).rv = 0)
    (hready : syv682x_wait_for_ready c port
      (read_reg c port c.SYV682X_CONTROL_1_REG w).2.2 = some (EC_SUCCESS, w0))
    (hwrite : (w0.bus 0).rv = 0) :
    let v := (w.regs port c.SYV682X_CONTROL_1_REG).val
    ∃ w1, syv682x_vbus_source_enable c port 0 w = some (EC_SUCCESS, w1) ∧
      (w1.regs port c.SYV682X_CONTROL_1_REG).val =
        (if (w.flags port).val &&& SYV682X_FLAGS_SOURCE_ENABLED ≠ 0
         then v ||| c.SYV682X_CONTROL_1_PWR_ENB else v) ∧
      ((w.flags port).val &&& SYV682X_FLAGS_SOURCE_ENABLED ≠ 0 →
        (w1.regs port c.SYV682X_CONTROL_1_REG).val &&& c.SYV682X_CONTROL_1_PWR_ENB
          = c.SYV682X_CONTROL_1_PWR_ENB) ∧
      (w1.regs port c.SYV682X_CONTROL_1_REG).val &&& c.SYV682X_CONTROL_1_CH_SEL
        = v &&& c.SYV682X_CONTROL_1_CH_SEL ∧
      (w1.regs port c.SYV682X_CONTROL_1_REG).val &&& c.SYV682X_CONTROL_1_HV_DR
        = v &&& c.SYV682X_CONTROL_1_HV_DR ∧
      syv682x_is_sourcing_vbus port w1 = 0 := by
  intro v
  obtain ⟨-, -, -, -, -, hpw8, -, hd2, hd3, hreg⟩ := hc
  have hv8 : v < 256 := (w.regs port c.SYV682X_CONTROL_1_REG).isLt
  have hsrc : ∀ w1 : World,
      (w1.flags = fun p =>
        if p = port then
          (if (0 : Int) ≠ 0 then toByte ((w.flags port).val ||| SYV682X_FLAGS_SOURCE_ENABLED)
           else toByte ((w.flags port).val &&& cnot SYV682X_FLAGS_SOURCE_ENABLED))
        else w.flags p) → syv682x_is_sourcing_vbus port w1 = 0 := by
    intro w1 hflags
    unfold syv682x_is_sourcing_vbus
    rw [hflags]
    simp only [ne_eq, not_true_eq_false, if_false, if_true]
    exact clear_flag_bit _ _ (by decide)
  by_cases hfl : (w.flags port).val &&& SYV682X_FLAGS_SOURCE_ENABLED = 0
  · obtain ⟨w1, h1, hregs, hflags, -⟩ :=
      source_enable_ok c port 0 w w0 hreg hread hready hwrite v (by simp [hfl, v])
    have hval : (w1.regs port c.SYV682X_CONTROL_1_REG).val = v := by
      rw [hregs]
      simp [toByte_val v hv8]
    refine ⟨w1, h1, ?_, ?_, ?_, ?_, hsrc w1 hflags⟩
    · rw [hval]; simp [hfl]
    · intro h; exact absurd hfl h
    · rw [hval]
    · rw [hval]
  · have hval8 : v ||| c.SYV682X_CONTROL_1_PWR_ENB < 256 :=
      Nat.or_lt_two_pow (n := 8) hv8 hpw8
    obtain ⟨w1, h1, hregs, hflags, -⟩ :=
      source_enable_ok c port 0 w w0 hreg hread hready hwrite
        (v ||| c.SYV682X_CONTROL_1_PWR_ENB) (by simp [hfl, v])
    have hval : (w1.regs port c.SYV682X_CONTROL_1_REG).val
        = v ||| c.SYV682X_CONTROL_1_PWR_ENB := by
      rw [hregs]
      simp [toByte_val _ hval8]
    refine ⟨w1, h1, ?_, ?_, ?_, ?_, hsrc w1 hflags⟩
    · rw [hval]; simp [hfl]
    · intro _; rw [hval]; exact or_and_self _ _
    · rw [hval]
      exact or_and_disjoint _ _ _ (by rw [Nat.land_comm]; exact hd2)
    · rw [hval]
      exact or_and_disjoint _ _ _ (by rw [Nat.land_comm]; exact hd3)

theorem source_disable_value_witness :
    syv682x_h.control1_ok ∧ (sourcing0.bus 0).rv = 0 ∧
    syv682x_wait_for_ready syv682x_h 0
      (read_reg syv682x_h 0 syv682x_h.SYV682X_CONTROL_1_REG sourcing0).2.2
      = some (EC_SUCCESS, (read_reg syv682x_h 0 3
          (read_reg syv682x_h 0 1 sourcing0).2.2).2.2) ∧
    ∃ w1, syv682x_vbus_source_enable syv682x_h 0 0 sourcing0 = some (EC_SUCCESS, w1) ∧
      (w1.regs 0 1).val = 132 ∧ (w1.regs 0 1).val &&& 2 = 0 ∧ (w1.regs 0 1).val &&& 4 = 4 ∧
      syv682x_is_sourcing_vbus 0 w1 = 0 := by
  have hready : syv682x_wait_for_ready syv682x_h 0
      (read_reg syv682x_h 0 syv682x_h.SYV682X_CONTROL_1_REG sourcing0).2.2
      = some (EC_SUCCESS, (read_reg syv682x_h 0 3
          (read_reg syv682x_h 0 1 sourcing0).2.2).2.2) := rfl
  obtain ⟨w1, h1, h2, -, h3, h4, h5⟩ :=
    source_disable_value syv682x_h 0 sourcing0 _ (by decide) (by decide) hready rfl
  exact ⟨by decide, by decide, hready, w1, h1, h2, h3, h4, h5⟩

theorem filter_isNotify_nil (l : List Event)
    (h : ∀ e ∈ l, e.isWrite = false ∧ e.isNotify = false) : l.filter Event.isNotify = [] := by
  rw [List.filter_eq_nil_iff]
  intro e he
  simp [(h e he).2]

/-- C29: `syv682x_vbus_source_enable` always returns, with the status of the
first step that failed (the read of `CONTROL_1`, the busy wait, the bus write)
or zero when none did. When the status is not zero the flags of every port are
exactly as before the call and the charging subsystem is not notified; whatever
the status, the flags of every other port are unchanged. -/
theorem source_enable_failure_frame (c : Cfg) (port : Nat) (enable : Int) (w : World) :
    ∃ rv w1, syv682x_vbus_source_enable c port enable w = some (rv, w1) ∧
      (∀ p, p ≠ port → w1.flags p = w.flags p) ∧
      (rv ≠ 0 → w1.flags = w.flags ∧ (new_events w w1).filter Event.isNotify = []) ∧
      (∀ rv0 w0, syv682x_wait_for_ready c port
          (read_reg c port c.SYV682X_CONTROL_1_REG w).2.2 = some (rv0, w0) →
        rv = if (w.bus 0).rv ≠ 0 then (w.bus 0).rv
             else if rv0 ≠ 0 then rv0 else (w0.bus 0).rv) := by
  by_cases hrv : (w.bus 0).rv = 0
  · obtain ⟨⟨rv0, w0⟩, h0⟩ := wait_for_ready_returns c port
      (read_reg c port c.SYV682X_CONTROL_1_REG w).2.2
    obtain ⟨-, hf0, l, hl, hall⟩ := wait_for_ready_frame c port _ rv0 w0 h0
    have hfl : (read_reg c port c.SYV682X_CONTROL_1_REG w).2.2.flags = w.flags := by
      rw [read_reg_world]
    have hlg : (read_reg c port c.SYV682X_CONTROL_1_REG w).2.2.log
        = w.log ++ [Event.i2c_read port c.SYV682X_CONTROL_1_REG] := by
      rw [read_reg_world]
    by_cases hrv0 : rv0 = 0
    · subst hrv0
      have hw : ∀ val, write_reg c port c.SYV682X_CONTROL_1_REG val
          (read_reg c port c.SYV682X_CONTROL_1_REG w).2.2
          = some (i2c_write8 c port c.SYV682X_CONTROL_1_REG val w0) :=
        fun val => write_reg_of_ready c port _ val _ w0 h0
      by_cases hwr : (w0.bus 0).rv = 0
      · have hw2 : ∀ val, write_reg c port c.SYV682X_CONTROL_1_REG val
            (read_reg c port c.SYV682X_CONTROL_1_REG w).2.2
            = some (EC_SUCCESS, (i2c_write8 c port c.SYV682X_CONTROL_1_REG val w0).2) := by
          intro val
          rw [hw val]
          exact congrArg some (i2c_write8_ok_eq c port _ val w0 hwr)
        unfold syv682x_vbus_source_enable
        simp only [read_reg_rv, hrv, ne_eq, not_true_eq_false, if_false, hw2, EC_SUCCESS]
        refine ⟨_, _, rfl, ?_, fun h => absurd rfl h, ?_⟩
        · intro p hp
          by_cases hcfg : c.CONFIG_USB_CHARGER = true ∧ c.CONFIG_USB_PD_VBUS_DETECT_PPC = true
          · simp only [hcfg, and_self, if_true, usb_charger_vbus_change, hp, if_false,
              i2c_write8_flags, hf0, hfl]
          · simp only [hcfg, if_false, hp, i2c_write8_flags, hf0, hfl]
        · intro rv1 w1 h1
          rw [h0] at h1
          simp only [Option.some.injEq, Prod.mk.injEq] at h1
          obtain ⟨rfl, rfl⟩ := h1
          simp [hwr]
      · have hw2 : ∀ val, write_reg c port c.SYV682X_CONTROL_1_REG val
            (read_reg c port c.SYV682X_CONTROL_1_REG w).2.2
            = some ((w0.bus 0).rv, (i2c_write8 c port c.SYV682X_CONTROL_1_REG val w0).2) := by
          intro val
          rw [hw val]
          exact congrArg some (Prod.ext (i2c_write8_rv c port _ val w0) rfl)
        unfold syv682x_vbus_source_enable
        simp only [read_reg_rv, hrv, ne_eq, not_true_eq_false, if_false, hw2, hwr,
          not_false_eq_true, if_true]
        refine ⟨_, _, rfl, ?_, ?_, ?_⟩
        · intro p _
          rw [i2c_write8_flags, hf0, hfl]
        · intro _
          refine ⟨by rw [i2c_write8_flags, hf0, hfl], ?_⟩
          simp only [new_events, i2c_write8_log, hl, hlg, List.append_assoc, List.drop_left]
          simp [List.filter_cons, List.filter_append, Event.isNotify,
            filter_isNotify_nil l hall]
        · intro rv1 w1 h1
          rw [h0] at h1
          simp only [Option.some.injEq, Prod.mk.injEq] at h1
          obtain ⟨rfl, rfl⟩ := h1
          simp
    · have hw : ∀ val, write_reg c port c.SYV682X_CONTROL_1_REG val
          (read_reg c port c.SYV682X_CONTROL_1_REG w).2.2 = some (rv0, w0) := by
        intro val
        unfold write_reg
        rw [h0]
        simp [hrv0]
      unfold syv682x_vbus_source_enable
      simp only [read_reg_rv, hrv, ne_eq, not_true_eq_false, if_false, hw, hrv0,
        not_false_eq_true, if_true]
      refine ⟨_, _, rfl, ?_, ?_, ?_⟩
      · intro p _
        rw [hf0, hfl]
      · intro _
        refine ⟨by rw [hf0, hfl], ?_⟩
        simp only [new_events, hl, hlg, List.append_assoc, List.drop_left]
        simp [List.filter_cons, List.filter_append, Event.isNotify,
          filter_isNotify_nil l hall]
      · intro rv1 w1 h1
        rw [h0] at h1
        simp only [Option.some.injEq, Prod.mk.injEq] at h1
        obtain ⟨rfl, rfl⟩ := h1
        simp [hrv0]
  · unfold syv682x_vbus_source_enable
    simp only [read_reg_rv, hrv, ne_eq, not_false_eq_true, if_true]
    refine ⟨_, _, rfl, ?_, ?_, ?_⟩
    · intro p _
      rw [read_reg_world]
    · intro _
      refine ⟨by rw [read_reg_world], ?_⟩
      simp [new_events, read_reg_world, Event.isNotify]
    · intro rv1 w1 _
      rfl

theorem source_enable_failure_frame_witness :
    ∃ rv w1, syv682x_vbus_source_enable syv682x_h 0 0 write_fails0 = some (rv, w1) ∧
      rv = 5 ∧ w1.flags = write_fails0.flags ∧ syv682x_is_sourcing_vbus 0 w1 ≠ 0 ∧
      (new_events write_fails0 w1).filter Event.isNotify = [] := by
  obtain ⟨rv, w1, h, -, h2, h3⟩ := source_enable_failure_frame syv682x_h 0 0 write_fails0
  have hrv : rv = 5 := h3 0 (read_reg syv682x_h 0 3
    (read_reg syv682x_h 0 1 write_fails0).2.2).2.2 rfl
  have hne : rv ≠ 0 := by rw [hrv]; decide
  refine ⟨rv, w1, h, hrv, (h2 hne).1, ?_, (h2 hne).2⟩
  unfold syv682x_is_sourcing_vbus
  rw [(h2 hne).1]
  decide

/-- C30: `syv682x_set_vbus_source_current_limit` always returns, and when it
succeeds on a port whose `CONTROL_1` holds `v` it has put exactly one write on
the bus, of `v` with only the ILIM field replaced: the field is
`SYV682X_ILIM_3_30` for `TYPEC_RP_3A0`, `SYV682X_ILIM_1_75` for `TYPEC_RP_1A5`
and `SYV682X_ILIM_1_25` for `TYPEC_RP_USB` and for every other `rp`; every bit
outside `SYV682X_ILIM_MASK` (so CH_SEL, HV_DR and PWR_ENB) is as in `v`, the
register holds the written value, every other register and the flags are
unchanged. -/
theorem set_current_limit_replaces_ilim (c : Cfg)
    (TYPEC_RP_USB TYPEC_RP_1A5 TYPEC_RP_3A0 : Int) (port : Nat) (rp : Int) (w : World)
    (hc : c.ilim_ok)
    (hd : TYPEC_RP_USB ≠ TYPEC_RP_1A5 ∧ TYPEC_RP_USB ≠ TYPEC_RP_3A0 ∧
      TYPEC_RP_1A5 ≠ TYPEC_RP_3A0) :
    let v := (w.regs port c.SYV682X_CONTROL_1_REG).val
    (∃ r, syv682x_set_vbus_source_current_limit c TYPEC_RP_USB TYPEC_RP_1A5 TYPEC_RP_3A0
        port rp w = some r) ∧
    ∀ w1, syv682x_set_vbus_source_current_limit c TYPEC_RP_USB TYPEC_RP_1A5 TYPEC_RP_3A0
        port rp w = some (EC_SUCCESS, w1) →
      ∃ val, (new_events w w1).filter Event.isWrite
          = [Event.i2c_write port c.SYV682X_CONTROL_1_REG val] ∧
        (w1.regs = fun p r =>
          if p = port ∧ r = c.SYV682X_CONTROL_1_REG then toByte val else w.regs p r) ∧
        (w1.regs port c.SYV682X_CONTROL_1_REG).val = val ∧
        (rp = TYPEC_RP_3A0 → val &&& c.SYV682X_ILIM_MASK
          = c.SYV682X_ILIM_3_30 <<< c.SYV682X_ILIM_BIT_SHIFT) ∧
        (rp = TYPEC_RP_1A5 → val &&& c.SYV682X_ILIM_MASK
          = c.SYV682X_ILIM_1_75 <<< c.SYV682X_ILIM_BIT_SHIFT) ∧
        (rp = TYPEC_RP_USB → val &&& c.SYV682X_ILIM_MASK
          = c.SYV682X_ILIM_1_25 <<< c.SYV682X_ILIM_BIT_SHIFT) ∧
        (rp ≠ TYPEC_RP_3A0 → rp ≠ TYPEC_RP_1A5 → val &&& c.SYV682X_ILIM_MASK
          = c.SYV682X_ILIM_1_25 <<< c.SYV682X_ILIM_BIT_SHIFT) ∧
        (∀ i, c.SYV682X_ILIM_MASK.testBit i = false → val.testBit i = v.testBit i) ∧
        val &&& c.SYV682X_CONTROL_1_CH_SEL = v &&& c.SYV682X_CONTROL_1_CH_SEL ∧
        val &&& c.SYV682X_CONTROL_1_HV_DR = v &&& c.SYV682X_CONTROL_1_HV_DR ∧
        val &&& c.SYV682X_CONTROL_1_PWR_ENB = v &&& c.SYV682X_CONTROL_1_PWR_ENB ∧
        w1.flags = w.flags := by
  intro v
  obtain ⟨hm8, h125, h175, h330, hdis, hreg⟩ := hc
  obtain ⟨hd1, hd2, hd3⟩ := hd
  have hv8 : v < 256 := (w.regs port c.SYV682X_CONTROL_1_REG).isLt
  have hm : c.SYV682X_ILIM_MASK < 2 ^ 32 := lt_int_of_lt_byte _ hm8
  refine ⟨?_, ?_⟩
  · unfold syv682x_set_vbus_source_current_limit
    by_cases hrv : (w.bus 0).rv = 0
    · simp only [read_reg_rv, hrv, ne_eq, not_true_eq_false, if_false]
      exact write_reg_returns c port _ _ _
    · simp only [read_reg_rv, hrv, ne_eq, not_false_eq_true, if_true]
      exact ⟨_, rfl⟩
  · intro w1 h
    unfold syv682x_set_vbus_source_current_limit at h
    by_cases hrv : (w.bus 0).rv = 0
    · simp only [read_reg_rv, hrv, read_reg_val c port _ w hrv hreg, ne_eq,
        not_true_eq_false, if_false, ite_self] at h
      generalize hlim : (if rp = TYPEC_RP_3A0 then c.SYV682X_ILIM_3_30
        else if rp = TYPEC_RP_1A5 then c.SYV682X_ILIM_1_75
        else c.SYV682X_ILIM_1_25) = limit at h
      have hs : (limit <<< c.SYV682X_ILIM_BIT_SHIFT) &&& c.SYV682X_ILIM_MASK
          = limit <<< c.SYV682X_ILIM_BIT_SHIFT := by
        rw [← hlim]
        by_cases h3 : rp = TYPEC_RP_3A0
        · rw [if_pos h3]; exact h330
        · by_cases h1 : rp = TYPEC_RP_1A5
          · rw [if_neg h3, if_pos h1]; exact h175
          · rw [if_neg h3, if_neg h1]; exact h125
      obtain ⟨hf, hkeep⟩ := replace_field v (limit <<< c.SYV682X_ILIM_BIT_SHIFT)
        c.SYV682X_ILIM_MASK (lt_int_of_lt_byte _ hv8) hm hs
      have hs8 : limit <<< c.SYV682X_ILIM_BIT_SHIFT < 256 := by
        rw [← hs]
        exact Nat.lt_of_le_of_lt Nat.and_le_right hm8
      have hval8 : (v &&& cnot c.SYV682X_ILIM_MASK) ||| (limit <<< c.SYV682X_ILIM_BIT_SHIFT)
          < 256 :=
        Nat.or_lt_two_pow (n := 8) (Nat.lt_of_le_of_lt Nat.and_le_left hv8) hs8
      obtain ⟨hregs, hflags, hwr, -⟩ := rmw_ok c port _ _ w w1 hreg h
      have hother : ∀ b, b &&& c.SYV682X_ILIM_MASK = 0 →
          ((v &&& cnot c.SYV682X_ILIM_MASK) ||| (limit <<< c.SYV682X_ILIM_BIT_SHIFT)) &&& b
            = v &&& b := by
        intro b hb
        apply Nat.eq_of_testBit_eq
        intro i
        by_cases hbi : b.testBit i = true
        · have hmi : c.SYV682X_ILIM_MASK.testBit i = false := by
            by_contra hne
            exact disjoint_bits _ _ hb i ⟨hbi, by simpa using hne⟩
          simp only [Nat.testBit_and]
          rw [hkeep i hmi]
        · simp only [Nat.testBit_and]
          simp [hbi]
      have hparts := (and_or_eq_zero c.SYV682X_ILIM_MASK
        (c.SYV682X_CONTROL_1_CH_SEL ||| c.SYV682X_CONTROL_1_HV_DR)
        c.SYV682X_CONTROL_1_PWR_ENB).1 (by rw [Nat.land_comm]; exact hdis)
      have hparts2 := (and_or_eq_zero c.SYV682X_ILIM_MASK c.SYV682X_CONTROL_1_CH_SEL
        c.SYV682X_CONTROL_1_HV_DR).1 hparts.1
      refine ⟨_, hwr, hregs, ?_, ?_, ?_, ?_, ?_, hkeep, ?_, ?_, ?_, hflags⟩
      · rw [hregs]
        simp [toByte_val _ hval8]
      · intro h3
        rw [hf, ← hlim]
        simp [h3]
      · intro h1
        rw [hf, ← hlim]
        simp [h1, hd3]
      · intro h0
        rw [hf, ← hlim]
        simp [h0, hd1, hd2]
      · intro h3 h1
        rw [hf, ← hlim]
        simp [h3, h1]
      · exact hother _ (by rw [Nat.land_comm]; exact hparts2.1)
      · exact hother _ (by rw [Nat.land_comm]; exact hparts2.2)
      · exact hother _ (by rw [Nat.land_comm]; exact hparts.2)
    · simp only [read_reg_rv, hrv, ne_eq, not_false_eq_true, if_true, Option.some.injEq,
        Prod.mk.injEq, EC_SUCCESS] at h
      exact h.1.elim

theorem set_current_limit_replaces_ilim_witness :
    syv682x_h.ilim_ok ∧ ((0 : Int) ≠ 1 ∧ (0 : Int) ≠ 2 ∧ (1 : Int) ≠ 2) ∧
    ∃ w1, syv682x_set_vbus_source_current_limit syv682x_h 0 1 2 0 1 idle0
        = some (EC_SUCCESS, w1) ∧
      ∃ val, (new_events idle0 w1).filter Event.isWrite = [Event.i2c_write 0 1 val] ∧
        (w1.regs 0 1).val = val ∧ val &&& 24 = 8 ∧ val &&& 128 = 128 ∧
        w1.flags = idle0.flags := by
  have hrun : syv682x_set_vbus_source_current_limit syv682x_h 0 1 2 0 1 idle0
      = some (EC_SUCCESS, (i2c_write8 syv682x_h 0 1 140 (read_reg syv682x_h 0 3
          (read_reg syv682x_h 0 1 idle0).2.2).2.2).2) := rfl
  obtain ⟨val, h1, -, h2, -, h3, -, -, -, -, -, h5, h4⟩ :=
    (set_current_limit_replaces_ilim syv682x_h 0 1 2 0 1 idle0 (by decide) (by decide)).2
      _ hrun
  exact ⟨by decide, by decide, _, hrun, val, h1, h2, h3 rfl, h5, h4⟩

theorem clear_bits (v k : Nat) (hv : v < 2 ^ 32) (hk : k < 2 ^ 32) :
    (v &&& cnot k) &&& k = 0 ∧
    ∀ i, k.testBit i = false → (v &&& cnot k).testBit i = v.testBit i := by
  have h := replace_field v 0 k hv hk (Nat.zero_and k)
  simp only [Nat.or_zero] at h
  exact h

theorem set_polarity_frame (port : Nat) (polarity : Int) (w : World) :
    (syv682x_set_polarity port polarity w).1 = EC_SUCCESS ∧
    (syv682x_set_polarity port polarity w).2.regs = w.regs ∧
    (syv682x_set_polarity port polarity w).2.bus = w.bus ∧
    (syv682x_set_polarity port polarity w).2.log = w.log ∧
    (syv682x_set_polarity port polarity w).2.now = w.now ∧
    (∀ p, p ≠ port → (syv682x_set_polarity port polarity w).2.flags p = w.flags p) ∧
    (∀ i, SYV682X_FLAGS_CC_POLARITY.testBit i = false →
      ((syv682x_set_polarity port polarity w).2.flags port).val.testBit i
        = (w.flags port).val.testBit i) ∧
    ((syv682x_set_polarity port polarity w).2.flags port).val &&& SYV682X_FLAGS_CC_POLARITY
      = if polarity ≠ 0 then SYV682X_FLAGS_CC_POLARITY else 0 := by
  refine ⟨rfl, rfl, rfl, rfl, rfl, ?_, ?_, ?_⟩
  · intro p hp
    simp [syv682x_set_polarity, hp]
  · intro i hi
    by_cases hpol : polarity = 0
    · simp only [syv682x_set_polarity, hpol, ne_eq, not_true_eq_false, if_false, if_true]
      rw [toByte_val _ (Nat.lt_of_le_of_lt Nat.and_le_left (w.flags port).isLt)]
      exact (clear_bits _ _ (byte_lt_int _) (by decide)).2 i hi
    · simp only [syv682x_set_polarity, hpol, ne_eq, not_false_eq_true, if_true]
      rw [toByte_val _ (Nat.or_lt_two_pow (n := 8) (w.flags port).isLt (by decide))]
      exact or_testBit_other _ _ i hi
  · by_cases hpol : polarity = 0
    · simp only [syv682x_set_polarity, hpol, ne_eq, not_true_eq_false, if_false, if_true]
      exact clear_flag_bit _ _ (by decide)
    · simp only [syv682x_set_polarity, hpol, ne_eq, not_false_eq_true, if_true]
      exact set_flag_bit _ _ (by decide)

theorem set_vconn_returns (c : Cfg) (port : Nat) (enable : Int) (w : World) :
    ∃ r, syv682x_set_vconn c port enable w = some r := by
  unfold syv682x_set_vconn
  by_cases hrv : (w.bus 0).rv = 0
  · simp only [read_reg_rv, hrv, ne_eq, not_true_eq_false, if_false]
    exact write_reg_returns c port _ _ _
  · simp only [read_reg_rv, hrv, ne_eq, not_false_eq_true, if_true]
    exact ⟨_, rfl⟩

theorem set_vconn_ok (c : Cfg) (port : Nat) (enable : Int) (w w1 : World)
    (hreg : c.SYV682X_CONTROL_4_REG ≠ c.SYV682X_CONTROL_3_REG)
    (h : syv682x_set_vconn c port enable w = some (EC_SUCCESS, w1)) (val : Nat)
    (hval : val =
      if enable ≠ 0 then
        (w.regs port c.SYV682X_CONTROL_4_REG).val |||
          (if (w.flags port).val &&& SYV682X_FLAGS_CC_POLARITY ≠ 0
           then c.SYV682X_CONTROL_4_VCONN1 else c.SYV682X_CONTROL_4_VCONN2)
      else (w.regs port c.SYV682X_CONTROL_4_REG).val
        &&& cnot (c.SYV682X_CONTROL_4_VCONN2 ||| c.SYV682X_CONTROL_4_VCONN1)) :
    (w1.regs = fun p r =>
      if p = port ∧ r = c.SYV682X_CONTROL_4_REG then toByte val else w.regs p r) ∧
    w1.flags = w.flags ∧
    (new_events w w1).filter Event.isWrite
      = [Event.i2c_write port c.SYV682X_CONTROL_4_REG val] := by
  unfold syv682x_set_vconn at h
  by_cases hrv : (w.bus 0).rv = 0
  · have hfl : (read_reg c port c.SYV682X_CONTROL_4_REG w).2.2.flags = w.flags := by
      rw [read_reg_world]
    simp only [read_reg_rv, hrv, read_reg_val c port _ w hrv hreg, hfl, ne_eq,
      not_true_eq_false, if_false] at h
    simp only [ne_eq] at hval
    rw [← hval] at h
    obtain ⟨hregs, hflags, hwr, -⟩ := rmw_ok c port _ _ w w1 hreg h
    exact ⟨hregs, hflags, hwr⟩
  · simp only [read_reg_rv, hrv, ne_eq, not_false_eq_true, if_true, Option.some.injEq,
      Prod.mk.injEq, EC_SUCCESS] at h
    exact h.1.elim

/-- C28: `syv682x_set_polarity(port, pol)` returns `EC_SUCCESS` and changes only
the CC_POLARITY bit of the port's flags (set for `pol` non-zero, that is CC2,
clear for CC1). In the state it leaves, `syv682x_set_vconn` always returns; when
`syv682x_set_vconn(port, 1)` succeeds it has written to `CONTROL_4` the value `v`
read with VCONN1 set when the polarity is CC2 and VCONN2 set when it is CC1,
every other bit as in `v`; when `syv682x_set_vconn(port, 0)` succeeds it has
written `v` with VCONN1 and VCONN2 clear, every other bit as in `v`. -/
theorem set_vconn_follows_polarity (c : Cfg) (port : Nat) (pol : Int) (w : World)
    (hc : c.control4_ok) :
    let wp := (syv682x_set_polarity port pol w).2
    let v := (w.regs port c.SYV682X_CONTROL_4_REG).val
    let s := if pol ≠ 0 then c.SYV682X_CONTROL_4_VCONN1 else c.SYV682X_CONTROL_4_VCONN2
    let k := c.SYV682X_CONTROL_4_VCONN2 ||| c.SYV682X_CONTROL_4_VCONN1
    (syv682x_set_polarity port pol w).1 = EC_SUCCESS ∧
    wp.regs = w.regs ∧ wp.log = w.log ∧
    (∀ p, p ≠ port → wp.flags p = w.flags p) ∧
    (∀ i, SYV682X_FLAGS_CC_POLARITY.testBit i = false →
      (wp.flags port).val.testBit i = (w.flags port).val.testBit i) ∧
    (wp.flags port).val &&& SYV682X_FLAGS_CC_POLARITY
      = (if pol ≠ 0 then SYV682X_FLAGS_CC_POLARITY else 0) ∧
    (∀ enable, ∃ r, syv682x_set_vconn c port enable wp = some r) ∧
    (∀ w1, syv682x_set_vconn c port 1 wp = some (EC_SUCCESS, w1) →
      (new_events wp w1).filter Event.isWrite
        = [Event.i2c_write port c.SYV682X_CONTROL_4_REG (v ||| s)] ∧
      (w1.regs port c.SYV682X_CONTROL_4_REG).val = v ||| s ∧
      (v ||| s) &&& s = s ∧
      (∀ i, s.testBit i = false → (v ||| s).testBit i = v.testBit i) ∧
      (∀ p r, ¬ (p = port ∧ r = c.SYV682X_CONTROL_4_REG) → w1.regs p r = w.regs p r)) ∧
    (∀ w1, syv682x_set_vconn c port 0 wp = some (EC_SUCCESS, w1) →
      (new_events wp w1).filter Event.isWrite
        = [Event.i2c_write port c.SYV682X_CONTROL_4_REG (v &&& cnot k)] ∧
      (w1.regs port c.SYV682X_CONTROL_4_REG).val = v &&& cnot k ∧
      (v &&& cnot k) &&& c.SYV682X_CONTROL_4_VCONN1 = 0 ∧
      (v &&& cnot k) &&& c.SYV682X_CONTROL_4_VCONN2 = 0 ∧
      (∀ i, k.testBit i = false → (v &&& cnot k).testBit i = v.testBit i) ∧
      (∀ p r, ¬ (p = port ∧ r = c.SYV682X_CONTROL_4_REG) → w1.regs p r = w.regs p r)) := by
  intro wp v s k
  obtain ⟨h1, h2, -, h3, -, h4, h5, h6⟩ := set_polarity_frame port pol w
  obtain ⟨hv1, hv2, hreg⟩ := hc
  have hv8 : v < 256 := (w.regs port c.SYV682X_CONTROL_4_REG).isLt
  have hs8 : s < 256 := by
    by_cases hpol : pol = 0
    · simp only [s, hpol, ne_eq, not_true_eq_false, if_false]; exact hv2
    · simp only [s, hpol, ne_eq, not_false_eq_true, if_true]; exact hv1
  have hk : k < 2 ^ 32 :=
    Nat.or_lt_two_pow (lt_int_of_lt_byte _ hv2) (lt_int_of_lt_byte _ hv1)
  have hvp : (wp.regs port c.SYV682X_CONTROL_4_REG).val = v := by
    simp only [wp, h2, v]
  refine ⟨h1, h2, h3, h4, h5, h6, fun enable => set_vconn_returns c port enable wp, ?_, ?_⟩
  · intro w1 h
    have hval : v ||| s =
        if (1 : Int) ≠ 0 then
          (wp.regs port c.SYV682X_CONTROL_4_REG).val |||
            (if (wp.flags port).val &&& SYV682X_FLAGS_CC_POLARITY ≠ 0
             then c.SYV682X_CONTROL_4_VCONN1 else c.SYV682X_CONTROL_4_VCONN2)
        else (wp.regs port c.SYV682X_CONTROL_4_REG).val
          &&& cnot (c.SYV682X_CONTROL_4_VCONN2 ||| c.SYV682X_CONTROL_4_VCONN1) := by
      rw [hvp, h6]
      by_cases hpol : pol = 0
      · simp [s, hpol]
      · simp [s, hpol, SYV682X_FLAGS_CC_POLARITY]
    obtain ⟨hregs, -, hwr⟩ := set_vconn_ok c port 1 wp w1 hreg h (v ||| s) hval
    refine ⟨hwr, ?_, or_and_self _ _, fun i hi => or_testBit_other _ _ i hi, ?_⟩
    · rw [hregs]
      simp [toByte_val _ (Nat.or_lt_two_pow (n := 8) hv8 hs8)]
    · intro p r hpr
      rw [hregs]
      simp only [hpr, if_false]
      exact congrFun (congrFun h2 p) r
  · intro w1 h
    have hval : v &&& cnot k =
        if (0 : Int) ≠ 0 then
          (wp.regs port c.SYV682X_CONTROL_4_REG).val |||
            (if (wp.flags port).val &&& SYV682X_FLAGS_CC_POLARITY ≠ 0
             then c.SYV682X_CONTROL_4_VCONN1 else c.SYV682X_CONTROL_4_VCONN2)
        else (wp.regs port c.SYV682X_CONTROL_4_REG).val
          &&& cnot (c.SYV682X_CONTROL_4_VCONN2 ||| c.SYV682X_CONTROL_4_VCONN1) := by
      rw [hvp]
      simp [k]
    obtain ⟨hregs, -, hwr⟩ := set_vconn_ok c port 0 wp w1 hreg h (v &&& cnot k) hval
    obtain ⟨hz, hkeep⟩ := clear_bits v k (lt_int_of_lt_byte _ hv8) hk
    have hparts := (and_or_eq_zero (v &&& cnot k) c.SYV682X_CONTROL_4_VCONN2
      c.SYV682X_CONTROL_4_VCONN1).1 hz
    refine ⟨hwr, ?_, hparts.2, hparts.1, hkeep, ?_⟩
    · rw [hregs]
      simp [toByte_val _ (Nat.lt_of_le_of_lt Nat.and_le_left hv8)]
    · intro p r hpr
      rw [hregs]
      simp only [hpr, if_false]
      exact congrFun (congrFun h2 p) r

theorem set_vconn_follows_polarity_witness :
    syv682x_h.control4_ok ∧
    (syv682x_set_polarity 0 1 routed0).1 = EC_SUCCESS ∧
    ((syv682x_set_polarity 0 1 routed0).2.flags 0).val = 2 ∧
    (∃ w1, syv682x_set_vconn syv682x_h 0 1 (syv682x_set_polarity 0 1 routed0).2
        = some (EC_SUCCESS, w1) ∧ (w1.regs 0 4).val = 226) ∧
    (∃ w1, syv682x_set_vconn syv682x_h 0 0 (syv682x_set_polarity 0 1 routed0).2
        = some (EC_SUCCESS, w1) ∧ (w1.regs 0 4).val = 194) := by
  obtain ⟨h1, -, -, -, -, -, -, hon, hoff⟩ :=
    set_vconn_follows_polarity syv682x_h 0 1 routed0 (by decide)
  have hrun1 : syv682x_set_vconn syv682x_h 0 1 (syv682x_set_polarity 0 1 routed0).2
      = some (EC_SUCCESS, (i2c_write8 syv682x_h 0 4 226 (read_reg syv682x_h 0 3
          (read_reg syv682x_h 0 4 (syv682x_set_polarity 0 1 routed0).2).2.2).2.2).2) := rfl
  have hrun0 : syv682x_set_vconn syv682x_h 0 0 (syv682x_set_polarity 0 1 routed0).2
      = some (EC_SUCCESS, (i2c_write8 syv682x_h 0 4 194 (read_reg syv682x_h 0 3
          (read_reg syv682x_h 0 4 (syv682x_set_polarity 0 1 routed0).2).2.2).2.2).2) := rfl
  exact ⟨by decide, h1, by decide, ⟨_, hrun1, (hon _ hrun1).2.1⟩, ⟨_, hrun0, (hoff _ hrun0).2.1⟩⟩

/-- C11, counterexample: from `slow_at_power_path` every bus transfer succeeds
and the status register read by `syv682x_init` is 0 (VSAFE_0V clear), but the
busy wait inside `syv682x_vbus_sink_enable(0, 1)` expires; init returns
`EC_SUCCESS` without any write to `CONTROL_1`, which still holds 0: CH_SEL is
clear and the sink path is not enabled. -/
theorem init_dead_battery_busy_wait_expires :
    (∀ i, (slow_at_power_path.bus i).rv = 0) ∧
    (syv682x_h.por syv682x_h.SYV682X_STATUS_REG).val &&& syv682x_h.SYV682X_STATUS_VSAFE_0V = 0 ∧
    (syv682x_init syv682x_h 0 slow_at_power_path).map
        (fun r => (r.1, (new_events slow_at_power_path r.2).filter Event.isWrite,
          (r.2.regs 0 syv682x_h.SYV682X_CONTROL_1_REG).val,
          decide (sink_active syv682x_h 0 r.2)))
      = some (EC_SUCCESS, [Event.i2c_write 0 3 1, Event.i2c_write 0 2 2,
          Event.i2c_write 0 3 64, Event.i2c_write 0 4 194], 0, false) :=
  ⟨fun _ => rfl, by decide, by decide⟩

/-- C12, counterexample: from `slow_at_power_path`, with a chip whose status
register reads 0x01 (VSAFE_0V set), every bus transfer succeeds but the busy wait
of the `CONTROL_1` write expires; init returns `EC_ERROR_TIMEOUT` and has written
nothing to `CONTROL_1`. -/
theorem init_not_dead_battery_busy_wait_expires :
    (∀ i, (slow_at_power_path.bus i).rv = 0) ∧
    (syv682x_h_0v.por syv682x_h_0v.SYV682X_STATUS_REG).val
      &&& syv682x_h_0v.SYV682X_STATUS_VSAFE_0V ≠ 0 ∧
    (syv682x_init syv682x_h_0v 0 slow_at_power_path).map
        (fun r => (r.1, (new_events slow_at_power_path r.2).filter Event.isWrite))
      = some (syv682x_h_0v.EC_ERROR_TIMEOUT, [Event.i2c_write 0 3 1, Event.i2c_write 0 2 2,
          Event.i2c_write 0 3 64]) :=
  ⟨fun _ => rfl, by decide, by decide⟩

/-- C27, counterexample: port 0 is sourcing with `CONTROL_1` holding 4, every bus
transfer succeeds and the chip stays busy; `syv682x_vbus_source_enable(0, 0)`
returns `EC_ERROR_TIMEOUT`, not `EC_SUCCESS`, `CONTROL_1` still holds 4 (PWR_ENB
not set) and the SOURCE_ENABLED flag is still set. -/
theorem source_disable_busy_wait_expires :
    (∀ i, (sourcing_stuck0.bus i).rv = 0) ∧
    (sourcing_stuck0.flags 0).val &&& SYV682X_FLAGS_SOURCE_ENABLED ≠ 0 ∧
    (syv682x_vbus_source_enable syv682x_h 0 0 sourcing_stuck0).map
        (fun r => (r.1, (r.2.regs 0 syv682x_h.SYV682X_CONTROL_1_REG).val,
          syv682x_is_sourcing_vbus 0 r.2))
      = some (syv682x_h.EC_ERROR_TIMEOUT, 4, 1) ∧
    syv682x_h.EC_ERROR_TIMEOUT ≠ EC_SUCCESS :=
  ⟨fun _ => rfl, by decide, by decide, by decide⟩

end Syv682x

namespace UsbPdHostCmd

/-! ## The identity cache -/

theorem find_dev_id_none (table : Nat → ec_params_usb_pd_rw_hash_entry) (dev_id : Nat) :
    ∀ (n i : Nat), find_dev_id table dev_id n i = none ↔
      ∀ j, i ≤ j → j < i + n → (table j).dev_id ≠ dev_id := by
  intro n
  induction n with
  | zero =>
    intro i
    simp only [find_dev_id, true_iff]
    intro j h1 h2
    omega
  | succ n ih =>
    intro i
    unfold find_dev_id
    by_cases h : dev_id = (table i).dev_id
    · simp only [h, if_true]
      constructor
      · intro hf; exact absurd hf (by simp)
      · intro hall
        exact absurd rfl (hall i (Nat.le_refl _) (by omega))
    · simp only [h, if_false, ih]
      constructor
      · intro hall j h1 h2
        by_cases hj : j = i
        · subst hj; exact fun e => h e.symm
        · exact hall j (by omega) (by omega)
      · intro hall j h1 h2
        exact hall j (by omega) (by omega)

theorem find_dev_id_some (table : Nat → ec_params_usb_pd_rw_hash_entry) (dev_id : Nat) :
    ∀ (n i idx : Nat), find_dev_id table dev_id n i = some idx →
      i ≤ idx ∧ idx < i + n ∧ (table idx).dev_id = dev_id ∧
      ∀ j, i ≤ j → j < idx → (table j).dev_id ≠ dev_id := by
  intro n
  induction n with
  | zero => intro i idx h; simp [find_dev_id] at h
  | succ n ih =>
    intro i idx h
    unfold find_dev_id at h
    by_cases hd : dev_id = (table i).dev_id
    · simp only [hd, if_true, Option.some.injEq] at h
      subst h
      exact ⟨Nat.le_refl _, by omega, hd.symm, fun j h1 h2 => by omega⟩
    · simp only [hd, if_false] at h
      obtain ⟨h1, h2, h3, h4⟩ := ih (i + 1) idx h
      refine ⟨by omega, by omega, h3, ?_⟩
      intro j hj1 hj2
      by_cases hj : j = i
      · subst hj; exact fun e => hd e.symm
      · exact h4 j (by omega) hj2

/-- C15: a request with `dev_id == 0` is answered with `EC_RES_INVALID_PARAM`,
whatever the table and the cursor hold, and leaves every slot of
`rw_hash_table` and the round-robin cursor as they were. -/
theorem rw_hash_entry_zero_dev_id (RW_HASH_ENTRIES : Nat) (p : ec_params_usb_pd_rw_hash_entry)
    (s : HashState) (h : p.dev_id = 0) :
    hc_remote_rw_hash_entry RW_HASH_ENTRIES p s = (ec_status.EC_RES_INVALID_PARAM, s) := by
  unfold hc_remote_rw_hash_entry
  simp [h]

theorem rw_hash_entry_zero_dev_id_witness :
    entry0.dev_id = 0 ∧
    hc_remote_rw_hash_entry 3 entry0 cursor_at_last
      = (ec_status.EC_RES_INVALID_PARAM, cursor_at_last) :=
  ⟨rfl, rw_hash_entry_zero_dev_id 3 entry0 cursor_at_last rfl⟩

theorem rw_hash_entry_miss (RW_HASH_ENTRIES : Nat) (p : ec_params_usb_pd_rw_hash_entry)
    (s : HashState) (hp : p.dev_id ≠ 0)
    (habs : ∀ i, i < RW_HASH_ENTRIES → (s.rw_hash_table i).dev_id ≠ p.dev_id) :
    hc_remote_rw_hash_entry RW_HASH_ENTRIES p s =
      (ec_status.EC_RES_SUCCESS,
        { rw_hash_table := store_entry s.rw_hash_table s.rw_hash_next_idx p,
          rw_hash_next_idx :=
            if s.rw_hash_next_idx + 1 = RW_HASH_ENTRIES then 0 else s.rw_hash_next_idx + 1 }) := by
  have hnone : find_dev_id s.rw_hash_table p.dev_id RW_HASH_ENTRIES 0 = none :=
    (find_dev_id_none _ _ _ _).2 (fun j _ hj => habs j (by omega))
  unfold hc_remote_rw_hash_entry
  simp only [hp, if_false, hnone]

theorem rw_hash_entry_hit (RW_HASH_ENTRIES : Nat) (p : ec_params_usb_pd_rw_hash_entry)
    (s : HashState) (hp : p.dev_id ≠ 0)
    (hpres : ∃ i, i < RW_HASH_ENTRIES ∧ (s.rw_hash_table i).dev_id = p.dev_id) :
    ∃ idx, idx < RW_HASH_ENTRIES ∧ (s.rw_hash_table idx).dev_id = p.dev_id ∧
      (∀ j, j < idx → (s.rw_hash_table j).dev_id ≠ p.dev_id) ∧
      hc_remote_rw_hash_entry RW_HASH_ENTRIES p s =
        (ec_status.EC_RES_SUCCESS,
          { s with rw_hash_table := store_entry s.rw_hash_table idx p }) := by
  cases hf : find_dev_id s.rw_hash_table p.dev_id RW_HASH_ENTRIES 0 with
  | none =>
    obtain ⟨i, hi, he⟩ := hpres
    exact absurd he ((find_dev_id_none _ _ _ _).1 hf i (Nat.zero_le _) (by omega))
  | some idx =>
    obtain ⟨-, h2, h3, h4⟩ := find_dev_id_some _ _ _ _ _ hf
    refine ⟨idx, by omega, h3, fun j hj => h4 j (Nat.zero_le _) hj, ?_⟩
    unfold hc_remote_rw_hash_entry
    simp only [hp, if_false, hf]

/-- C19: with the cursor `c` in range and a non-zero `dev_id` that no slot of the
table holds, `hc_remote_rw_hash_entry` returns `EC_RES_SUCCESS`, stores the whole
request entry in slot `c`, leaves every other slot unchanged and sets the cursor
to `(c + 1) mod RW_HASH_ENTRIES`, which is 0 when `c` was the last slot. -/
theorem rw_hash_entry_insert (RW_HASH_ENTRIES : Nat) (p : ec_params_usb_pd_rw_hash_entry)
    (s : HashState) (hc : s.rw_hash_next_idx < RW_HASH_ENTRIES) (hp : p.dev_id ≠ 0)
    (habs : ∀ i, i < RW_HASH_ENTRIES → (s.rw_hash_table i).dev_id ≠ p.dev_id) :
    (hc_remote_rw_hash_entry RW_HASH_ENTRIES p s).1 = ec_status.EC_RES_SUCCESS ∧
    (hc_remote_rw_hash_entry RW_HASH_ENTRIES p s).2.rw_hash_table s.rw_hash_next_idx = p ∧
    (∀ j, j ≠ s.rw_hash_next_idx →
      (hc_remote_rw_hash_entry RW_HASH_ENTRIES p s).2.rw_hash_table j = s.rw_hash_table j) ∧
    (hc_remote_rw_hash_entry RW_HASH_ENTRIES p s).2.rw_hash_next_idx
      = (s.rw_hash_next_idx + 1) % RW_HASH_ENTRIES ∧
    (s.rw_hash_next_idx + 1 = RW_HASH_ENTRIES →
      (hc_remote_rw_hash_entry RW_HASH_ENTRIES p s).2.rw_hash_next_idx = 0) := by
  rw [rw_hash_entry_miss RW_HASH_ENTRIES p s hp habs]
  refine ⟨rfl, by simp [store_entry], fun j hj => by simp [store_entry, hj], ?_, ?_⟩
  · by_cases hl : s.rw_hash_next_idx + 1 = RW_HASH_ENTRIES
    · simp only [hl, if_true, Nat.mod_self]
    · simp only [hl, if_false]
      exact (Nat.mod_eq_of_lt (by omega)).symm
  · intro hl
    simp only [hl, if_true]

theorem rw_hash_entry_insert_witness :
    cursor_at_last.rw_hash_next_idx < 3 ∧ entry5.dev_id ≠ 0 ∧
    (∀ i, i < 3 → (cursor_at_last.rw_hash_table i).dev_id ≠ entry5.dev_id) ∧
    (hc_remote_rw_hash_entry 3 entry5 cursor_at_last).2.rw_hash_table 2 = entry5 ∧
    (hc_remote_rw_hash_entry 3 entry5 cursor_at_last).2.rw_hash_next_idx = 0 := by
  have h := rw_hash_entry_insert 3 entry5 cursor_at_last (by decide) (by decide)
    (by decide)
  exact ⟨by decide, by decide, by decide, h.2.1, h.2.2.2.2 rfl⟩

theorem table_ok_step (RW_HASH_ENTRIES : Nat) (p : ec_params_usb_pd_rw_hash_entry)
    (s : HashState) (h : table_ok RW_HASH_ENTRIES s) :
    table_ok RW_HASH_ENTRIES (hc_remote_rw_hash_entry RW_HASH_ENTRIES p s).2 := by
  obtain ⟨hc, hnd, hz⟩ := h
  by_cases hp : p.dev_id = 0
  · unfold hc_remote_rw_hash_entry
    simp only [hp, if_true]
    exact ⟨hc, hnd, hz⟩
  · by_cases hpres : ∃ i, i < RW_HASH_ENTRIES ∧ (s.rw_hash_table i).dev_id = p.dev_id
    · obtain ⟨idx, hidx, hid, -, heq⟩ := rw_hash_entry_hit RW_HASH_ENTRIES p s hp hpres
      rw [heq]
      have hids : ∀ i, (store_entry s.rw_hash_table idx p i).dev_id
          = (s.rw_hash_table i).dev_id := by
        intro i
        unfold store_entry
        by_cases hi : i = idx
        · simp only [hi, if_true]; exact hid.symm
        · simp only [hi, if_false]
      refine ⟨hc, ?_, ?_⟩
      · intro i j hi hj he hne
        simp only [hids] at he hne
        exact hnd i j hi hj he hne
      · intro i hi
        show store_entry s.rw_hash_table idx p i = zero_entry
        unfold store_entry
        rw [if_neg (by omega)]
        exact hz i hi
    · have habs : ∀ i, i < RW_HASH_ENTRIES → (s.rw_hash_table i).dev_id ≠ p.dev_id :=
        fun i hi he => hpres ⟨i, hi, he⟩
      rw [rw_hash_entry_miss RW_HASH_ENTRIES p s hp habs]
      refine ⟨?_, ?_, ?_⟩
      · show (if s.rw_hash_next_idx + 1 = RW_HASH_ENTRIES then 0
          else s.rw_hash_next_idx + 1) < RW_HASH_ENTRIES
        by_cases hl : s.rw_hash_next_idx + 1 = RW_HASH_ENTRIES
        · simp only [hl, if_true]; omega
        · simp only [hl, if_false]; omega
      · intro i j hi hj he hne
        simp only [store_entry] at he hne
        by_cases hic : i = s.rw_hash_next_idx <;> by_cases hjc : j = s.rw_hash_next_idx
        · rw [hic, hjc]
        · simp only [hic, hjc, if_true, if_false] at he
          exact absurd he.symm (habs j hj)
        · simp only [hic, hjc, if_true, if_false] at he
          exact absurd he (habs i hi)
        · simp only [hic, hjc, if_false] at he hne
          exact hnd i j hi hj he hne
      · intro i hi
        show store_entry s.rw_hash_table s.rw_hash_next_idx p i = zero_entry
        unfold store_entry
        rw [if_neg (by omega)]
        exact hz i hi

theorem table_ok_upsert_all (RW_HASH_ENTRIES : Nat) :
    ∀ (ps : List ec_params_usb_pd_rw_hash_entry) (s : HashState),
      table_ok RW_HASH_ENTRIES s → table_ok RW_HASH_ENTRIES (upsert_all RW_HASH_ENTRIES ps s) := by
  intro ps
  induction ps with
  | nil => intro s h; exact h
  | cons p ps ih =>
    intro s h
    exact ih _ (table_ok_step RW_HASH_ENTRIES p s h)

/-- C18: for a table of at least one slot, starting from the all-zero table with
cursor 0, after every finite sequence of `hc_remote_rw_hash_entry` requests (any
`dev_id`s, zero and repeats included) no two different slots of `rw_hash_table`
hold the same non-zero `dev_id`, the cursor is within `0 .. RW_HASH_ENTRIES - 1`,
and nothing has been stored outside the table. -/
theorem rw_hash_table_invariant (RW_HASH_ENTRIES : Nat) (hN : 0 < RW_HASH_ENTRIES)
    (ps : List ec_params_usb_pd_rw_hash_entry) :
    (upsert_all RW_HASH_ENTRIES ps HashState.init).rw_hash_next_idx < RW_HASH_ENTRIES ∧
    (∀ i j, i < RW_HASH_ENTRIES → j < RW_HASH_ENTRIES →
      ((upsert_all RW_HASH_ENTRIES ps HashState.init).rw_hash_table i).dev_id
        = ((upsert_all RW_HASH_ENTRIES ps HashState.init).rw_hash_table j).dev_id →
      ((upsert_all RW_HASH_ENTRIES ps HashState.init).rw_hash_table i).dev_id ≠ 0 → i = j) ∧
    (∀ i, RW_HASH_ENTRIES ≤ i →
      (upsert_all RW_HASH_ENTRIES ps HashState.init).rw_hash_table i = zero_entry) :=
  table_ok_upsert_all RW_HASH_ENTRIES ps HashState.init
    ⟨hN, fun _ _ _ _ _ hne => absurd rfl hne, fun _ _ => rfl⟩

theorem rw_hash_table_invariant_witness :
    0 < 2 ∧
    (upsert_all 2 [entry5, entry0, entry6, entry5b, entry7] HashState.init).rw_hash_next_idx
      < 2 :=
  ⟨by decide, (rw_hash_table_invariant 2 (by decide)
    [entry5, entry0, entry6, entry5b, entry7]).1⟩

theorem upsert_stores (RW_HASH_ENTRIES : Nat) (p : ec_params_usb_pd_rw_hash_entry)
    (s : HashState) (h : table_ok RW_HASH_ENTRIES s) (hp : p.dev_id ≠ 0) :
    (hc_remote_rw_hash_entry RW_HASH_ENTRIES p s).1 = ec_status.EC_RES_SUCCESS ∧
    ∃ idx, idx < RW_HASH_ENTRIES ∧
      (hc_remote_rw_hash_entry RW_HASH_ENTRIES p s).2.rw_hash_table idx = p := by
  by_cases hpres : ∃ i, i < RW_HASH_ENTRIES ∧ (s.rw_hash_table i).dev_id = p.dev_id
  · obtain ⟨idx, hidx, -, -, heq⟩ := rw_hash_entry_hit RW_HASH_ENTRIES p s hp hpres
    rw [heq]
    exact ⟨rfl, idx, hidx, by simp [store_entry]⟩
  · have habs : ∀ i, i < RW_HASH_ENTRIES → (s.rw_hash_table i).dev_id ≠ p.dev_id :=
      fun i hi he => hpres ⟨i, hi, he⟩
    rw [rw_hash_entry_miss RW_HASH_ENTRIES p s hp habs]
    exact ⟨rfl, s.rw_hash_next_idx, h.1, by simp [store_entry]⟩

/-- C17: a request for a non-zero `dev_id` X that a slot of the table holds
returns `EC_RES_SUCCESS`, replaces the contents of the (first) slot holding X
with the request entry and leaves every other slot and the cursor unchanged.
Consequently, in a table without duplicates and with the cursor in range (every
table the handler can produce), a request (X, h1) followed by a request (X, h2)
succeeds twice and differs from the request (X, h1) alone in one slot only: the
same slots hold the same `dev_id`s, the cursor is the same, and the only slot
holding X holds the second entry. -/
theorem rw_hash_entry_overwrite (RW_HASH_ENTRIES : Nat) :
    (∀ (p : ec_params_usb_pd_rw_hash_entry) (s : HashState), p.dev_id ≠ 0 →
      (∃ i, i < RW_HASH_ENTRIES ∧ (s.rw_hash_table i).dev_id = p.dev_id) →
      ∃ idx, idx < RW_HASH_ENTRIES ∧ (s.rw_hash_table idx).dev_id = p.dev_id ∧
        (∀ j, j < idx → (s.rw_hash_table j).dev_id ≠ p.dev_id) ∧
        (hc_remote_rw_hash_entry RW_HASH_ENTRIES p s).1 = ec_status.EC_RES_SUCCESS ∧
        (hc_remote_rw_hash_entry RW_HASH_ENTRIES p s).2.rw_hash_table idx = p ∧
        (∀ j, j ≠ idx →
          (hc_remote_rw_hash_entry RW_HASH_ENTRIES p s).2.rw_hash_table j = s.rw_hash_table j) ∧
        (hc_remote_rw_hash_entry RW_HASH_ENTRIES p s).2.rw_hash_next_idx
          = s.rw_hash_next_idx) ∧
    (∀ (p1 p2 : ec_params_usb_pd_rw_hash_entry) (s : HashState),
      table_ok RW_HASH_ENTRIES s → p1.dev_id ≠ 0 → p2.dev_id = p1.dev_id →
      (hc_remote_rw_hash_entry RW_HASH_ENTRIES p1 s).1 = ec_status.EC_RES_SUCCESS ∧
      (hc_remote_rw_hash_entry RW_HASH_ENTRIES p2
        (hc_remote_rw_hash_entry RW_HASH_ENTRIES p1 s).2).1 = ec_status.EC_RES_SUCCESS ∧
      ∃ idx, idx < RW_HASH_ENTRIES ∧
        (hc_remote_rw_hash_entry RW_HASH_ENTRIES p1 s).2.rw_hash_table idx = p1 ∧
        (hc_remote_rw_hash_entry RW_HASH_ENTRIES p2
          (hc_remote_rw_hash_entry RW_HASH_ENTRIES p1 s).2).2.rw_hash_table idx = p2 ∧
        (∀ j, j ≠ idx →
          (hc_remote_rw_hash_entry RW_HASH_ENTRIES p2
            (hc_remote_rw_hash_entry RW_HASH_ENTRIES p1 s).2).2.rw_hash_table j
          = (hc_remote_rw_hash_entry RW_HASH_ENTRIES p1 s).2.rw_hash_table j) ∧
        (∀ j,
          ((hc_remote_rw_hash_entry RW_HASH_ENTRIES p2
            (hc_remote_rw_hash_entry RW_HASH_ENTRIES p1 s).2).2.rw_hash_table j).dev_id
          = ((hc_remote_rw_hash_entry RW_HASH_ENTRIES p1 s).2.rw_hash_table j).dev_id) ∧
        (hc_remote_rw_hash_entry RW_HASH_ENTRIES p2
          (hc_remote_rw_hash_entry RW_HASH_ENTRIES p1 s).2).2.rw_hash_next_idx
          = (hc_remote_rw_hash_entry RW_HASH_ENTRIES p1 s).2.rw_hash_next_idx ∧
        (∀ j, j < RW_HASH_ENTRIES →
          ((hc_remote_rw_hash_entry RW_HASH_ENTRIES p2
            (hc_remote_rw_hash_entry RW_HASH_ENTRIES p1 s).2).2.rw_hash_table j).dev_id
            = p1.dev_id → j = idx)) := by
  constructor
  · intro p s hp hpres
    obtain ⟨idx, hidx, hid, hfirst, heq⟩ := rw_hash_entry_hit RW_HASH_ENTRIES p s hp hpres
    rw [heq]
    exact ⟨idx, hidx, hid, hfirst, rfl, by simp [store_entry],
      fun j hj => by simp [store_entry, hj], rfl⟩
  · intro p1 p2 s hok hp1 hp2
    obtain ⟨hs1, idx, hidx, hst⟩ := upsert_stores RW_HASH_ENTRIES p1 s hok hp1
    have hok1 := table_ok_step RW_HASH_ENTRIES p1 s hok
    generalize (hc_remote_rw_hash_entry RW_HASH_ENTRIES p1 s).2 = s1 at hst hok1 ⊢
    have hpres : ∃ i, i < RW_HASH_ENTRIES ∧ (s1.rw_hash_table i).dev_id = p2.dev_id :=
      ⟨idx, hidx, by rw [hst, hp2]⟩
    have hp2n : p2.dev_id ≠ 0 := by rw [hp2]; exact hp1
    obtain ⟨idx2, hidx2, hid2, -, heq⟩ := rw_hash_entry_hit RW_HASH_ENTRIES p2 s1 hp2n hpres
    have hsame : idx2 = idx :=
      hok1.2.1 idx2 idx hidx2 hidx (by rw [hid2, hst, hp2]) (by rw [hid2]; exact hp2n)
    subst hsame
    rw [heq]
    refine ⟨hs1, rfl, idx2, hidx, hst, by simp [store_entry],
      fun j hj => by simp [store_entry, hj], ?_, rfl, ?_⟩
    · intro j
      by_cases hj : j = idx2
      · simp only [store_entry, hj, if_true]; rw [hst, hp2]
      · simp only [store_entry, hj, if_false]
    · intro j hj he
      by_cases hjx : j = idx2
      · exact hjx
      · simp only [store_entry, hjx, if_false] at he
        exact hok1.2.1 j idx2 hj hidx (by rw [he, hst]) (by rw [he]; exact hp1)

theorem rw_hash_entry_overwrite_witness :
    entry5.dev_id ≠ 0 ∧ entry5b.dev_id = entry5.dev_id ∧
    (hc_remote_rw_hash_entry 3 entry5b (hc_remote_rw_hash_entry 3 entry5 cursor_at_last).2).1
      = ec_status.EC_RES_SUCCESS ∧
    ∃ idx, idx < 3 ∧
      (hc_remote_rw_hash_entry 3 entry5 cursor_at_last).2.rw_hash_table idx = entry5 ∧
      (hc_remote_rw_hash_entry 3 entry5b
        (hc_remote_rw_hash_entry 3 entry5 cursor_at_last).2).2.rw_hash_table idx = entry5b := by
  obtain ⟨-, h2, idx, h3, h4, h5, -⟩ :=
    (rw_hash_entry_overwrite 3).2 entry5 entry5b cursor_at_last
      ⟨by decide, fun _ _ _ _ _ hne => absurd rfl hne, fun _ _ => rfl⟩ (by decide) rfl
  exact ⟨by decide, rfl, h2, idx, h3, h4, h5⟩

theorem upsert_all_append (RW_HASH_ENTRIES : Nat) :
    ∀ (ps qs : List ec_params_usb_pd_rw_hash_entry) (s : HashState),
      upsert_all RW_HASH_ENTRIES (ps ++ qs) s
        = upsert_all RW_HASH_ENTRIES qs (upsert_all RW_HASH_ENTRIES ps s) := by
  intro ps
  induction ps with
  | nil => intro qs s; rfl
  | cons p ps ih => intro qs s; exact ih qs _

theorem distinct_getD (qs : List ec_params_usb_pd_rw_hash_entry)
    (hd : qs.Pairwise (fun a b => a.dev_id ≠ b.dev_id)) (i j : Nat)
    (hi : i < qs.length) (hj : j < qs.length)
    (he : (qs.getD i zero_entry).dev_id = (qs.getD j zero_entry).dev_id) : i = j := by
  rw [List.getD_eq_getElem _ _ hi, List.getD_eq_getElem _ _ hj] at he
  rw [List.pairwise_iff_getElem] at hd
  rcases Nat.lt_trichotomy i j with h | h | h
  · exact absurd he (hd i j hi hj h)
  · exact h
  · exact absurd he.symm (hd j i hj hi h)

theorem absent_getD (qs : List ec_params_usb_pd_rw_hash_entry)
    (q : ec_params_usb_pd_rw_hash_entry) (hq : q.dev_id ≠ 0)
    (hd : ∀ a, a ∈ qs → a.dev_id ≠ q.dev_id) (i : Nat) :
    (qs.getD i zero_entry).dev_id ≠ q.dev_id := by
  by_cases hi : i < qs.length
  · rw [List.getD_eq_getElem _ _ hi]
    exact hd _ (List.getElem_mem hi)
  · rw [List.getD_eq_default _ _ (by omega)]
    exact fun e => hq e.symm

theorem upsert_all_fill (RW_HASH_ENTRIES : Nat) :
    ∀ (qs : List ec_params_usb_pd_rw_hash_entry), qs.length ≤ RW_HASH_ENTRIES →
      (∀ p, p ∈ qs → p.dev_id ≠ 0) → qs.Pairwise (fun a b => a.dev_id ≠ b.dev_id) →
      upsert_all RW_HASH_ENTRIES qs HashState.init =
        { rw_hash_table := fun i => qs.getD i zero_entry,
          rw_hash_next_idx := if qs.length = RW_HASH_ENTRIES then 0 else qs.length } := by
  intro qs
  induction qs using List.reverseRecOn with
  | nil =>
    intro _ _ _
    show HashState.init = _
    unfold HashState.init
    congr 1
    by_cases h : 0 = RW_HASH_ENTRIES <;> simp [h]
  | append_singleton qs q ih =>
    intro hlen hnz hd
    rw [List.length_append, List.length_singleton] at hlen
    obtain ⟨hd1, -, hd3⟩ := List.pairwise_append.1 hd
    have hq : q.dev_id ≠ 0 := hnz q (by simp)
    rw [upsert_all_append, ih (by omega) (fun p hp => hnz p (by simp [hp])) hd1]
    have hne : ¬ qs.length = RW_HASH_ENTRIES := by omega
    simp only [hne, if_false]
    show (hc_remote_rw_hash_entry RW_HASH_ENTRIES q _).2 = _
    rw [rw_hash_entry_miss RW_HASH_ENTRIES q _ hq
      (fun i _ => absent_getD qs q hq (fun a ha => hd3 a ha q (by simp)) i)]
    show HashState.mk _ _ = HashState.mk _ _
    congr 1
    · funext i
      unfold store_entry
      by_cases hi : i = qs.length
      · simp only [hi, if_true]
        rw [List.getD_append_right _ _ _ _ (Nat.le_refl _), Nat.sub_self]
        rfl
      · simp only [hi, if_false]
        by_cases hlt : i < qs.length
        · rw [List.getD_append _ _ _ _ hlt]
        · rw [List.getD_eq_default _ _ (by omega),
            List.getD_eq_default _ _ (by rw [List.length_append, List.length_singleton]; omega)]
    · rw [List.length_append, List.length_singleton]

/-- C16: from the start-up state (all-zero table, cursor 0), after
`RW_HASH_ENTRIES + 1` requests with pairwise distinct non-zero `dev_id`s (the
first `RW_HASH_ENTRIES` are `qs`, the last is `q`) the table holds the last entry
in slot 0 and the entry number `i` in every other slot `i`; so no slot holds the
`dev_id` inserted first, and each of the other `RW_HASH_ENTRIES` entries is in
the table in exactly one slot, with exactly the data it was inserted with. -/
theorem rw_hash_fifo_eviction (RW_HASH_ENTRIES : Nat) (hN : 0 < RW_HASH_ENTRIES)
    (qs : List ec_params_usb_pd_rw_hash_entry) (q : ec_params_usb_pd_rw_hash_entry)
    (hlen : qs.length = RW_HASH_ENTRIES) (hnz : ∀ p, p ∈ qs ++ [q] → p.dev_id ≠ 0)
    (hdist : (qs ++ [q]).Pairwise (fun a b => a.dev_id ≠ b.dev_id)) :
    let s := upsert_all RW_HASH_ENTRIES (qs ++ [q]) HashState.init
    (∀ i, i < RW_HASH_ENTRIES →
      s.rw_hash_table i = if i = 0 then q else qs.getD i zero_entry) ∧
    (∀ i, i < RW_HASH_ENTRIES →
      (s.rw_hash_table i).dev_id ≠ (qs.getD 0 zero_entry).dev_id) ∧
    (∀ k, 0 < k → k < RW_HASH_ENTRIES →
      s.rw_hash_table k = qs.getD k zero_entry ∧
      ∀ j, j < RW_HASH_ENTRIES →
        (s.rw_hash_table j).dev_id = (qs.getD k zero_entry).dev_id → j = k) ∧
    (s.rw_hash_table 0 = q ∧
      ∀ j, j < RW_HASH_ENTRIES → (s.rw_hash_table j).dev_id = q.dev_id → j = 0) := by
  intro s
  obtain ⟨hd1, -, hd3⟩ := List.pairwise_append.1 hdist
  have hq : q.dev_id ≠ 0 := hnz q (by simp)
  have habs : ∀ i, (qs.getD i zero_entry).dev_id ≠ q.dev_id :=
    absent_getD qs q hq (fun a ha => hd3 a ha q (by simp))
  have hs : s = { rw_hash_table := store_entry (fun i => qs.getD i zero_entry) 0 q,
                  rw_hash_next_idx := if 0 + 1 = RW_HASH_ENTRIES then 0 else 0 + 1 } := by
    show upsert_all RW_HASH_ENTRIES (qs ++ [q]) HashState.init = _
    rw [upsert_all_append,
      upsert_all_fill RW_HASH_ENTRIES qs (by omega) (fun p hp => hnz p (by simp [hp])) hd1]
    simp only [hlen, if_true]
    show (hc_remote_rw_hash_entry RW_HASH_ENTRIES q _).2 = _
    rw [rw_hash_entry_miss RW_HASH_ENTRIES q _ hq (fun i _ => habs i)]
  have htab : ∀ i, s.rw_hash_table i = if i = 0 then q else qs.getD i zero_entry := by
    intro i
    rw [hs]
    rfl
  refine ⟨fun i _ => htab i, ?_, ?_, ?_⟩
  · intro i hi
    rw [htab]
    by_cases h0 : i = 0
    · simp only [h0, if_true]
      exact fun e => habs 0 e.symm
    · simp only [h0, if_false]
      intro e
      exact h0 (distinct_getD qs hd1 i 0 (by omega) (by omega) e)
  · intro k hk0 hk
    refine ⟨by rw [htab, if_neg (by omega)], ?_⟩
    intro j hj he
    rw [htab] at he
    by_cases h0 : j = 0
    · simp only [h0, if_true] at he
      exact absurd he.symm (habs k)
    · simp only [h0, if_false] at he
      exact distinct_getD qs hd1 j k (by omega) (by omega) he
  · refine ⟨by rw [htab, if_pos rfl], ?_⟩
    intro j _ he
    rw [htab] at he
    by_cases h0 : j = 0
    · exact h0
    · simp only [h0, if_false] at he
      exact absurd he (habs j)

theorem rw_hash_fifo_eviction_witness :
    0 < 2 ∧ [entry5, entry6].length = 2 ∧
    (∀ p, p ∈ [entry5, entry6] ++ [entry7] → p.dev_id ≠ 0) ∧
    ([entry5, entry6] ++ [entry7]).Pairwise (fun a b => a.dev_id ≠ b.dev_id) ∧
    (upsert_all 2 ([entry5, entry6] ++ [entry7]) HashState.init).rw_hash_table 0 = entry7 ∧
    (upsert_all 2 ([entry5, entry6] ++ [entry7]) HashState.init).rw_hash_table 1 = entry6 ∧
    (∀ i, i < 2 →
      ((upsert_all 2 ([entry5, entry6] ++ [entry7]) HashState.init).rw_hash_table i).dev_id
        ≠ entry5.dev_id) := by
  have h := rw_hash_fifo_eviction 2 (by decide) [entry5, entry6] entry7 rfl (by decide)
    (by decide)
  exact ⟨by decide, rfl, by decide, by decide, h.2.2.2.1, (h.2.2.1 1 (by decide) (by decide)).1,
    h.2.1⟩

/-! ## Chip information -/

theorem memcpy_take (dest src : List Nat) (n : Nat) (h : n ≤ src.length) :
    (memcpy dest src n).take n = src.take n := by
  unfold memcpy
  exact List.take_left' (by rw [List.length_take]; omega)

/-- C20: for a valid port on which `tcpm_get_chip_info` succeeds with the same
chip-info struct (`sizeof_v1` bytes) for both requests, and with the v0 struct
no larger than the v1 struct, the version 0 request succeeds with
`response_size = sizeof_v0`, the version 1 request succeeds with
`response_size = sizeof_v1`, and the response bytes of the version 0 request are
the first `sizeof_v0` bytes of the response of the version 1 request (both are
the first bytes of the chip-info struct). -/
theorem pd_chip_info_v0_is_prefix (port_count : Nat)
    (tcpm_get_chip_info : Nat → Nat → Nat × List Nat) (sizeof_v0 sizeof_v1 : Nat)
    (p : ec_params_pd_chip_info) (info : List Nat) (args0 args1 : host_cmd_handler_args)
    (hsize : sizeof_v0 ≤ sizeof_v1) (hport : p.port < port_count)
    (hinfo : tcpm_get_chip_info p.port p.live = (0, info)) (hlen : info.length = sizeof_v1)
    (hv0 : args0.version = 0) (hv1 : args1.version = 1) :
    let r0 := hc_remote_pd_chip_info port_count tcpm_get_chip_info sizeof_v0 sizeof_v1 p args0
    let r1 := hc_remote_pd_chip_info port_count tcpm_get_chip_info sizeof_v0 sizeof_v1 p args1
    r0.1 = ec_status.EC_RES_SUCCESS ∧ r1.1 = ec_status.EC_RES_SUCCESS ∧
    r0.2.response_size = sizeof_v0 ∧ r1.2.response_size = sizeof_v1 ∧
    r0.2.response.take r0.2.response_size
      = (r1.2.response.take r1.2.response_size).take sizeof_v0 ∧
    r0.2.response.take r0.2.response_size = info.take sizeof_v0 ∧
    r1.2.response.take r1.2.response_size = info := by
  intro r0 r1
  have hnp : ¬ p.port ≥ port_count := by omega
  have h0 : r0 = (ec_status.EC_RES_SUCCESS,
      { args0 with response_size := sizeof_v0,
                   response := memcpy args0.response info sizeof_v0 }) := by
    show hc_remote_pd_chip_info port_count tcpm_get_chip_info sizeof_v0 sizeof_v1 p args0 = _
    unfold hc_remote_pd_chip_info
    simp only [hnp, if_false, hinfo, ne_eq, not_true_eq_false, hv0]
  have h1 : r1 = (ec_status.EC_RES_SUCCESS,
      { args1 with response_size := sizeof_v1,
                   response := memcpy args1.response info sizeof_v1 }) := by
    show hc_remote_pd_chip_info port_count tcpm_get_chip_info sizeof_v0 sizeof_v1 p args1 = _
    unfold hc_remote_pd_chip_info
    simp only [hnp, if_false, hinfo, ne_eq, not_true_eq_false, hv1, one_ne_zero,
      not_false_eq_true, if_true]
  have ht0 : r0.2.response.take r0.2.response_size = info.take sizeof_v0 := by
    rw [h0]
    show (memcpy args0.response info sizeof_v0).take sizeof_v0 = info.take sizeof_v0
    exact memcpy_take _ _ _ (by omega)
  have ht1 : r1.2.response.take r1.2.response_size = info := by
    rw [h1]
    show (memcpy args1.response info sizeof_v1).take sizeof_v1 = info
    rw [memcpy_take _ _ _ (by omega), ← hlen, List.take_length]
  refine ⟨by rw [h0], by rw [h1], by rw [h0], by rw [h1], ?_, ht0, ht1⟩
  rw [ht0, ht1]

theorem pd_chip_info_v0_is_prefix_witness :
    4 ≤ 8 ∧ (⟨0, 0⟩ : ec_params_pd_chip_info).port < 2 ∧
    sample_chip_info 0 0 = (0, [1, 2, 3, 4, 5, 6, 7, 8]) ∧
    (hc_remote_pd_chip_info 2 sample_chip_info 4 8 ⟨0, 0⟩ args_v0).2.response_size = 4 ∧
    (hc_remote_pd_chip_info 2 sample_chip_info 4 8 ⟨0, 0⟩ args_v0).2.response.take
        (hc_remote_pd_chip_info 2 sample_chip_info 4 8 ⟨0, 0⟩ args_v0).2.response_size
      = ((hc_remote_pd_chip_info 2 sample_chip_info 4 8 ⟨0, 0⟩ args_v1).2.response.take
          (hc_remote_pd_chip_info 2 sample_chip_info 4 8 ⟨0, 0⟩ args_v1).2.response_size).take
          4 := by
  have h := pd_chip_info_v0_is_prefix 2 sample_chip_info 4 8 ⟨0, 0⟩ [1, 2, 3, 4, 5, 6, 7, 8]
    args_v0 args_v1 (by decide) (by decide) rfl rfl rfl rfl
  exact ⟨by decide, by decide, rfl, h.2.2.1, h.2.2.2.2.1⟩

/-- C21: for every chip-info request, when the port is not below
`board_get_usb_pd_port_count()` the handler returns `EC_RES_INVALID_PARAM` with
the arguments (response and response size) untouched, whatever
`tcpm_get_chip_info` would answer, so without consulting it; otherwise, when
`tcpm_get_chip_info` fails, it returns `EC_RES_ERROR` with the arguments
untouched; otherwise it returns `EC_RES_SUCCESS`. The status is always one of
these three. -/
theorem pd_chip_info_status (port_count : Nat)
    (tcpm_get_chip_info : Nat → Nat → Nat × List Nat) (sizeof_v0 sizeof_v1 : Nat)
    (p : ec_params_pd_chip_info) (args : host_cmd_handler_args) :
    (p.port ≥ port_count →
      ∀ g : Nat → Nat → Nat × List Nat,
        hc_remote_pd_chip_info port_count g sizeof_v0 sizeof_v1 p args
          = (ec_status.EC_RES_INVALID_PARAM, args)) ∧
    (p.port < port_count → (tcpm_get_chip_info p.port p.live).1 ≠ 0 →
      hc_remote_pd_chip_info port_count tcpm_get_chip_info sizeof_v0 sizeof_v1 p args
        = (ec_status.EC_RES_ERROR, args)) ∧
    (p.port < port_count → (tcpm_get_chip_info p.port p.live).1 = 0 →
      (hc_remote_pd_chip_info port_count tcpm_get_chip_info sizeof_v0 sizeof_v1 p args).1
        = ec_status.EC_RES_SUCCESS) ∧
    ((hc_remote_pd_chip_info port_count tcpm_get_chip_info sizeof_v0 sizeof_v1 p args).1
        = ec_status.EC_RES_INVALID_PARAM ∨
     (hc_remote_pd_chip_info port_count tcpm_get_chip_info sizeof_v0 sizeof_v1 p args).1
        = ec_status.EC_RES_ERROR ∨
     (hc_remote_pd_chip_info port_count tcpm_get_chip_info sizeof_v0 sizeof_v1 p args).1
        = ec_status.EC_RES_SUCCESS) := by
  have hinv : p.port ≥ port_count → ∀ g : Nat → Nat → Nat × List Nat,
      hc_remote_pd_chip_info port_count g sizeof_v0 sizeof_v1 p args
        = (ec_status.EC_RES_INVALID_PARAM, args) := by
    intro hp g
    unfold hc_remote_pd_chip_info
    rw [if_pos hp]
  have herr : p.port < port_count → (tcpm_get_chip_info p.port p.live).1 ≠ 0 →
      hc_remote_pd_chip_info port_count tcpm_get_chip_info sizeof_v0 sizeof_v1 p args
        = (ec_status.EC_RES_ERROR, args) := by
    intro hp hrv
    unfold hc_remote_pd_chip_info
    rw [if_neg (Nat.not_le.2 hp)]
    simp only [hrv, ne_eq, not_false_eq_true, if_true]
  have hok : p.port < port_count → (tcpm_get_chip_info p.port p.live).1 = 0 →
      (hc_remote_pd_chip_info port_count tcpm_get_chip_info sizeof_v0 sizeof_v1 p args).1
        = ec_status.EC_RES_SUCCESS := by
    intro hp hrv
    unfold hc_remote_pd_chip_info
    rw [if_neg (Nat.not_le.2 hp)]
    simp only [hrv, ne_eq, not_true_eq_false, if_false]
  refine ⟨hinv, herr, hok, ?_⟩
  by_cases hp : p.port ≥ port_count
  · left
    rw [hinv hp tcpm_get_chip_info]
  · by_cases hrv : (tcpm_get_chip_info p.port p.live).1 = 0
    · right; right
      exact hok (Nat.not_le.1 hp) hrv
    · right; left
      rw [herr (Nat.not_le.1 hp) hrv]

theorem pd_chip_info_status_witness :
    hc_remote_pd_chip_info 2 sample_chip_info 4 8 { port := 2, live := 0 } args_v1
      = (ec_status.EC_RES_INVALID_PARAM, args_v1) ∧
    hc_remote_pd_chip_info 2 sample_chip_info 4 8 { port := 1, live := 0 } args_v1
      = (ec_status.EC_RES_ERROR, args_v1) ∧
    (hc_remote_pd_chip_info 2 sample_chip_info 4 8 { port := 0, live := 0 } args_v1).1
      = ec_status.EC_RES_SUCCESS :=
  ⟨(pd_chip_info_status 2 sample_chip_info 4 8 { port := 2, live := 0 } args_v1).1
      (by decide) sample_chip_info,
    (pd_chip_info_status 2 sample_chip_info 4 8 { port := 1, live := 0 } args_v1).2.1
      (by decide) (by decide),
    (pd_chip_info_status 2 sample_chip_info 4 8 { port := 0, live := 0 } args_v1).2.2.1
      (by decide) (by decide)⟩

end UsbPdHostCmd

namespace UsbcTask

/-! ## The port task -/

theorem call_trace {σ : Type} (f : Mem σ → Mem σ) (c : Call) (s : State σ) :
    (call f c s).trace = s.trace ++ [c] := rfl

theorem call_mem {σ : Type} (f : Mem σ → Mem σ) (c : Call) (s : State σ) :
    (call f c s).mem = f s.mem := rfl

theorem call_pd_int_task_id {σ : Type} (f : Mem σ → Mem σ) (c : Call) (s : State σ) :
    (call f c s).pd_int_task_id = s.pd_int_task_id := rfl

theorem head_evt {σ : Type} (e : Env σ) (port : Nat) (s : State σ) :
    (pd_task_iteration_head e port s).1
      = (e.task_wait_event (if s.mem.paused port ≠ 0 then -1 else USBC_EVENT_TIMEOUT)
          s.mem).1 := rfl

theorem head_trace {σ : Type} (e : Env σ) (port : Nat) (s : State σ) :
    (pd_task_iteration_head e port s).2.trace
      = s.trace ++ ([Call.task_wait_event (pass_of e port s).timeout (pass_of e port s).evt,
          Call.tc_event_check port (pass_of e port s).evt] ++
        (if e.CONFIG_USB_PD_TCPC then [Call.tcpc_run port (pass_of e port s).evt] else [])) := by
  unfold pass_of pd_task_iteration_head task_wait_event
  by_cases h : e.CONFIG_USB_PD_TCPC = true
  · simp [h, call]
  · simp [h, call]

theorem iteration_trace {σ : Type} (e : Env σ) (port : Nat) (s : State σ) :
    (pd_task_iteration e port s).trace
      = s.trace ++ pass_calls e.CONFIG_USB_PD_TCPC e.CONFIG_USB_PE_SM e.CONFIG_USB_PRL_SM
          port (pass_of e port s) := by
  have hh := head_trace e port s
  unfold pd_task_iteration pass_calls
  cases hpe : e.CONFIG_USB_PE_SM <;> cases hprl : e.CONFIG_USB_PRL_SM <;>
    simp [call_trace, call_mem, hh, pass_of, hpe]

theorem loop_succ {σ : Type} (e : Env σ) (port n : Nat) (s : State σ) :
    pd_task_loop e port (n + 1) s = pd_task_iteration e port (pd_task_loop e port n s) := by
  induction n generalizing s with
  | zero => rfl
  | succ n ih =>
    show pd_task_loop e port (n + 1) (pd_task_iteration e port s) = _
    rw [ih]
    rfl

theorem run_calls_append (tcpc pe prl : Bool) (p : Nat) (l1 l2 : List Pass) :
    run_calls tcpc pe prl p (l1 ++ l2)
      = run_calls tcpc pe prl p l1 ++ run_calls tcpc pe prl p l2 := by
  induction l1 with
  | nil => rfl
  | cons i l1 ih => simp [run_calls, ih]

theorem passes_succ {σ : Type} (e : Env σ) (port n : Nat) (s : State σ) :
    passes e port (n + 1) s
      = passes e port n s ++ [pass_of e port (pd_task_loop e port n s)] := by
  simp [passes, List.range_succ]

theorem loop_trace {σ : Type} (e : Env σ) (port n : Nat) (s : State σ) :
    (pd_task_loop e port n s).trace
      = s.trace ++ run_calls e.CONFIG_USB_PD_TCPC e.CONFIG_USB_PE_SM e.CONFIG_USB_PRL_SM
          port (passes e port n s) := by
  induction n with
  | zero => simp [pd_task_loop, passes, run_calls]
  | succ n ih =>
    rw [loop_succ, iteration_trace, ih, passes_succ, run_calls_append]
    simp [run_calls]

theorem wait_timeouts_append (l1 l2 : List Call) :
    wait_timeouts (l1 ++ l2) = wait_timeouts l1 ++ wait_timeouts l2 := by
  simp [wait_timeouts, List.filterMap_append]

theorem wait_timeouts_pass (tcpc pe prl : Bool) (p : Nat) (i : Pass) :
    wait_timeouts (pass_calls tcpc pe prl p i) = [i.timeout] := by
  cases tcpc <;> cases pe <;> cases prl <;>
    simp [wait_timeouts, pass_calls, Call.wait_timeout, List.filterMap_cons]

theorem wait_timeouts_run (tcpc pe prl : Bool) (p : Nat) (l : List Pass) :
    wait_timeouts (run_calls tcpc pe prl p l) = l.map Pass.timeout := by
  induction l with
  | nil => rfl
  | cons i l ih => simp [run_calls, wait_timeouts_append, wait_timeouts_pass, ih]

theorem new_trace (l1 l2 : List Call) : (l1 ++ l2).drop l1.length = l2 := by
  simp

theorem loop_timeouts {σ : Type} (e : Env σ) (p n : Nat) (s : State σ) :
    wait_timeouts ((pd_task_loop e p n s).trace.drop s.trace.length)
      = (List.range n).map fun i =>
          if (pd_task_loop e p i s).mem.paused p ≠ 0 then (-1 : Int) else 5000 := by
  rw [loop_trace, new_trace, wait_timeouts_run, passes, List.map_map]
  rfl

theorem iteration_timeout {σ : Type} (e : Env σ) (p : Nat) (s : State σ) :
    wait_timeouts ((pd_task_iteration e p s).trace.drop s.trace.length)
      = [if s.mem.paused p ≠ 0 then (-1 : Int) else 5000] := by
  rw [iteration_trace, new_trace, wait_timeouts_pass]
  rfl

/-- C22: the waits that `pd_task` for port `p` makes in its first `n` passes use,
in order, the timeout -1 (no timeout) when `paused[p]` is set at the start of the
pass and 5000 microseconds when it is clear, and there is one wait per pass;
`tc_pause_event_loop(p)` sets `paused[p]` and changes nothing else (no flag of
another port, nothing outside, no call), so the wait of a pass that starts right
after it uses -1, and the wait of a pass that starts right after
`tc_start_event_loop(p)` uses 5000 microseconds. -/
theorem paused_wait_timeout {σ : Type} (e : Env σ) (p : Nat) (s : State σ) :
    (∀ n, wait_timeouts ((pd_task_loop e p n s).trace.drop s.trace.length)
      = (List.range n).map fun i =>
          if (pd_task_loop e p i s).mem.paused p ≠ 0 then (-1 : Int) else 5000) ∧
    (tc_pause_event_loop p s).mem.paused p = 1 ∧
    (∀ q, q ≠ p → (tc_pause_event_loop p s).mem.paused q = s.mem.paused q) ∧
    (tc_pause_event_loop p s).mem.world = s.mem.world ∧
    (tc_pause_event_loop p s).pd_int_task_id = s.pd_int_task_id ∧
    (tc_pause_event_loop p s).trace = s.trace ∧
    wait_timeouts ((pd_task_iteration e p (tc_pause_event_loop p s)).trace.drop
      s.trace.length) = [-1] ∧
    wait_timeouts ((pd_task_iteration e p (tc_start_event_loop e p s)).trace.drop
      (tc_start_event_loop e p s).trace.length) = [5000] := by
  refine ⟨fun n => loop_timeouts e p n s, ?_, ?_, rfl, rfl, rfl, ?_, ?_⟩
  · simp [tc_pause_event_loop]
  · intro q hq
    simp [tc_pause_event_loop, hq]
  · have h := iteration_timeout e p (tc_pause_event_loop p s)
    rw [show (tc_pause_event_loop p s).mem.paused p = 1 by simp [tc_pause_event_loop]] at h
    exact h
  · have h := iteration_timeout e p (tc_start_event_loop e p s)
    rw [show (tc_start_event_loop e p s).mem.paused p = 0 by
      simp [tc_start_event_loop, task_set_event]] at h
    exact h

theorem paused_wait_timeout_witness :
    wait_timeouts ((pd_task_loop ec_env 0 2 (tc_pause_event_loop 0 state0)).trace.drop
      (tc_pause_event_loop 0 state0).trace.length) = [-1, -1] ∧
    wait_timeouts ((pd_task_loop ec_env 0 2 state0).trace.drop state0.trace.length)
      = [5000, 5000] :=
  ⟨(paused_wait_timeout ec_env 0 (tc_pause_event_loop 0 state0)).1 2,
    (paused_wait_timeout ec_env 0 state0).1 2⟩

/-- C23, counterexample: with `TASK_EVENT_WAKE` the bit 29, the one event that
`tc_start_event_loop(0)` posts to the task of port 0 is 536870912, and the next
wait of that task returns this value to the pass: the event value delivered with
the wake is not empty. -/
theorem start_event_loop_wake_is_not_empty :
    posted_events ((tc_start_event_loop ec_env 0 state0).trace.drop state0.trace.length)
      = [(ec_env.PD_PORT_TO_TASK_ID 0, 536870912)] ∧
    (pass_of ec_env 0 (tc_start_event_loop ec_env 0 state0)).evt = 536870912 ∧
    ¬ (pass_of ec_env 0 (tc_start_event_loop ec_env 0 state0)).evt = 0 := by
  refine ⟨by decide, by decide, by decide⟩

/-- C23, corrected: `tc_start_event_loop(p)` clears `paused[p]`, leaves the flag
of every other port as it was and makes exactly one call,
`task_set_event(PD_PORT_TO_TASK_ID(p), TASK_EVENT_WAKE, 0)`: one event is posted,
to the task of port `p`, and its value is `TASK_EVENT_WAKE`; the 0 is the last
argument of the call, not the event. -/
theorem start_event_loop_posts_wake {σ : Type} (e : Env σ) (p : Nat) (s : State σ) :
    (tc_start_event_loop e p s).mem.paused p = 0 ∧
    (∀ q, q ≠ p → (tc_start_event_loop e p s).mem.paused q = s.mem.paused q) ∧
    (tc_start_event_loop e p s).trace
      = s.trace ++ [Call.task_set_event (e.PD_PORT_TO_TASK_ID p) e.TASK_EVENT_WAKE 0] ∧
    posted_events ((tc_start_event_loop e p s).trace.drop s.trace.length)
      = [(e.PD_PORT_TO_TASK_ID p, e.TASK_EVENT_WAKE)] ∧
    (tc_start_event_loop e p s).mem.world
      = e.task_set_event (e.PD_PORT_TO_TASK_ID p) e.TASK_EVENT_WAKE 0 s.mem.world := by
  refine ⟨?_, ?_, rfl, ?_, rfl⟩
  · simp [tc_start_event_loop, task_set_event]
  · intro q hq
    simp [tc_start_event_loop, task_set_event, hq]
  · simp [tc_start_event_loop, task_set_event, posted_events]

theorem start_trace {σ : Type} (e : Env σ) (s : State σ) :
    (pd_task_start e s).2.trace
      = s.trace ++ start_calls e.CONFIG_USBC_PPC e.HAS_DEFFERED_INTERRUPT_HANDLER
          (pd_task_start e s).1 (s.pd_int_task_id (pd_task_start e s).1) := by
  unfold pd_task_start start_calls schedule_deferred_pd_interrupt task_set_event
  cases hppc : e.CONFIG_USBC_PPC <;> cases hdef : e.HAS_DEFFERED_INTERRUPT_HANDLER <;>
    simp [call]

/-- C24: the calls of `pd_task` up to the end of pass `n` of its loop, for every
`n`, are: `tc_state_init(p)`, then `ppc_init(p)` when a PPC is configured, then
one `task_set_event(pd_int_task_id[p], PD_PROCESS_INTERRUPT, 0)` (the body of
`schedule_deferred_pd_interrupt(p)`) when the deferred interrupt handler is in
use, and then `n` passes, each made of the wait that returns `evt`,
`tc_event_check(p, evt)`, `tcpc_run(p, evt)` when configured, `pe_run(p, evt, _)`
when configured, `prl_run(p, evt, _)` when configured and `tc_run(p)` last, where
`p` is the port of the running task and `evt` is what the wait of that pass
returned. -/
theorem pd_task_call_trace {σ : Type} (e : Env σ) (n : Nat) (s : State σ) :
    (pd_task_start e s).1 = e.TASK_ID_TO_PD_PORT (e.task_get_current s.mem.world) ∧
    (passes e (pd_task_start e s).1 n (pd_task_start e s).2).length = n ∧
    (pd_task e n s).trace
      = s.trace ++
        start_calls e.CONFIG_USBC_PPC e.HAS_DEFFERED_INTERRUPT_HANDLER
          (pd_task_start e s).1 (s.pd_int_task_id (pd_task_start e s).1) ++
        run_calls e.CONFIG_USB_PD_TCPC e.CONFIG_USB_PE_SM e.CONFIG_USB_PRL_SM
          (pd_task_start e s).1 (passes e (pd_task_start e s).1 n (pd_task_start e s).2) ∧
    ∀ s1 : State σ, (pass_of e (pd_task_start e s).1 s1).evt
      = (e.task_wait_event (pass_of e (pd_task_start e s).1 s1).timeout s1.mem).1 := by
  refine ⟨rfl, by simp [passes], ?_, fun s1 => rfl⟩
  unfold pd_task
  rw [loop_trace, start_trace]

theorem pd_task_call_trace_witness :
    (pd_task ec_env 2 state0).trace
      = [Call.tc_state_init 0, Call.ppc_init 0, Call.task_set_event 3 1 0,
         Call.task_wait_event 5000 0, Call.tc_event_check 0 0, Call.tcpc_run 0 0,
         Call.pe_run 0 0 1, Call.prl_run 0 0 1, Call.tc_run 0,
         Call.task_wait_event 5000 0, Call.tc_event_check 0 0, Call.tcpc_run 0 0,
         Call.pe_run 0 0 1, Call.prl_run 0 0 1, Call.tc_run 0] :=
  (pd_task_call_trace ec_env 2 state0).2.2.1.trans (by decide)

/-- C26, counterexample: with a policy engine step that turns PD off, the pass
of `pd_task` that starts in `state0` gives 1 to `pe_run` and 0 to `prl_run`. -/
theorem prl_run_flag_differs_from_pe_run_flag :
    (pd_task_iteration pe_disables_pd 0 state0).trace
      = [Call.task_wait_event 5000 0, Call.tc_event_check 0 0, Call.tcpc_run 0 0,
         Call.pe_run 0 0 1, Call.prl_run 0 0 0, Call.tc_run 0] ∧
    pe_disables_pd.CONFIG_USB_PE_SM = true ∧ pe_disables_pd.CONFIG_USB_PRL_SM = true ∧
    (pass_of pe_disables_pd 0 state0).pe_enabled ≠ (pass_of pe_disables_pd 0 state0).prl_enabled := by
  refine ⟨by decide, rfl, rfl, by decide⟩

/-- C26, corrected: in a pass of the loop of `pd_task` with the policy engine and
the protocol layer configured, `pe_run` gets the value of
`tc_get_pd_enabled(port)` read before it is called and `prl_run` gets the value
of `tc_get_pd_enabled(port)` read after `pe_run` has returned; the two values
are the same whenever the `pe_run` step leaves the flag as it was. -/
theorem prl_run_flag_read_after_pe_run {σ : Type} (e : Env σ) (p : Nat) (s : State σ)
    (hpe : e.CONFIG_USB_PE_SM = true) (hprl : e.CONFIG_USB_PRL_SM = true) :
    (pd_task_iteration e p s).trace
      = (pd_task_iteration_head e p s).2.trace ++
        [Call.pe_run p (pd_task_iteration_head e p s).1
            (e.tc_get_pd_enabled p (pd_task_iteration_head e p s).2.mem.world),
         Call.prl_run p (pd_task_iteration_head e p s).1
            (e.tc_get_pd_enabled p
              (e.pe_run p (pd_task_iteration_head e p s).1
                (e.tc_get_pd_enabled p (pd_task_iteration_head e p s).2.mem.world)
                (pd_task_iteration_head e p s).2.mem).world),
         Call.tc_run p] ∧
    ((∀ evt en m, e.tc_get_pd_enabled p (e.pe_run p evt en m).world
        = e.tc_get_pd_enabled p m.world) →
      (pass_of e p s).prl_enabled = (pass_of e p s).pe_enabled) := by
  refine ⟨?_, ?_⟩
  · unfold pd_task_iteration
    simp [hpe, hprl, call]
  · intro hkeep
    simp only [pass_of, hpe, if_true]
    exact hkeep _ _ _

theorem prl_run_flag_read_after_pe_run_witness :
    ec_env.CONFIG_USB_PE_SM = true ∧ ec_env.CONFIG_USB_PRL_SM = true ∧
    (pd_task_iteration ec_env 0 state0).trace
      = [Call.task_wait_event 5000 0, Call.tc_event_check 0 0, Call.tcpc_run 0 0,
         Call.pe_run 0 0 1, Call.prl_run 0 0 1, Call.tc_run 0] ∧
    (pass_of ec_env 0 state0).prl_enabled = (pass_of ec_env 0 state0).pe_enabled :=
  ⟨rfl, rfl, (prl_run_flag_read_after_pe_run ec_env 0 state0 rfl rfl).1.trans (by decide),
    (prl_run_flag_read_after_pe_run ec_env 0 state0 rfl rfl).2 (fun _ _ _ => rfl)⟩

/-! ## The interrupt task -/

theorem alert_pending_clear {σ : Type} (e : Env σ) (port : Nat) (s : State σ)
    (h : e.tcpc_get_alert_status s.mem.world &&& (e.PD_STATUS_TCPC_ALERT_0 <<< port) = 0) :
    alert_pending e port s
      = (false, { s with trace := s.trace ++
          [Call.tcpc_get_alert_status (e.tcpc_get_alert_status s.mem.world)] }) := by
  unfold alert_pending
  simp [h]

theorem alert_pending_set {σ : Type} (e : Env σ) (port : Nat) (s : State σ)
    (h : e.tcpc_get_alert_status s.mem.world &&& (e.PD_STATUS_TCPC_ALERT_0 <<< port) ≠ 0) :
    alert_pending e port s
      = (decide (e.pd_is_port_enabled port s.mem.world ≠ 0),
          { s with trace := s.trace ++
            [Call.tcpc_get_alert_status (e.tcpc_get_alert_status s.mem.world),
             Call.pd_is_port_enabled port (e.pd_is_port_enabled port s.mem.world)] }) := by
  unfold alert_pending
  simp [h]

theorem drain_calls_round (port mask v : Nat) (en : Int) (rest : List Call)
    (hv : v &&& mask ≠ 0) (hen : en ≠ 0) :
    drain_calls port mask (Call.tcpc_get_alert_status v :: Call.pd_is_port_enabled port en ::
      Call.tcpc_alert port :: rest) = drain_calls port mask rest := by
  simp [drain_calls, hv, hen]

theorem drain_shape {σ : Type} (e : Env σ) (port fuel : Nat) (s s1 : State σ)
    (h : drain_alerts e port fuel s = some s1) :
    ∃ l, s1.trace = s.trace ++ l ∧
      drain_calls port (e.PD_STATUS_TCPC_ALERT_0 <<< port) l = true := by
  induction fuel generalizing s with
  | zero => simp [drain_alerts] at h
  | succ fuel ih =>
    unfold drain_alerts at h
    by_cases hv : e.tcpc_get_alert_status s.mem.world
        &&& (e.PD_STATUS_TCPC_ALERT_0 <<< port) = 0
    · rw [alert_pending_clear e port s hv] at h
      simp only [Bool.false_eq_true, if_false, Option.some.injEq] at h
      subst h
      exact ⟨_, rfl, by simp [drain_calls, hv]⟩
    · rw [alert_pending_set e port s hv] at h
      by_cases hen : e.pd_is_port_enabled port s.mem.world = 0
      · simp only [hen, ne_eq, not_true_eq_false, decide_False, Bool.false_eq_true,
          if_false, Option.some.injEq] at h
        subst h
        exact ⟨_, rfl, by simp [drain_calls, hv]⟩
      · simp only [hen, ne_eq, not_false_eq_true, decide_True, if_true] at h
        obtain ⟨l, hl, hshape⟩ := ih _ h
        refine ⟨Call.tcpc_get_alert_status (e.tcpc_get_alert_status s.mem.world) ::
          Call.pd_is_port_enabled port (e.pd_is_port_enabled port s.mem.world) ::
          Call.tcpc_alert port :: l, ?_, ?_⟩
        · rw [hl]
          simp [call]
        · rw [drain_calls_round port _ _ _ l hv hen]
          exact hshape

theorem drain_enough_fuel {σ : Type} (e : Env σ) (port k : Nat) (s : State σ) (fuel : Nat)
    (hk : k < fuel)
    (hpass : ∀ j, j < k → (alert_pending e port (after_alerts e port j s)).1 = true)
    (hstop : (alert_pending e port (after_alerts e port k s)).1 = false) :
    drain_alerts e port fuel s = some (alert_pending e port (after_alerts e port k s)).2 := by
  induction k generalizing s fuel with
  | zero =>
    obtain ⟨f, rfl⟩ : ∃ f, fuel = f + 1 := ⟨fuel - 1, by omega⟩
    unfold drain_alerts
    simp only [after_alerts] at hstop ⊢
    simp [hstop]
  | succ k ih =>
    obtain ⟨f, rfl⟩ : ∃ f, fuel = f + 1 := ⟨fuel - 1, by omega⟩
    have h0 : (alert_pending e port s).1 = true := hpass 0 (by omega)
    unfold drain_alerts
    simp only [h0, if_true]
    exact ih _ f (by omega) (fun j hj => hpass (j + 1) (by omega)) hstop

/-- C25: one pass of the loop of `pd_interrupt_handler_task`, with `evt` the
events its wait returned. When `evt` does not contain `PD_PROCESS_INTERRUPT` the
pass makes no call besides the wait: no status read, no `tcpc_alert`. When it
does, the calls after the wait are rounds of status read with the port's bit
set, `pd_is_port_enabled(port)` non-zero and `tcpc_alert(port)`, ended by the
first check that fails, which is a status read with the bit clear or a status
read with the bit set and the port disabled; so `tcpc_alert(port)` only ever
directly follows a check that found the bit set and the port enabled. The pass
returns as soon as a check fails: if the first `k` checks hold and the next one
fails, any bound above `k` gives the result. -/
theorem interrupt_drain {σ : Type} (e : Env σ) (port fuel : Nat) (s : State σ) :
    (((e.task_wait_event (-1) s.mem).1 &&& PD_PROCESS_INTERRUPT = 0 →
      ∃ s1, pd_interrupt_handler_task_iteration e port fuel s = some s1 ∧
        s1.trace = s.trace ++
          [Call.task_wait_event (-1) (e.task_wait_event (-1) s.mem).1])) ∧
    (∀ s1, pd_interrupt_handler_task_iteration e port fuel s = some s1 →
      (e.task_wait_event (-1) s.mem).1 &&& PD_PROCESS_INTERRUPT ≠ 0 →
      ∃ l, s1.trace = s.trace ++
          Call.task_wait_event (-1) (e.task_wait_event (-1) s.mem).1 :: l ∧
        drain_calls port (e.PD_STATUS_TCPC_ALERT_0 <<< port) l = true) ∧
    (∀ k, k < fuel → (e.task_wait_event (-1) s.mem).1 &&& PD_PROCESS_INTERRUPT ≠ 0 →
      (∀ j, j < k → (alert_pending e port
        (after_alerts e port j (task_wait_event e (-1) s).2)).1 = true) →
      (alert_pending e port (after_alerts e port k (task_wait_event e (-1) s).2)).1 = false →
      pd_interrupt_handler_task_iteration e port fuel s
        = some (alert_pending e port
            (after_alerts e port k (task_wait_event e (-1) s).2)).2) := by
  have hevt : (task_wait_event e (-1) s).1 = (e.task_wait_event (-1) s.mem).1 := rfl
  have htr : (task_wait_event e (-1) s).2.trace
      = s.trace ++ [Call.task_wait_event (-1) (e.task_wait_event (-1) s.mem).1] := rfl
  refine ⟨?_, ?_, ?_⟩
  · intro h0
    unfold pd_interrupt_handler_task_iteration
    simp only [hevt, h0, ne_eq, not_true_eq_false, if_false]
    exact ⟨_, rfl, htr⟩
  · intro s1 h hset
    unfold pd_interrupt_handler_task_iteration at h
    simp only [hevt, hset, ne_eq, not_false_eq_true, if_true] at h
    obtain ⟨l, hl, hshape⟩ := drain_shape e port fuel _ s1 h
    refine ⟨l, ?_, hshape⟩
    rw [hl, htr]
    simp
  · intro k hk hset hpass hstop
    unfold pd_interrupt_handler_task_iteration
    simp only [hevt, hset, ne_eq, not_false_eq_true, if_true]
    exact drain_enough_fuel e port k _ fuel hk hpass hstop

theorem interrupt_drain_witness :
    ∃ s1, pd_interrupt_handler_task_iteration ec_env 0 5 int_state0 = some s1 ∧
      s1.trace = [Call.task_wait_event (-1) 1,
        Call.tcpc_get_alert_status 1, Call.pd_is_port_enabled 0 1, Call.tcpc_alert 0,
        Call.tcpc_get_alert_status 1, Call.pd_is_port_enabled 0 1, Call.tcpc_alert 0,
        Call.tcpc_get_alert_status 0] :=
  ⟨_, (interrupt_drain ec_env 0 5 int_state0).2.2 2 (by decide) (by decide) (by decide)
    (by decide), by decide⟩

end UsbcTask
